import Mathlib

/-!
# Comment harvester: ID codec, page loop, import path, repair service, retry and signing

A shallow embedding of parts of `crawler/blblcd/core/crypto.go`,
`crawler/blblcd/core/fetch.go`, `crawler/blblcd/core/comment.go`,
`crawler/blblcd/core/video.go`, `crawler/blblcd/crawler.go`, `crawler/blblcd/cli/video.go`,
`crawler/blblcd/cli/up.go`, `crawler/blblcd/model/option.go`, `backend/converter.go`,
`database/models.go`, `backend/repair_service.go`, `crawler/bili_info/util/retry.go` and
`crawler/bili_info/config/config.go`.

Conventions of the embedding.

* A Go `string` is a Lean `String` (Go strings that are valid UTF-8); `len(s)` is the
  UTF-8 byte size and `[]rune(s)` is the list of characters.
* A Go `int64` is an `Int` in the range `[-2^63, 2^63)`; arithmetic that may leave the
  range is wrapped by `wrap64`, the bit operations act on the two's complement pattern.
* A run-time panic (index out of range, nil dereference) is the value `none`; where
  comments are written to the store it is the outcome `panicked`.
* A statement that the database refuses is chosen by an argument of the function
  (`RebuildFault`, `fault`, `faults`); without it every statement succeeds.
-/

namespace Bili

set_option maxRecDepth 100000

/-! ## 64-bit integers -/

/-- The two's complement bit pattern of an `int64`, as a natural number below `2^64`. -/
def toU64 (x : Int) : Nat := (x % 18446744073709551616).toNat

/-- The `int64` denoted by a bit pattern. -/
def toI64 (n : Nat) : Int :=
  if n % 18446744073709551616 < 9223372036854775808 then ((n % 18446744073709551616 : Nat) : Int)
  else ((n % 18446744073709551616 : Nat) : Int) - 18446744073709551616

/-- Wrap-around of an arithmetic result into the `int64` range. -/
def wrap64 (x : Int) : Int := toI64 (toU64 x)

/-- Go `a & b` on `int64`. -/
def and64 (a b : Int) : Int := toI64 (toU64 a &&& toU64 b)

/-- Go `a | b` on `int64`. -/
def or64 (a b : Int) : Int := toI64 (toU64 a ||| toU64 b)

/-- Go `a ^ b` on `int64`. -/
def xor64 (a b : Int) : Int := toI64 (toU64 a ^^^ toU64 b)

/-! ## crypto.go: BVID/AVID conversion -/

/-- The constant `XOR_CODE = int64(23442827791579)`. -/
def XOR_CODE : Int := 23442827791579

/-- The constant `MAX_CODE = int64(2251799813685247)`, that is `2^51 - 1`. -/
def MAX_CODE : Int := 2251799813685247

/-- The 58-character alphabet `CHARTS`. -/
def CHARTS : List Char :=
  ['F', 'c', 'w', 'A', 'P', 'N', 'K', 'T', 'M', 'u', 'g', '3', 'G', 'V', '5', 'L', 'j', '7',
   'E', 'J', 'n', 'H', 'p', 'W', 's', 'x', '4', 't', 'b', '8', 'h', 'a', 'Y', 'e', 'v', 'i',
   'q', 'B', 'z', '6', 'r', 'k', 'C', 'y', '1', '2', 'm', 'U', 'S', 'D', 'Q', 'X', '9', 'R',
   'd', 'o', 'Z', 'f']

/-- Go `strings.IndexRune(s, c)` for an ASCII string `s`: the index of the first occurrence
of `c`, or `-1` when `c` does not occur. -/
def indexRune : List Char → Char → Int
  | [], _ => -1
  | x :: xs, c =>
    if x = c then 0
    else
      let r := indexRune xs c
      if r < 0 then -1 else r + 1

/-- Go `swapString(s, x, y)`: exchange the runes at `x` and `y`; `none` is the index-out-of-range
panic of `chars[x], chars[y] = chars[y], chars[x]`. -/
def swapString (s : List Char) (x y : Nat) : Option (List Char) :=
  match s.get? x, s.get? y with
  | some cx, some cy => some ((s.set x cy).set y cx)
  | _, _ => none

/-- The loop `for _, c := range bv1 { idx := IndexRune(CHARTS, c); temp = temp*58 + idx }`
of `Bvid2Avid`, started at `temp`. -/
def bvidTemp (bv1 : List Char) (temp : Int) : Int :=
  bv1.foldl (fun t c => wrap64 (wrap64 (t * 58) + indexRune CHARTS c)) temp

/-- Go `Bvid2Avid(bvid)`: `none` is a panic. -/
def Bvid2Avid (bvid : String) : Option Int :=
  if bvid.utf8ByteSize < 4 then some 0
  else
    match swapString bvid.toList 3 9 with
    | none => none
    | some s1 =>
      match swapString s1 4 7 with
      | none => none
      | some s =>
        if s.length < 3 then none
        else
          let bv1 := s.drop 3
          let temp := bvidTemp bv1 0
          some (xor64 (and64 temp MAX_CODE) XOR_CODE)

/-- The loop `for temp > 0 { idx := temp % 58; arr[bvIdx] = string(CHARTS[idx]); temp /= 58;
bvIdx-- }` of `Avid2Bvid` on the array `arr`; `none` is an index-out-of-range panic (or the
loop not finishing within `fuel` rounds). -/
def avid2bvidLoop : Nat → Int → List (List Char) → Int → Option (List (List Char))
  | 0, temp, arr, _ => if temp > 0 then none else some arr
  | fuel + 1, temp, arr, bvIdx =>
    if temp > 0 then
      let idx := Int.tmod temp 58
      match CHARTS.get? idx.toNat with
      | none => none
      | some ch =>
        if 0 ≤ bvIdx ∧ bvIdx.toNat < arr.length then
          avid2bvidLoop fuel (Int.tdiv temp 58) (arr.set bvIdx.toNat [ch]) (bvIdx - 1)
        else none
    else some arr

/-- Go `Avid2Bvid(avid)`: `none` is a panic. A positive `int64` has at most 11 base-58 digits,
so 64 rounds of the loop always suffice. -/
def Avid2Bvid (avid : Int) : Option String :=
  let arr : List (List Char) := [['B'], ['V'], ['1'], [], [], [], [], [], [], [], [], []]
  let bvIdx : Int := (arr.length : Int) - 1
  let temp := xor64 (or64 avid (wrap64 (MAX_CODE + 1))) XOR_CODE
  match avid2bvidLoop 64 temp arr bvIdx with
  | none => none
  | some arr1 =>
    let raw := arr1.flatten
    match swapString raw 3 9 with
    | none => none
    | some s1 =>
      match swapString s1 4 7 with
      | none => none
      | some s => some (String.mk s)

/-- The character `CHARTS[d]` written for the base-58 digit `d` (`'F'`, the digit zero, when
`d` is not a digit). -/
def digitChar (d : Int) : Char := (CHARTS.get? d.toNat).getD 'F'

/-- The twelve characters `Avid2Bvid` produces from a nine-digit value `t` of its variable
`temp`: the digits of `t`, most significant first, behind `BV1`, with positions 3, 9 and 4, 7
exchanged. -/
def bvidChars (t : Int) : List Char :=
  ['B', 'V', '1',
    digitChar (t / 58 / 58 % 58),
    digitChar (t / 58 / 58 / 58 / 58 % 58),
    digitChar (t / 58 / 58 / 58 / 58 / 58 / 58 % 58),
    digitChar (t / 58 / 58 / 58 / 58 / 58 % 58),
    digitChar (t / 58 / 58 / 58 / 58 / 58 / 58 / 58 % 58),
    digitChar (t / 58 / 58 / 58 % 58),
    digitChar (t / 58 / 58 / 58 / 58 / 58 / 58 / 58 / 58 % 58),
    digitChar (t / 58 % 58),
    digitChar (t % 58)]

/-- A valid public id in the sense of the specification: twelve characters, the first three
being `BV1`, the remaining nine drawn from `CHARTS`. -/
def validBvid (s : String) : Prop :=
  s.toList.length = 12 ∧ s.toList.take 3 = ['B', 'V', '1'] ∧ ∀ c ∈ s.toList.drop 3, c ∈ CHARTS

instance (s : String) : Decidable (validBvid s) := by
  unfold validBvid
  infer_instance

/-- The value of `temp` at the end of the loop of `Bvid2Avid`: the characters of `bvid` from
position 3 on, after the two swaps, read as base-58 digits (`none` when a swap panics). -/
def bvidValue (bvid : String) : Option Int :=
  (swapString bvid.toList 3 9).bind fun s1 =>
    (swapString s1 4 7).map fun s => bvidTemp (s.drop 3) 0

/-! ## fetch.go: the harvester

Conventions of this part.

* The page goroutines of `FindComment` are run one after another: the goroutine launched in
  a round of the main loop runs to completion before the next round starts.
* `ctx.Done()` is observed at numbered check points: round `i` of the main loop checks at
  `2 * i`, the page goroutine launched in round `i` checks at `2 * i + 1`; a context
  cancelled at a check point stays cancelled.
* The semaphore `sem` is its number of tokens together with its capacity. A send on a full
  semaphore, or a receive on an empty one, that no other goroutine can ever complete ends
  the run in the corresponding `Status`.
* `resultChan` is the list of the comments sent so far (sends do not block), and the
  checkpoint file `progress.json` is `none` (absent) or `some (page, downloadedCount)`.
* Counters are Go `int`s that never come near the 64-bit bounds; they are unbounded `Int`s.
* `FetchComment` and `FindSubComment` talk to the network; they are parameters (`Env`).
  `FetchComment` recovers from its own panics and returns them as errors.
-/

/-- The fields of `model.ReplyItem` the harvester reads. -/
inductive ReplyItem where
  | mk (Rpid : Int) (Oid : Int) (Mid : Int) (Parent : Int) (Rcount : Int) (Ctime : Int)
      (Message : String) (Replies : List ReplyItem)

/-- Field `Rpid`. -/
def ReplyItem.Rpid : ReplyItem → Int
  | .mk rpid _ _ _ _ _ _ _ => rpid

/-- Field `Oid`. -/
def ReplyItem.Oid : ReplyItem → Int
  | .mk _ oid _ _ _ _ _ _ => oid

/-- Field `Mid`. -/
def ReplyItem.Mid : ReplyItem → Int
  | .mk _ _ mid _ _ _ _ _ => mid

/-- Field `Parent`. -/
def ReplyItem.Parent : ReplyItem → Int
  | .mk _ _ _ parent _ _ _ _ => parent

/-- Field `Rcount`. -/
def ReplyItem.Rcount : ReplyItem → Int
  | .mk _ _ _ _ rcount _ _ _ => rcount

/-- Field `Ctime`, in Unix seconds. -/
def ReplyItem.Ctime : ReplyItem → Int
  | .mk _ _ _ _ _ ctime _ _ => ctime

/-- Field `Content.Message`. -/
def ReplyItem.Message : ReplyItem → String
  | .mk _ _ _ _ _ _ message _ => message

/-- Field `Replies`. -/
def ReplyItem.Replies : ReplyItem → List ReplyItem
  | .mk _ _ _ _ _ _ _ replies => replies

/-- The fields of `model.Comment` that the harvester and the import path read. -/
structure Comment where
  Rpid : Int
  Oid : Int
  Bvid : String
  Mid : Int
  Parent : Int
  Ctime : Int
  Content : String
  Replies : List ReplyItem

/-- Go `NewCMT(&k)` for a non-nil item. `Avid2Bvid` is only called with a positive `Oid`, for
which it does not panic (`Avid2Bvid_isSome`). -/
def NewCMT (item : ReplyItem) : Comment :=
  let bvid0 : String := if item.Oid > 0 then (Avid2Bvid item.Oid).getD "" else ""
  let bvid : String :=
    if ¬ ("BV".toList.isPrefixOf bvid0.toList = true) ∨ bvid0.utf8ByteSize ≠ 12 then ""
    else bvid0
  { Rpid := item.Rpid, Oid := item.Oid, Bvid := bvid, Mid := item.Mid, Parent := item.Parent,
    Ctime := item.Ctime, Content := item.Message, Replies := [] }

/-- The fields of `model.CommentResponse` the page goroutine reads. -/
structure CommentResponse where
  Code : Int
  Replies : List ReplyItem
  TopReplies : List ReplyItem
  IsEnd : Bool
  NextOffset : String

/-- The fields of `model.Option` that the harvester and `FindUser` read. -/
structure model.Option where
  Pages : Int
  Skip : Int
  MaxTryCount : Int
  Workers : Nat
  DelayBaseMs : Int
  DelayJitterMs : Int

/-- What the harvester gets from outside: `FetchComment pageNum offset` (`none` is a
non-nil `err`), `FindSubComment k`, and the check point from which `ctx` is cancelled. -/
structure Env where
  FetchComment : Int → String → Option CommentResponse
  FindSubComment : ReplyItem → List ReplyItem
  cancelFrom : Option Nat

/-- Whether `<-ctx.Done()` is ready at check point `n`. -/
def Env.ctxDone (env : Env) (n : Nat) : Bool :=
  match env.cancelFrom with
  | none => false
  | some c => decide (c ≤ n)

/-- The variables shared by the main loop and the page goroutines, the files and channels
they write, and the number of page goroutines launched so far. -/
structure HarvestState where
  page : Int
  downloadedCount : Int
  consecutiveEmptyPages : Int
  offsetStr : String
  recordedMap : Finset Int
  resultChan : List Comment
  progressFile : Option (Int × Int)
  launched : Nat

/-- The local variables of one run of the dedup loop of the page goroutine. -/
structure DedupAcc where
  recordedMap : Finset Int
  cmtCollection : List Comment
  resultChan : List Comment
  newCommentCount : Int

/-- The loop `for _, k := range replyCollection { if _, ok := recordedMap[k.Rpid]; !ok {...} }`
of the page goroutine. -/
def dedupLoop : List ReplyItem → DedupAcc → DedupAcc
  | [], acc => acc
  | k :: ks, acc =>
    if k.Rpid ∈ acc.recordedMap then dedupLoop ks acc
    else
      let cmt := NewCMT k
      dedupLoop ks
        { recordedMap := insert cmt.Rpid acc.recordedMap
          cmtCollection := acc.cmtCollection ++ [cmt]
          resultChan := acc.resultChan ++ [cmt]
          newCommentCount := acc.newCommentCount + 1 }

/-- The sub-comment part of the assembly of `replyCollection`: for each reply of the page
with `Rcount ≠ 0`, its inline replies when they are complete, else `FindSubComment`. -/
def subReplies (env : Env) : List ReplyItem → List ReplyItem
  | [] => []
  | k :: ks =>
    if k.Rcount = 0 then subReplies env ks
    else if k.Replies.length > 0 ∧ (k.Replies.length : Int) = k.Rcount then
      k.Replies ++ subReplies env ks
    else env.FindSubComment k ++ subReplies env ks

/-- The inline replies of the pinned comments. -/
def topSubReplies : List ReplyItem → List ReplyItem
  | [] => []
  | k :: ks => if k.Replies.length > 0 then k.Replies ++ topSubReplies ks else topSubReplies ks

/-- The assembly of `replyCollection` from a page. -/
def replyCollection (env : Env) (cmtInfo : CommentResponse) : List ReplyItem :=
  let c1 := cmtInfo.Replies ++ subReplies env cmtInfo.Replies
  if cmtInfo.TopReplies.length ≠ 0 then
    c1 ++ cmtInfo.TopReplies ++ topSubReplies cmtInfo.TopReplies
  else c1

/-- The dedup step of the page goroutine, between `mu.Lock()` and `mu.Unlock()`: the dedup
loop, the update of `consecutiveEmptyPages` and of `downloadedCount`. -/
def dedupStep (st : HarvestState) (items : List ReplyItem) : HarvestState :=
  let acc := dedupLoop items
    { recordedMap := st.recordedMap, cmtCollection := [], resultChan := st.resultChan,
      newCommentCount := 0 }
  { st with
    recordedMap := acc.recordedMap
    resultChan := acc.resultChan
    consecutiveEmptyPages := if acc.newCommentCount = 0 then st.consecutiveEmptyPages + 1 else 0
    downloadedCount := st.downloadedCount + acc.newCommentCount }

/-- The body of the page goroutine `func(pageNum int, offset string)`, run at check point
`chk`. A panic of `rand.Int63n` (its argument `DelayJitterMs` is not positive) is recovered
by the deferred function and leaves the shared variables as they are. -/
def pageWorker (env : Env) (opt : model.Option) (st : HarvestState) (pageNum : Int)
    (offset : String) (chk : Nat) : HarvestState :=
  if env.ctxDone chk then st
  else if opt.DelayJitterMs ≤ 0 then st
  else
    match env.FetchComment pageNum offset with
    | none => { st with consecutiveEmptyPages := st.consecutiveEmptyPages + 1 }
    | some cmtInfo =>
      if cmtInfo.Code ≠ 0 then
        { st with consecutiveEmptyPages := st.consecutiveEmptyPages + 1 }
      else if cmtInfo.IsEnd then
        { st with consecutiveEmptyPages := opt.MaxTryCount }
      else
        let st1 := dedupStep st (replyCollection env cmtInfo)
        let st2 := { st1 with progressFile := some (pageNum + 1, st1.downloadedCount) }
        if cmtInfo.NextOffset ≠ "" then { st2 with offsetStr := cmtInfo.NextOffset }
        else st2

/-- How a run of the main loop, or of `FindComment`, ends. -/
inductive Status where
  | returned
  | blockedOnSend
  | blockedOnReceive
  | outOfFuel
  deriving DecidableEq, Repr

/-- The loop `mainLoop: for { ... }` of `FindComment`, round `i`, with `semTokens` tokens
in a semaphore of capacity `semCap` (the page goroutine gives back the token it was
launched with, so the number of tokens is the same at the start of every round). -/
def mainLoop (env : Env) (opt : model.Option) (total : Int) (semCap semTokens : Nat) :
    Nat → Nat → HarvestState → HarvestState × Status
  | 0, _, st => (st, Status.outOfFuel)
  | fuel + 1, i, st =>
    if env.ctxDone (2 * i) then
      ({ st with progressFile := some (st.page, st.downloadedCount) }, Status.returned)
    else if st.downloadedCount ≥ total then (st, Status.returned)
    else if st.consecutiveEmptyPages ≥ opt.MaxTryCount then (st, Status.returned)
    else if semCap ≤ semTokens then (st, Status.blockedOnSend)
    else
      let st1 := pageWorker env opt st st.page st.offsetStr (2 * i + 1)
      mainLoop env opt total semCap semTokens fuel (i + 1)
        { st1 with page := st.page + 1, launched := st.launched + 1 }

/-- The deferred function of `FindComment`: `<-sem` needs a token. -/
def releaseSem (semTokens : Nat) (st : HarvestState) : HarvestState × Status :=
  if semTokens = 0 then (st, Status.blockedOnReceive) else (st, Status.returned)

/-- The variables of `FindComment` before the checkpoint is loaded; `progressFile` is the
checkpoint file as found. -/
def initState (progressFile : Option (Int × Int)) : HarvestState :=
  { page := 1, downloadedCount := 0, consecutiveEmptyPages := 0, offsetStr := "",
    recordedMap := ∅, resultChan := [], progressFile := progressFile, launched := 0 }

/-- The variables of `FindComment` after `loadProgress`: a checkpoint restores `page` and
`downloadedCount`. -/
def loadedState (progressFile : Option (Int × Int)) : HarvestState :=
  match progressFile with
  | some (page, downloadedCount) =>
    { initState progressFile with page := page, downloadedCount := downloadedCount }
  | none => initState progressFile

/-- Go `FindComment(ctx, sem, wg, avid, opt, resultChan)`: `count` is what `FetchCount` returns
(`none` is a non-nil `err`), `progressFile` the checkpoint file found at the start, `fuel`
bounds the number of rounds of the main loop. The result is the final state (with the
comments sent to `resultChan`) and how the call ended. After the loop `removeProgress`
deletes the checkpoint file, on every way out of the loop. -/
def FindComment (env : Env) (opt : model.Option) (semCap semTokens : Nat) (count : Option Int)
    (progressFile : Option (Int × Int)) (fuel : Nat) : HarvestState × Status :=
  match count with
  | none => releaseSem semTokens (initState progressFile)
  | some total =>
    if total = 0 then releaseSem semTokens (initState progressFile)
    else
      match mainLoop env opt total semCap semTokens fuel 0 (loadedState progressFile) with
      | (st2, Status.returned) => releaseSem semTokens { st2 with progressFile := none }
      | (st2, status) => (st2, status)

/-- The main loop halts at `n`: with `n` rounds of fuel it ends otherwise than by running
out of fuel, and more fuel does not change its result. -/
def HaltsAt (env : Env) (opt : model.Option) (total : Int) (semCap semTokens : Nat)
    (i : Nat) (st : HarvestState) (n : Nat) : Prop :=
  (mainLoop env opt total semCap semTokens n i st).2 ≠ Status.outOfFuel
    ∧ ∀ fuel, n ≤ fuel →
      mainLoop env opt total semCap semTokens fuel i st
        = mainLoop env opt total semCap semTokens n i st

/-- An environment in which every request of a page fails and `ctx` is never cancelled. -/
def envFail : Env :=
  { FetchComment := fun _ _ => none, FindSubComment := fun _ => [], cancelFrom := none }

/-! ## crawler.go -/

/-- Go `CrawlVideo(ctx, bvid, opt)`: the comments collected from `resultChan`, or `none` when
`findWg.Wait()` never returns because the goroutine running `FindComment` does not finish.
A panic of `Bvid2Avid` is recovered by the goroutine, which then finishes. -/
def CrawlVideo (env : Env) (opt : model.Option) (bvid : String) (count : Option Int)
    (progressFile : Option (Int × Int)) (fuel : Nat) : Option (List Comment) :=
  match Bvid2Avid bvid with
  | none => some []
  | some _ =>
    match FindComment env opt opt.Workers 0 count progressFile fuel with
    | (st, Status.returned) => some st.resultChan
    | _ => none

/-- The comments one dedup step sends to `resultChan`: its local list `cmtCollection`. -/
def emittedBy (st : HarvestState) (items : List ReplyItem) : List Comment :=
  (dedupLoop items
    { recordedMap := st.recordedMap, cmtCollection := [], resultChan := st.resultChan,
      newCommentCount := 0 }).cmtCollection

/-- The invariant of a harvest started without a checkpoint: the comments sent so far have
pairwise distinct rpids, these rpids are the keys of `recordedMap`, and `downloadedCount` is
their number. -/
def HarvestInv (st : HarvestState) : Prop :=
  (st.resultChan.map Comment.Rpid).Nodup
    ∧ (st.resultChan.map Comment.Rpid).toFinset = st.recordedMap
    ∧ st.downloadedCount = (st.recordedMap.card : Int)

/-- A top-level reply without children, as in scenario S1. -/
def topLevelReply (rpid : Int) : ReplyItem := ReplyItem.mk rpid 2 7 0 0 1700000000 "text" []

/-- The options of the scenarios: the defaults of `NewDefaultOption`. -/
def defaultOption : model.Option :=
  { Pages := 10, Skip := 0, MaxTryCount := 3, Workers := 5, DelayBaseMs := 3000,
    DelayJitterMs := 2000 }

/-- Scenario S1: page 1 carries the replies 10 and 20 and `cursor.isEnd = true`; any further
request fails. -/
def envS1 : Env :=
  { FetchComment := fun pageNum _ =>
      if pageNum = 1 then
        some { Code := 0, Replies := [topLevelReply 10, topLevelReply 20], TopReplies := [],
               IsEnd := true, NextOffset := "" }
      else none
    FindSubComment := fun _ => []
    cancelFrom := none }

/-- A harvest that is cancelled after its first page: page 1 carries the replies 10 and 20
(the cursor does not report the end), and `ctx` is cancelled from check point 2 on, the check
of the second round of the main loop. -/
def envCancel : Env :=
  { FetchComment := fun _ _ =>
      some { Code := 0, Replies := [topLevelReply 10, topLevelReply 20], TopReplies := [],
             IsEnd := false, NextOffset := "next" }
    FindSubComment := fun _ => []
    cancelFrom := some 2 }

/-! ## database/models.go and backend/converter.go: the import path

The store is the four tables as lists of rows. Statements of the database driver succeed;
what is modelled is their effect on the tables, and the panics of the Go code around them.
Columns and fields that are only copied (pictures, author attributes) are left out. A `title`
or `content` that is NULL is the empty string, which the queries treat alike; the statements
of the program write no NULL into the other columns kept here. The foreign keys that the
schema declares are not enforced: `InitDB` does not switch them on. -/

/-- The fields of `database.Comment` the import path reads or writes. -/
structure database.Comment where
  UniqueID : String
  BVid : String
  Rpid : Int
  Content : String
  Parent : String
  Ctime : Int
  Replies : List String

/-- A row of `bilibili_comments`. -/
structure CommentRow where
  unique_id : String
  bvid : String
  rpid : Int
  content : String
  parent : String
  ctime : Int
  deriving DecidableEq

/-- A row of `video_info`. -/
structure VideoRow where
  bvid : String
  title : String
  deriving DecidableEq

/-- The tables `video_info`, `bilibili_comments`, `comment_relations`
(`parent_id`, `child_id`) and `comment_stats` (`bvid`, `comment_count`). The position of a
row in its list is its `rowid`. -/
structure Store where
  video_info : List VideoRow
  bilibili_comments : List CommentRow
  comment_relations : List (String × String)
  comment_stats : List (String × Int)

/-- How a call of the import path ends. -/
inductive Outcome where
  | ok
  | error
  | panicked
  deriving DecidableEq, Repr

/-- Go `strconv.FormatInt(x, 10)`, also `%d` of `fmt.Sprintf`. -/
def FormatInt (x : Int) : String := toString x

/-- Go `convertToDBComment(comment)`: `none` is the `nil` returned for a rejected record. The
branch `comment.Rpid == 0` behind the guard `comment.Rpid <= 0` is never reached. -/
def convertToDBComment (comment : Comment) : Option database.Comment :=
  if "http".toList.isPrefixOf comment.Bvid.toList = true ∨ '/' ∈ comment.Bvid.toList then none
  else if comment.Rpid ≤ 0 then none
  else
    let uniqueID := comment.Bvid ++ "_" ++ FormatInt comment.Rpid
    let replies := comment.Replies.map fun reply => comment.Bvid ++ "_" ++ FormatInt reply.Rpid
    let parentID :=
      if comment.Parent ≠ 0 then comment.Bvid ++ "_" ++ FormatInt comment.Parent else "0"
    some { UniqueID := uniqueID, BVid := comment.Bvid, Rpid := comment.Rpid,
           Content := comment.Content, Parent := parentID, Ctime := comment.Ctime,
           Replies := replies }

/-- The slices `l[0:n]`, `l[n:2n]`, ... of the two nested loops of `BatchSaveComments`;
`k` elements are already in the current slice `cur`. -/
def chunksAux {α : Type} (n : Nat) : List α → Nat → List α → List (List α)
  | [], _, cur => if cur.isEmpty then [] else [cur]
  | x :: xs, k, cur =>
    if k + 1 = n then (cur ++ [x]) :: chunksAux n xs 0 []
    else chunksAux n xs (k + 1) (cur ++ [x])

/-- The statement `INSERT OR REPLACE INTO bilibili_comments` for one row. -/
def upsertRow (rows : List CommentRow) (r : CommentRow) : List CommentRow :=
  rows.filter (fun x => decide (x.unique_id ≠ r.unique_id)) ++ [r]

/-- The row `BatchSaveComments` writes for a comment: `unique_id` is recomputed as
`fmt.Sprintf("%s_%d", comment.BVid, comment.Rpid)`. -/
def rowOf (c : database.Comment) : CommentRow :=
  { unique_id := c.BVid ++ "_" ++ FormatInt c.Rpid, bvid := c.BVid, rpid := c.Rpid,
    content := c.Content, parent := c.Parent, ctime := c.Ctime }

/-- One batch of at most 100 comments: the loop that builds the values dereferences every
comment (`none`, a nil pointer, panics) before the multi-row insert is executed. -/
def saveBatch (rows : List CommentRow) (batch : List (Option database.Comment)) :
    Option (List CommentRow) :=
  if batch.all Option.isSome then
    some (batch.foldl (fun rs c => match c with
      | some c => upsertRow rs (rowOf c)
      | none => rs) rows)
  else none

/-- One chunk of at most 1000 comments, a transaction: `none` when a batch panics, in which
case the transaction is never committed. -/
def saveChunk (rows : List CommentRow) (chunk : List (Option database.Comment)) :
    Option (List CommentRow) :=
  (chunksAux 100 chunk 0 []).foldl (fun acc batch => acc.bind fun rs => saveBatch rs batch)
    (some rows)

/-- The loop over the chunks: the rows as of the last commit, and whether a chunk
panicked. -/
def saveChunks : List CommentRow → List (List (Option database.Comment)) →
    List CommentRow × Outcome
  | rows, [] => (rows, Outcome.ok)
  | rows, chunk :: rest =>
    match saveChunk rows chunk with
    | none => (rows, Outcome.panicked)
    | some rows1 => saveChunks rows1 rest

/-- Go `BatchSaveComments(comments)` on a list of pointers (`none` is `nil`). -/
def BatchSaveComments (store : Store) (comments : List (Option database.Comment)) :
    Store × Outcome :=
  if comments.length = 0 then (store, Outcome.ok)
  else
    let r := saveChunks store.bilibili_comments (chunksAux 1000 comments 0 [])
    ({ store with bilibili_comments := r.1 }, r.2)

/-- Go `SaveCommentRelations(parentID, childIDs)`: `INSERT OR IGNORE` of every pair. -/
def SaveCommentRelations (store : Store) (parentID : String) (childIDs : List String) : Store :=
  { store with
    comment_relations := childIDs.foldl (fun rel childID =>
      if (parentID, childID) ∈ rel then rel else rel ++ [(parentID, childID)])
      store.comment_relations }

/-- Go `UpdateCommentStats(bvid)`: `INSERT OR REPLACE` of the number of rows of `bvid` with
`parent = '0'`. -/
def UpdateCommentStats (store : Store) (bvid : String) : Store :=
  { store with
    comment_stats :=
      store.comment_stats.filter (fun s => decide (s.1 ≠ bvid))
        ++ [(bvid, ((store.bilibili_comments.filter fun r =>
              decide (r.bvid = bvid ∧ r.parent = "0")).length : Int))] }

/-- Go `RebuildAllCommentRelations(bvid)`: delete every edge with an end among the comments of
`bvid`, then `INSERT OR IGNORE` the edge `(parent, unique_id)` of every comment of `bvid`
with `parent != '0'`. -/
def RebuildAllCommentRelations (store : Store) (bvid : String) : Store :=
  let ids := (store.bilibili_comments.filter fun r => decide (r.bvid = bvid)).map
    CommentRow.unique_id
  let kept := store.comment_relations.filter fun e => decide (¬ (e.1 ∈ ids ∨ e.2 ∈ ids))
  let children := store.bilibili_comments.filter fun r =>
    decide (r.bvid = bvid ∧ r.parent ≠ "0")
  { store with
    comment_relations := children.foldl (fun rel r =>
      if (r.parent, r.unique_id) ∈ rel then rel else rel ++ [(r.parent, r.unique_id)]) kept }

/-- The loop of `importCommentsToDB` over `dbComments` that saves the reply relations;
`len(dbComment.Replies)` on a nil pointer panics. -/
def saveAllRelations : Store → List (Option database.Comment) → Store × Outcome
  | store, [] => (store, Outcome.ok)
  | store, none :: _ => (store, Outcome.panicked)
  | store, some c :: rest =>
    if c.Replies.length > 0 then
      saveAllRelations
        (SaveCommentRelations store (c.BVid ++ "_" ++ FormatInt c.Rpid) c.Replies) rest
    else saveAllRelations store rest

/-- Go `importCommentsToDB(bvid, comments)`. Every converted comment is appended to `dbComments`,
also the `nil` of a rejected record. -/
def importCommentsToDB (store : Store) (bvid : String) (comments : List Comment) :
    Store × Outcome :=
  if comments.length = 0 then (store, Outcome.ok)
  else
    let dbComments := comments.map convertToDBComment
    match BatchSaveComments store dbComments with
    | (store1, Outcome.ok) =>
      match saveAllRelations store1 dbComments with
      | (store2, Outcome.ok) =>
        (RebuildAllCommentRelations (UpdateCommentStats store2 bvid) bvid, Outcome.ok)
      | r => r
    | r => r

/-- The empty store. -/
def emptyStore : Store :=
  { video_info := [], bilibili_comments := [], comment_relations := [], comment_stats := [] }

/-- A harvested top-level comment of the video `BV1xx411c7mD`. -/
def harvested (rpid : Int) : Comment :=
  { Rpid := rpid, Oid := 2, Bvid := "BV1xx411c7mD", Mid := 7, Parent := 0,
    Ctime := 1700000000, Content := "text", Replies := [] }

/-- What can go wrong in `RebuildAllCommentRelations`: the statement that fails. `scanFails i`
and `insertFails i` fail at the row with index `i` of the query result. -/
inductive RebuildFault where
  | deleteFails
  | queryFails
  | beginFails
  | prepareFails
  | scanFails (i : Nat)
  | insertFails (i : Nat)
  | rowsErr
  | commitFails

/-- The edges left by the `DELETE` of `RebuildAllCommentRelations(bvid)`, which is executed
on `db` itself, before the transaction is begun. -/
def edgesAfterDelete (store : Store) (bvid : String) : List (String × String) :=
  let ids := (store.bilibili_comments.filter fun r => decide (r.bvid = bvid)).map
    CommentRow.unique_id
  store.comment_relations.filter fun e => decide (¬ (e.1 ∈ ids ∨ e.2 ∈ ids))

/-- Go `RebuildAllCommentRelations(bvid)` with an error of the database: the `DELETE` is
committed on its own; the inserts run in the transaction begun after it, which is rolled
back (or not committed) when a later statement fails. A fault at a row the query does not
return never happens. -/
def rebuildWithFault (store : Store) (bvid : String) (fault : Option RebuildFault) :
    Store × Outcome :=
  let deleted : Store := { store with comment_relations := edgesAfterDelete store bvid }
  let children := store.bilibili_comments.filter fun r =>
    decide (r.bvid = bvid ∧ r.parent ≠ "0")
  match fault with
  | none => (RebuildAllCommentRelations store bvid, Outcome.ok)
  | some RebuildFault.deleteFails => (store, Outcome.error)
  | some RebuildFault.queryFails => (deleted, Outcome.error)
  | some RebuildFault.beginFails => (deleted, Outcome.error)
  | some RebuildFault.prepareFails => (deleted, Outcome.error)
  | some (RebuildFault.scanFails i) =>
    if i < children.length then (deleted, Outcome.error)
    else (RebuildAllCommentRelations store bvid, Outcome.ok)
  | some (RebuildFault.insertFails i) =>
    if i < children.length then (deleted, Outcome.error)
    else (RebuildAllCommentRelations store bvid, Outcome.ok)
  | some RebuildFault.rowsErr => (deleted, Outcome.error)
  | some RebuildFault.commitFails => (deleted, Outcome.error)

/-! ## backend/repair_service.go: the consistency engine

The queries of the validators and the statements of the repairs are evaluated on the lists
of rows; `now` is `time.Now().Unix()`. The queries of the validators succeed. Of an `Issue`
the texts `Description`, `Details`, `Category` and `Level` are left out. Where SQL leaves
the order of a result open (`GROUP BY`, `DISTINCT`), the order of first occurrence is taken. -/

/-- The fields of `Issue` that the engine computes with (`Type_` is the field `Type`). -/
structure Issue where
  Type_ : String
  Severity : String
  Count : Int
  Fixable : Bool
  Fixed : Bool
  AffectedBVids : List String
  deriving DecidableEq

/-- The anonymous struct `Summary` of `ValidationResult`. -/
structure Summary where
  TotalVideos : Int
  TotalComments : Int
  IssuesFound : Int
  IssuesFixed : Int
  IssuesUnfixable : Int
  deriving DecidableEq

/-- The struct `ValidationResult`. -/
structure ValidationResult where
  Issues : List Issue
  Summary : Summary

/-- The constant `ErrorTypeEmptyVideoTitle`. -/
def ErrorTypeEmptyVideoTitle : String := "empty_video_title"

/-- The constant `ErrorTypeDuplicateBvid`. -/
def ErrorTypeDuplicateBvid : String := "duplicate_bvid"

/-- The constant `ErrorTypeVideoMissingComments`. -/
def ErrorTypeVideoMissingComments : String := "video_missing_comments"

/-- The constant `ErrorTypeOrphanComments`. -/
def ErrorTypeOrphanComments : String := "orphan_comments"

/-- The constant `ErrorTypeDuplicateComments`. -/
def ErrorTypeDuplicateComments : String := "duplicate_comments"

/-- The constant `ErrorTypeEmptyCommentContent`. -/
def ErrorTypeEmptyCommentContent : String := "empty_comment_content"

/-- The constant `ErrorTypeInvalidTimestamp`. -/
def ErrorTypeInvalidTimestamp : String := "invalid_timestamp"

/-- The constant `ErrorTypeInvalidParentRef`. -/
def ErrorTypeInvalidParentRef : String := "invalid_parent_reference"

/-- The constant `ErrorTypeInvalidChildRef`. -/
def ErrorTypeInvalidChildRef : String := "invalid_child_reference"

/-- The constant `ErrorTypeSelfReference`. -/
def ErrorTypeSelfReference : String := "self_reference"

/-- The constant `ErrorTypeMissingCommentRelations`. -/
def ErrorTypeMissingCommentRelations : String := "missing_comment_relations"

/-- The constant `ErrorTypeParentNotExist`. -/
def ErrorTypeParentNotExist : String := "parent_not_exist"

/-- The constant `ErrorTypeInconsistentStats`. -/
def ErrorTypeInconsistentStats : String := "inconsistent_stats"

/-- The constant `ErrorTypeMissingStats`. -/
def ErrorTypeMissingStats : String := "missing_stats"

/-- The issue a validator appends when its count is positive, else nothing. -/
def issueIf (type severity : String) (count : Nat) (affected : List String) : List Issue :=
  if count > 0 then
    [{ Type_ := type, Severity := severity, Count := (count : Int), Fixable := true,
       Fixed := false, AffectedBVids := affected }]
  else []

/-- The values of a column that occur in more than one row (`GROUP BY ... HAVING cnt > 1`). -/
def duplicatedKeys (keys : List String) : List String :=
  keys.dedup.filter fun k => decide (1 < keys.count k)

/-- The unique ids of the stored comments. -/
def commentIds (store : Store) : List String :=
  store.bilibili_comments.map CommentRow.unique_id

/-- The number of stored comments of `bvid` (`COUNT(*) ... WHERE bvid = ?`). -/
def commentCount (store : Store) (bvid : String) : Nat :=
  (store.bilibili_comments.filter fun r => decide (r.bvid = bvid)).length

/-- The rows of `video_info` with an empty title. -/
def emptyTitleVideos (store : Store) : List VideoRow :=
  store.video_info.filter fun v => decide (v.title = "")

/-- Go `validateEmptyVideoTitles`. -/
def validateEmptyVideoTitles (store : Store) : List Issue :=
  issueIf ErrorTypeEmptyVideoTitle "medium" (emptyTitleVideos store).length
    (((emptyTitleVideos store).map VideoRow.bvid).take 10)

/-- Go `validateDuplicateBVids`. -/
def validateDuplicateBVids (store : Store) : List Issue :=
  issueIf ErrorTypeDuplicateBvid "high"
    (duplicatedKeys (store.video_info.map VideoRow.bvid)).length
    ((duplicatedKeys (store.video_info.map VideoRow.bvid)).take 10)

/-- The rows of `video_info` without a stored comment. -/
def videosMissingComments (store : Store) : List VideoRow :=
  store.video_info.filter fun v =>
    decide (v.bvid ∉ store.bilibili_comments.map CommentRow.bvid)

/-- Go `validateVideosMissingComments`. -/
def validateVideosMissingComments (store : Store) : List Issue :=
  issueIf ErrorTypeVideoMissingComments "high" (videosMissingComments store).length
    (((videosMissingComments store).map VideoRow.bvid).take 10)

/-- Go `validateVideoTable`. -/
def validateVideoTable (store : Store) : List Issue :=
  validateEmptyVideoTitles store ++ validateDuplicateBVids store
    ++ validateVideosMissingComments store

/-- The stored comments without a row in `video_info`. -/
def orphanComments (store : Store) : List CommentRow :=
  store.bilibili_comments.filter fun r =>
    decide (r.bvid ∉ store.video_info.map VideoRow.bvid)

/-- Go `validateOrphanComments`. -/
def validateOrphanComments (store : Store) : List Issue :=
  issueIf "orphan_comments" "high" (orphanComments store).length []

/-- Go `validateDuplicateComments`. -/
def validateDuplicateComments (store : Store) : List Issue :=
  issueIf "duplicate_comments" "medium" (duplicatedKeys (commentIds store)).length []

/-- Go `validateEmptyCommentContent`. -/
def validateEmptyCommentContent (store : Store) : List Issue :=
  issueIf "empty_comment_content" "low"
    (store.bilibili_comments.filter fun r => decide (r.content = "")).length []

/-- Go `validateInvalidTimestamps`. -/
def validateInvalidTimestamps (store : Store) (now : Int) : List Issue :=
  issueIf "invalid_timestamp" "medium"
    (store.bilibili_comments.filter fun r =>
      decide (r.ctime < 0 ∨ r.ctime > now + 86400)).length []

/-- Go `validateCommentTable`. -/
def validateCommentTable (store : Store) (now : Int) : List Issue :=
  validateOrphanComments store ++ validateDuplicateComments store
    ++ validateEmptyCommentContent store ++ validateInvalidTimestamps store now

/-- Go `validateInvalidParentReferences`. -/
def validateInvalidParentReferences (store : Store) : List Issue :=
  issueIf "invalid_parent_reference" "high"
    (store.comment_relations.filter fun e => decide (e.1 ∉ commentIds store)).length []

/-- Go `validateInvalidChildReferences`. -/
def validateInvalidChildReferences (store : Store) : List Issue :=
  issueIf "invalid_child_reference" "high"
    (store.comment_relations.filter fun e => decide (e.2 ∉ commentIds store)).length []

/-- Go `validateSelfReferences`. -/
def validateSelfReferences (store : Store) : List Issue :=
  issueIf "self_reference" "medium"
    (store.comment_relations.filter fun e => decide (e.1 = e.2)).length []

/-- The stored comments whose `parent` is not `'0'` and is not the unique id of a stored
comment. -/
def parentNotExistRows (store : Store) : List CommentRow :=
  store.bilibili_comments.filter fun r =>
    decide (r.parent ≠ "0" ∧ r.parent ∉ commentIds store)

/-- Go `validateParentNotExist`. -/
def validateParentNotExist (store : Store) : List Issue :=
  issueIf ErrorTypeParentNotExist "high" (parentNotExistRows store).length []

/-- Go `validateMissingCommentRelations`. -/
def validateMissingCommentRelations (store : Store) : List Issue :=
  issueIf ErrorTypeMissingCommentRelations "high"
    (store.bilibili_comments.filter fun r =>
      decide (r.parent ≠ "0" ∧ r.parent ∈ commentIds store
        ∧ (r.parent, r.unique_id) ∉ store.comment_relations)).length []

/-- Go `validateCommentRelations`. -/
def validateCommentRelations (store : Store) : List Issue :=
  validateInvalidParentReferences store ++ validateInvalidChildReferences store
    ++ validateSelfReferences store ++ validateParentNotExist store
    ++ validateMissingCommentRelations store

/-- The rows of `comment_stats` that `validateInconsistentStats` counts: the left join gives
`actual_count IS NULL` for a bvid without stored comments. -/
def inconsistentStatsRows (store : Store) : List (String × Int) :=
  store.comment_stats.filter fun s =>
    decide (s.2 ≠ (commentCount store s.1 : Int) ∨ commentCount store s.1 = 0)

/-- Go `validateInconsistentStats`. -/
def validateInconsistentStats (store : Store) : List Issue :=
  issueIf ErrorTypeInconsistentStats "medium" (inconsistentStatsRows store).length
    (((inconsistentStatsRows store).map Prod.fst).take 10)

/-- The rows of `video_info` without a row in `comment_stats`. -/
def videosMissingStats (store : Store) : List VideoRow :=
  store.video_info.filter fun v => decide (v.bvid ∉ store.comment_stats.map Prod.fst)

/-- Go `validateMissingStats`. -/
def validateMissingStats (store : Store) : List Issue :=
  issueIf ErrorTypeMissingStats "low" (videosMissingStats store).length
    (((videosMissingStats store).map VideoRow.bvid).take 10)

/-- Go `validateCommentStats`. -/
def validateCommentStats (store : Store) : List Issue :=
  validateInconsistentStats store ++ validateMissingStats store

/-- Go `calculateSummary`: only the two totals are set. -/
def calculateSummary (store : Store) : Summary :=
  { TotalVideos := (store.video_info.length : Int)
    TotalComments := (store.bilibili_comments.length : Int)
    IssuesFound := 0, IssuesFixed := 0, IssuesUnfixable := 0 }

/-- Go `ValidateDatabase`. -/
def ValidateDatabase (store : Store) (now : Int) : ValidationResult :=
  { Issues := validateVideoTable store ++ validateCommentTable store now
      ++ validateCommentRelations store ++ validateCommentStats store
    Summary := calculateSummary store }

/-- The rows with the smallest `rowid` of each key (`rowid IN (SELECT MIN(rowid) ... GROUP BY
key)`): a row is kept unless its key is among those `seen` before it. -/
def keepFirstBy {α : Type} (key : α → String) : List α → List String → List α
  | [], _ => []
  | x :: xs, seen =>
    if key x ∈ seen then keepFirstBy key xs seen
    else x :: keepFirstBy key xs (key x :: seen)

/-- Go `fixEmptyVideoTitles`. -/
def fixEmptyVideoTitles (store : Store) : Store :=
  { store with
    video_info := store.video_info.map fun v =>
      if v.title = "" then { v with title := "未知标题" } else v }

/-- Go `fixDuplicateBVids`. -/
def fixDuplicateBVids (store : Store) : Store :=
  { store with video_info := keepFirstBy VideoRow.bvid store.video_info [] }

/-- Go `fixVideoMissingComments`: a video is deleted only when it has neither a stored
comment nor a row in `comment_stats`. -/
def fixVideoMissingComments (store : Store) : Store :=
  { store with
    video_info := store.video_info.filter fun v =>
      decide (¬ (v.bvid ∉ store.bilibili_comments.map CommentRow.bvid
        ∧ v.bvid ∉ store.comment_stats.map Prod.fst)) }

/-- Go `fixOrphanComments`. -/
def fixOrphanComments (store : Store) : Store :=
  { store with
    bilibili_comments := store.bilibili_comments.filter fun r =>
      decide (¬ r.bvid ∉ store.video_info.map VideoRow.bvid) }

/-- Go `fixDuplicateComments`. -/
def fixDuplicateComments (store : Store) : Store :=
  { store with
    bilibili_comments := keepFirstBy CommentRow.unique_id store.bilibili_comments [] }

/-- Go `fixEmptyCommentContent`. -/
def fixEmptyCommentContent (store : Store) : Store :=
  { store with
    bilibili_comments := store.bilibili_comments.map fun r =>
      if r.content = "" then { r with content := "[内容已删除]" } else r }

/-- Go `fixInvalidTimestamps`. -/
def fixInvalidTimestamps (store : Store) (now : Int) : Store :=
  { store with
    bilibili_comments := store.bilibili_comments.map fun r =>
      if r.ctime < 0 ∨ r.ctime > now + 86400 then { r with ctime := now } else r }

/-- Go `fixInvalidParentReferences`. -/
def fixInvalidParentReferences (store : Store) : Store :=
  { store with
    comment_relations := store.comment_relations.filter fun e =>
      decide (¬ e.1 ∉ commentIds store) }

/-- Go `fixInvalidChildReferences`. -/
def fixInvalidChildReferences (store : Store) : Store :=
  { store with
    comment_relations := store.comment_relations.filter fun e =>
      decide (¬ e.2 ∉ commentIds store) }

/-- Go `fixSelfReferences`. -/
def fixSelfReferences (store : Store) : Store :=
  { store with
    comment_relations := store.comment_relations.filter fun e => decide (¬ e.1 = e.2) }

/-- Go `fixInconsistentStats`: every row of `comment_stats` gets the number of all stored
comments of its bvid. -/
def fixInconsistentStats (store : Store) : Store :=
  { store with
    comment_stats := store.comment_stats.map fun s => (s.1, (commentCount store s.1 : Int)) }

/-- The rows `fixMissingStats` inserts: one for every row of `video_info` without a row in
`comment_stats`, with the number of all stored comments of the video. -/
def missingStatsRows (store : Store) : List (String × Int) :=
  (videosMissingStats store).map fun v => (v.bvid, (commentCount store v.bvid : Int))

/-- Go `fixMissingStats`: a plain `INSERT`, which fails as a whole on a conflict of the
primary key `bvid` among the inserted rows. -/
def fixMissingStats (store : Store) : Store × Outcome :=
  if ((missingStatsRows store).map Prod.fst).Nodup then
    ({ store with comment_stats := store.comment_stats ++ missingStatsRows store },
      Outcome.ok)
  else (store, Outcome.error)

/-- The placeholder that `fixParentNotExist` inserts for a missing parent. -/
def placeholderRow (parentID bvid : String) (now : Int) : CommentRow :=
  { unique_id := parentID, bvid := bvid, rpid := 0, content := "[该评论内容缺失]",
    parent := "0", ctime := now }

/-- The result of the query of `fixParentNotExist`: the distinct pairs `(parent, bvid)` of the
stored comments whose parent does not exist. -/
def missingParents (store : Store) : List (String × String) :=
  ((parentNotExistRows store).map fun r => (r.parent, r.bvid)).dedup

/-- One `INSERT ... ON CONFLICT(unique_id) DO NOTHING` of a placeholder. -/
def insertPlaceholder (now : Int) (rows : List CommentRow) (info : String × String) :
    List CommentRow :=
  if info.1 ∈ rows.map CommentRow.unique_id then rows
  else rows ++ [placeholderRow info.1 info.2 now]

/-- Go `fixParentNotExist`. -/
def fixParentNotExist (store : Store) (now : Int) : Store :=
  { store with
    bilibili_comments :=
      (missingParents store).foldl (insertPlaceholder now) store.bilibili_comments }

/-- Go `fixAllCommentRelations`: `RebuildAllCommentRelations` for each of the first 1000000
videos that `GetVideosPaginated` returns. -/
def fixAllCommentRelations (store : Store) : Store :=
  ((store.video_info.map VideoRow.bvid).take 1000000).foldl RebuildAllCommentRelations store

/-- Go `fixIssue`: the repair of the type of the issue; an unknown type is an error. With
`fault` the database refuses the first statement of the repair, which then returns the
error and leaves the store as it is. -/
def fixIssue (store : Store) (issue : Issue) (now : Int) (fault : Bool) : Store × Outcome :=
  if issue.Type_ = ErrorTypeEmptyVideoTitle then
    if fault then (store, Outcome.error) else (fixEmptyVideoTitles store, Outcome.ok)
  else if issue.Type_ = ErrorTypeDuplicateBvid then
    if fault then (store, Outcome.error) else (fixDuplicateBVids store, Outcome.ok)
  else if issue.Type_ = ErrorTypeVideoMissingComments then
    if fault then (store, Outcome.error) else (fixVideoMissingComments store, Outcome.ok)
  else if issue.Type_ = ErrorTypeOrphanComments then
    if fault then (store, Outcome.error) else (fixOrphanComments store, Outcome.ok)
  else if issue.Type_ = ErrorTypeDuplicateComments then
    if fault then (store, Outcome.error) else (fixDuplicateComments store, Outcome.ok)
  else if issue.Type_ = ErrorTypeEmptyCommentContent then
    if fault then (store, Outcome.error) else (fixEmptyCommentContent store, Outcome.ok)
  else if issue.Type_ = ErrorTypeInvalidTimestamp then
    if fault then (store, Outcome.error) else (fixInvalidTimestamps store now, Outcome.ok)
  else if issue.Type_ = ErrorTypeInvalidParentRef then
    if fault then (store, Outcome.error) else (fixInvalidParentReferences store, Outcome.ok)
  else if issue.Type_ = ErrorTypeInvalidChildRef then
    if fault then (store, Outcome.error) else (fixInvalidChildReferences store, Outcome.ok)
  else if issue.Type_ = ErrorTypeSelfReference then
    if fault then (store, Outcome.error) else (fixSelfReferences store, Outcome.ok)
  else if issue.Type_ = ErrorTypeInconsistentStats then
    if fault then (store, Outcome.error) else (fixInconsistentStats store, Outcome.ok)
  else if issue.Type_ = ErrorTypeMissingStats then
    if fault then (store, Outcome.error) else fixMissingStats store
  else if issue.Type_ = ErrorTypeMissingCommentRelations then
    if fault then (store, Outcome.error) else (fixAllCommentRelations store, Outcome.ok)
  else if issue.Type_ = ErrorTypeParentNotExist then
    if fault then (store, Outcome.error) else (fixParentNotExist store now, Outcome.ok)
  else (store, Outcome.error)

/-- The loop of `fixAllIssues` from the issue with index `i` on: the store afterwards, the
issues with their `Fixed` flags, and what the loop adds to `fixedCount`. `faults i` tells
whether the database fails the repair of the issue with index `i`. -/
def fixAllIssuesFrom (now : Int) (faults : Nat → Bool) :
    Nat → Store → List Issue → Store × List Issue × Int
  | _, store, [] => (store, [], 0)
  | i, store, issue :: rest =>
    if issue.Fixable = true ∧ issue.Fixed = false then
      match fixIssue store issue now (faults i) with
      | (store1, Outcome.ok) =>
        let r := fixAllIssuesFrom now faults (i + 1) store1 rest
        (r.1, { issue with Fixed := true } :: r.2.1, r.2.2 + 1)
      | (store1, _) =>
        let r := fixAllIssuesFrom now faults (i + 1) store1 rest
        (r.1, issue :: r.2.1, r.2.2)
    else
      let r := fixAllIssuesFrom now faults (i + 1) store rest
      (r.1, issue :: r.2.1, r.2.2)

/-- Go `fixAllIssues(issues)`: the issues are updated in place. -/
def fixAllIssues (store : Store) (issues : List Issue) (now : Int) (faults : Nat → Bool) :
    Store × List Issue × Int :=
  fixAllIssuesFrom now faults 0 store issues

/-- Go `RepairDatabase`: the store afterwards and the result returned. -/
def RepairDatabase (store : Store) (now : Int) (faults : Nat → Bool) :
    Store × ValidationResult :=
  let validationResult := ValidateDatabase store now
  let r := fixAllIssues store validationResult.Issues now faults
  (r.1, { Issues := r.2.1, Summary := { validationResult.Summary with IssuesFixed := r.2.2 } })

/-! ## crawler/bili_info/util/retry.go -/

/-- What a call of `RetryWithBackoff` returns (`ret = none` is `nil`), how often it has
called `fn`, and after which attempts it has slept. -/
structure RetryResult (ε : Type) where
  ret : Option ε
  calls : Nat
  sleeps : List Nat

/-- The loop `for i := 0; i < attempts; i++` of `RetryWithBackoff` with `k` rounds to go:
`fn i` is what the call of `fn` in round `i` returns, `err` the variable `err`. The call
`logger.Warnf` on a nil `logger` panics (`none`). -/
def retryLoop {ε : Type} (fn : Nat → Option ε) (isRetryable : ε → Bool) (loggerNil : Bool) :
    Nat → Nat → Option ε → List Nat → Option (RetryResult ε)
  | 0, i, err, sleeps => some { ret := err, calls := i, sleeps := sleeps }
  | k + 1, i, _, sleeps =>
    match fn i with
    | none => some { ret := none, calls := i + 1, sleeps := sleeps }
    | some e =>
      if isRetryable e = false then some { ret := some e, calls := i + 1, sleeps := sleeps }
      else if loggerNil then none
      else retryLoop fn isRetryable loggerNil k (i + 1) (some e) (sleeps ++ [i])

/-- Go `RetryWithBackoff(attempts, baseDelay, maxDelay, fn, isRetryable, logger)`; the delays
do not influence the result. -/
def RetryWithBackoff {ε : Type} (attempts : Int) (fn : Nat → Option ε)
    (isRetryable : ε → Bool) (loggerNil : Bool) : Option (RetryResult ε) :=
  retryLoop fn isRetryable loggerNil attempts.toNat 0 none []

/-! ## Stores of the scenarios -/

/-- A stored comment of the video `BV1xx411c7mD`. -/
def storedComment (rpid : Int) (parent : String) : CommentRow :=
  { unique_id := "BV1xx411c7mD_" ++ FormatInt rpid, bvid := "BV1xx411c7mD", rpid := rpid,
    content := "text", parent := parent, ctime := 1700000000 }

/-- A store with one video, the top-level comment 10, its reply 11, the edge between them and
the count 1 of top-level comments that `UpdateCommentStats` writes. -/
def storeThread : Store :=
  { video_info := [{ bvid := "BV1xx411c7mD", title := "title" }]
    bilibili_comments := [storedComment 10 "0", storedComment 11 "BV1xx411c7mD_10"]
    comment_relations := [("BV1xx411c7mD_10", "BV1xx411c7mD_11")]
    comment_stats := [("BV1xx411c7mD", 1)] }

/-- A store with one video that has a count row and no stored comment. -/
def storeNoComments : Store :=
  { video_info := [{ bvid := "BV1xx411c7mD", title := "title" }]
    bilibili_comments := []
    comment_relations := []
    comment_stats := [("BV1xx411c7mD", 0)] }

/-- Scenario S5: a store with one video and the reply 11 whose parent
`BV1xx411c7mD_999` is not stored. -/
def storeMissingParent : Store :=
  { video_info := [{ bvid := "BV1xx411c7mD", title := "title" }]
    bilibili_comments := [storedComment 11 "BV1xx411c7mD_999"]
    comment_relations := []
    comment_stats := [("BV1xx411c7mD", 1)] }

/-- A reply item of the video with avid 2 (`BV1xx411c7mD`) as the API delivers it: comment
`rpid`, written in answer to the comment `parent`. -/
def replyOf (rpid parent : Int) : ReplyItem :=
  ReplyItem.mk rpid 2 7 parent 0 1700000000 "reply" []

/-- The issue that `validateParentNotExist` reports for one comment with a missing parent. -/
def parentNotExistIssue : Issue :=
  { Type_ := ErrorTypeParentNotExist, Severity := "high", Count := 1, Fixable := true,
    Fixed := false, AffectedBVids := [] }

/-- The invariant of the comment table in the specification: every stored comment has a
positive rpid and the unique id `bvid + "_" + rpid`. -/
def StoreInv (store : Store) : Prop :=
  ∀ r ∈ store.bilibili_comments, 0 < r.rpid ∧ r.unique_id = r.bvid ++ "_" ++ FormatInt r.rpid

/-- The second half of the invariant alone. -/
def UniqueIdInv (store : Store) : Prop :=
  ∀ r ∈ store.bilibili_comments, r.unique_id = r.bvid ++ "_" ++ FormatInt r.rpid

instance (store : Store) : Decidable (StoreInv store) := by
  unfold StoreInv
  infer_instance

/-! ## crawler/bili_info/util/retry.go: the delays, and the retried requests

Durations are `time.Duration` values, `int64` numbers of nanoseconds. A draw of the random
source (`rand.Intn(n)`, `rand.Int63n(n)`) is `r % n` for a value `r` of the source that is an
argument of the function; `rand.Int63n(n)` panics when `n ≤ 0`. -/

/-- The constant `time.Millisecond`. -/
def Millisecond : Int := 1000000

/-- The constant `time.Second`. -/
def Second : Int := 1000000000

/-- The constant `MaxRetries` of `crawler/bili_info/config`. -/
def MaxRetries : Int := 3

/-- Go `RetryDelay(attempt, baseDelay, maxDelay)`, which does not read its `baseDelay`; `r` is the
value from which `rand.Intn(1000)` draws. The result is `none` for `attempt ≥ 63`, where
`math.Pow(2, attempt)` is outside `int64` and Go leaves the conversion to the
implementation. -/
def RetryDelay (attempt : Nat) (_baseDelay maxDelay : Int) (r : Nat) : Option Int :=
  if attempt < 63 then
    let retryDelay := wrap64 ((2 : Int) ^ attempt * Second)
    let retryDelay := if retryDelay > maxDelay then maxDelay else retryDelay
    let jitter := wrap64 (((r % 1000 : Nat) : Int) * Millisecond)
    some (wrap64 (retryDelay + jitter))
  else none

/-- The variable `jitterMs` of `RetryWithBackoff`: `cfg` is `none` when `mainconfig.Get()`
is nil and else the value of `cfg.Crawler.DelayJitterMs`. -/
def retryJitterMs (cfg : Option Int) : Int :=
  match cfg with
  | some j => if j > 0 then j else 800
  | none => 800

/-- The variable `delay` of `RetryWithBackoff` after the failed attempt `i`: `r1` is the value
from which `RetryDelay` draws and `r2` the one from which `rand.Int63n(int64(jitterMs))`
draws. -/
def retrySleepDelay (cfg : Option Int) (i : Nat) (baseDelay maxDelay : Int) (r1 r2 : Nat) :
    Option Int :=
  match RetryDelay i baseDelay maxDelay r1 with
  | none => none
  | some d =>
    some (wrap64 (d + wrap64 (((r2 % (retryJitterMs cfg).toNat : Nat) : Int) * Millisecond)))

/-- Go `Retry(attempts, fn, isRetryable, logger)`. -/
def Retry {ε : Type} (attempts : Int) (fn : Nat → Option ε) (isRetryable : ε → Bool)
    (loggerNil : Bool) : Option (RetryResult ε) :=
  RetryWithBackoff attempts fn isRetryable loggerNil

/-- What one attempt of an HTTP request yields: an error of the client, or a response with
its status code. -/
inductive HttpAttempt where
  | transportError
  | status (code : Int)
  deriving DecidableEq

/-- The errors that the closures handed to `Retry` return: the error of the HTTP client, an
error made with `fmt.Errorf`, or a `util.PermanentError`. -/
inductive RetryErr where
  | reqErr
  | plain (status : Int)
  | permanent (status : Int)
  deriving DecidableEq

/-- The closure `func(err error) bool` that `FetchComment`, `FetchSubComment`,
`FetchVideoList` and `getWbiKeys` hand to `Retry` as `isRetryable`. -/
def isRetryable : RetryErr → Bool
  | RetryErr.permanent _ => false
  | _ => true

/-- The closure `func() error` of `FetchComment`, on the outcome of its request. -/
def FetchCommentAttempt : HttpAttempt → Option RetryErr
  | HttpAttempt.transportError => some RetryErr.reqErr
  | HttpAttempt.status code =>
    if code ≥ 500 then some (RetryErr.plain code)
    else if code ≥ 400 then some (RetryErr.permanent code)
    else none

/-- The closure `func() error` of `FetchSubComment`, on the outcome of its request. -/
def FetchSubCommentAttempt : HttpAttempt → Option RetryErr
  | HttpAttempt.transportError => some RetryErr.reqErr
  | HttpAttempt.status code =>
    if code ≥ 500 then some (RetryErr.plain code)
    else if code ≥ 400 then some (RetryErr.permanent code)
    else none

/-- The closure `func() error` of `FetchVideoList`, on the outcome of its request. -/
def FetchVideoListAttempt : HttpAttempt → Option RetryErr
  | HttpAttempt.transportError => some RetryErr.reqErr
  | HttpAttempt.status code =>
    if code ≥ 500 then some (RetryErr.permanent code)
    else if code ≥ 400 then some (RetryErr.permanent code)
    else none

/-- The closure `func() error` of `getWbiKeys`, on the outcome of its request. -/
def getWbiKeysAttempt : HttpAttempt → Option RetryErr
  | HttpAttempt.transportError => some RetryErr.reqErr
  | HttpAttempt.status code =>
    if code ≥ 500 then some (RetryErr.permanent code)
    else if code ≥ 400 then some (RetryErr.permanent code)
    else none

/-! ## fetch.go: delays, `FindSubComment` and `FindUser` -/

/-- The `delay` that the page goroutine of `FindComment`, `FindSubComment` and `FindUser`
compute before a request: `time.Duration(opt.DelayBaseMs) * time.Millisecond` plus
`time.Duration(rand.Int63n(int64(opt.DelayJitterMs))) * time.Millisecond`, in nanoseconds;
`none` is the panic of `rand.Int63n`. -/
def pageDelay (opt : model.Option) (r : Nat) : Option Int :=
  if opt.DelayJitterMs ≤ 0 then none
  else
    let baseDelay := wrap64 (opt.DelayBaseMs * Millisecond)
    let jitter := wrap64 (((r % opt.DelayJitterMs.toNat : Nat) : Int) * Millisecond)
    some (wrap64 (baseDelay + jitter))

/-- The `model.Option` literal of the command `video` (cli/video.go): the fields it does not
name, `DelayBaseMs` and `DelayJitterMs` among them, are zero. -/
def videoCmdOption (maxTryCount : Int) : model.Option :=
  { Pages := 0, Skip := 0, MaxTryCount := maxTryCount, Workers := 0, DelayBaseMs := 0,
    DelayJitterMs := 0 }

/-- The `model.Option` literal of the command `up` (cli/up.go). -/
def upCmdOption (pages skip maxTryCount : Int) : model.Option :=
  { Pages := pages, Skip := skip, MaxTryCount := maxTryCount, Workers := 0, DelayBaseMs := 0,
    DelayJitterMs := 0 }

/-- What a page of `FindSubComment` adds to `replyCollection`: nothing unless the page has
replies; then the replies, their inline replies and, when there are pinned replies, these
and their inline replies. -/
def subPageReplies (cmtInfo : CommentResponse) : List ReplyItem :=
  if cmtInfo.Replies.length > 0 then
    let c1 := cmtInfo.Replies ++ topSubReplies cmtInfo.Replies
    if cmtInfo.TopReplies.length ≠ 0 then
      c1 ++ cmtInfo.TopReplies ++ topSubReplies cmtInfo.TopReplies
    else c1
  else []

/-- The rounds that `FindSubComment` has requested and its `replyCollection`. -/
structure SubHarvest where
  requested : List Int
  replyCollection : List ReplyItem

/-- The loop of `FindSubComment`, with `FetchSubComment` as the function `fetch` of the round
(`none` is a non-nil `err`). The panic of `rand.Int63n` is recovered by the deferred function
and `FindSubComment` returns nil. The result is `none` when the loop has not ended within
`fuel` rounds. -/
def findSubLoop (fetch : Int → Option CommentResponse) (opt : model.Option) :
    Nat → Int → Int → SubHarvest → Option SubHarvest
  | 0, _, _, _ => none
  | fuel + 1, round, consecutiveEmptyPages, acc =>
    if consecutiveEmptyPages ≥ opt.MaxTryCount then some acc
    else if opt.DelayJitterMs ≤ 0 then some { acc with replyCollection := [] }
    else
      match fetch round with
      | none =>
        findSubLoop fetch opt fuel (round + 1) (consecutiveEmptyPages + 1)
          { acc with requested := acc.requested ++ [round] }
      | some cmtInfo =>
        if cmtInfo.Code ≠ 0 then
          findSubLoop fetch opt fuel (round + 1) (consecutiveEmptyPages + 1)
            { acc with requested := acc.requested ++ [round] }
        else if cmtInfo.Replies.length > 0 then
          findSubLoop fetch opt fuel (round + 1) 0
            { requested := acc.requested ++ [round]
              replyCollection := acc.replyCollection ++ subPageReplies cmtInfo }
        else
          findSubLoop fetch opt fuel (round + 1) (consecutiveEmptyPages + 1)
            { acc with requested := acc.requested ++ [round] }

/-- Go `FindSubComment(cmt, opt)`. -/
def FindSubComment (fetch : Int → Option CommentResponse) (opt : model.Option) (fuel : Nat) :
    Option SubHarvest :=
  findSubLoop fetch opt fuel 1 0 { requested := [], replyCollection := [] }

/-- The fields of `model.VideoListResponse` that `FindUser` reads: `Code` and the `Aid`s of
`Data.List.Vlist`. -/
structure VideoListResponse where
  Code : Int
  Vlist : List Int

/-- The pages that `FindUser` has requested and its `videoCollection`. -/
structure UserPages where
  requested : List Int
  videoCollection : List Int
  deriving DecidableEq

/-- The loop `for ; round < opt.Pages+opt.Skip; round++` of `FindUser` with `n` rounds to go,
with `FetchVideoList` as the function `fetch` of the page (`none` is a non-nil `err`). `none`
is the panic of `rand.Int63n`, which the deferred function of `FindUser` recovers: `FindUser`
returns without crawling a video. -/
def findUserLoop (fetch : Int → Option VideoListResponse) (opt : model.Option) :
    Nat → Int → UserPages → Option UserPages
  | 0, _, acc => some acc
  | n + 1, round, acc =>
    if opt.DelayJitterMs ≤ 0 then none
    else
      match fetch round with
      | none => findUserLoop fetch opt n (round + 1)
          { acc with requested := acc.requested ++ [round] }
      | some tempVideoInfo =>
        if tempVideoInfo.Code ≠ 0 then
          findUserLoop fetch opt n (round + 1)
            { acc with requested := acc.requested ++ [round] }
        else if tempVideoInfo.Vlist.length ≠ 0 then
          findUserLoop fetch opt n (round + 1)
            { requested := acc.requested ++ [round]
              videoCollection := acc.videoCollection ++ tempVideoInfo.Vlist }
        else some { acc with requested := acc.requested ++ [round] }

/-- The first loop of Go `FindUser(sem, opt)`: `round` starts at `opt.Skip + 1` and the loop
runs while `round < opt.Pages + opt.Skip`, that is `opt.Pages + opt.Skip - (opt.Skip + 1)`
times unless it breaks. -/
def FindUser (fetch : Int → Option VideoListResponse) (opt : model.Option) :
    Option UserPages :=
  findUserLoop fetch opt (opt.Pages + opt.Skip - (opt.Skip + 1)).toNat (opt.Skip + 1)
    { requested := [], videoCollection := [] }

/-! ## backend/repair_service.go: the validation of one video -/

/-- The constant `ErrorTypeVideoNotFound`. -/
def ErrorTypeVideoNotFound : String := "video_not_found"

/-- The struct `VideoValidationResult`. -/
structure VideoValidationResult where
  VideoID : String
  Issues : List Issue
  Summary : ValidationResult

/-- Go `checkVideoExists(bvid)`. -/
def checkVideoExists (store : Store) (bvid : String) : Bool :=
  decide ((store.video_info.filter fun v => decide (v.bvid = bvid)).length > 0)

/-- The query `SELECT comment_count FROM comment_stats WHERE bvid = ?` of one row: `none` is
`sql.ErrNoRows`. -/
def statsCountOf (store : Store) (bvid : String) : Option Int :=
  (store.comment_stats.find? fun s => decide (s.1 = bvid)).map Prod.snd

/-- Go `validateVideoComments(bvid)`. -/
def validateVideoComments (store : Store) (bvid : String) : List Issue :=
  let commentCount : Int := (commentCount store bvid : Int)
  let issues : List Issue :=
    if commentCount = 0 then
      [{ Type_ := ErrorTypeVideoMissingComments, Severity := "high", Count := 1,
         Fixable := true, Fixed := false, AffectedBVids := [bvid] }]
    else []
  match statsCountOf store bvid with
  | none =>
    issues ++ [{ Type_ := ErrorTypeMissingStats, Severity := "medium", Count := 1,
                 Fixable := true, Fixed := false, AffectedBVids := [bvid] }]
  | some statsCount =>
    if statsCount ≠ commentCount then
      issues ++ [{ Type_ := ErrorTypeInconsistentStats, Severity := "medium", Count := 1,
                   Fixable := true, Fixed := false, AffectedBVids := [bvid] }]
    else issues

/-- Go `validateVideoStats(bvid)`. -/
def validateVideoStats (store : Store) (bvid : String) : List Issue :=
  let commentCount : Int := (commentCount store bvid : Int)
  match statsCountOf store bvid with
  | none =>
    [{ Type_ := ErrorTypeMissingStats, Severity := "medium", Count := 1,
       Fixable := true, Fixed := false, AffectedBVids := [bvid] }]
  | some statsCount =>
    if statsCount ≠ commentCount then
      [{ Type_ := ErrorTypeInconsistentStats, Severity := "medium", Count := 1,
         Fixable := true, Fixed := false, AffectedBVids := [bvid] }]
    else []

/-- Go `calculateVideoSummary(bvid)`. -/
def calculateVideoSummary (store : Store) (bvid : String) : ValidationResult :=
  { Issues := []
    Summary :=
      { TotalVideos := 1, TotalComments := (commentCount store bvid : Int), IssuesFound := 0,
        IssuesFixed := 0, IssuesUnfixable := 0 } }

/-- Go `ValidateVideoData(bvid)`. For a video that does not exist the summary stays the zero
value. -/
def ValidateVideoData (store : Store) (bvid : String) : VideoValidationResult :=
  if checkVideoExists store bvid = false then
    { VideoID := bvid
      Issues := [{ Type_ := ErrorTypeVideoNotFound, Severity := "critical", Count := 1,
                   Fixable := false, Fixed := false, AffectedBVids := [bvid] }]
      Summary :=
        { Issues := []
          Summary :=
            { TotalVideos := 0, TotalComments := 0, IssuesFound := 0, IssuesFixed := 0,
              IssuesUnfixable := 0 } } }
  else
    { VideoID := bvid
      Issues := validateVideoComments store bvid ++ validateVideoStats store bvid
      Summary := calculateVideoSummary store bvid }

/-! ## crypto.go: request signing

Conventions of this part.

* Where a Go string is indexed, sliced, escaped or hashed it is its list of bytes, `utf8 s`;
  the result of `getMixinKey` is such a list, since a slice of bytes need not be valid UTF-8.
* A Go `map[string]string` is a list of pairs with distinct keys, in an arbitrary order of
  enumeration; `url.Values` is such a list with lists of strings as values.
* `md5.Sum` and the clock are arguments: `md5Sum` maps the bytes hashed to the 16 bytes of
  the digest, `now` is `time.Now().Unix()`. `url.Parse`, `urlObj.Query()` and `gjson.Get` are
  not modelled either: `SignAndGenerateURL` starts from the parsed query and `getWbiKeys`
  from the two URLs read from the body.
-/

/-- The table `mixinKeyEncTab`. -/
def mixinKeyEncTab : List Nat :=
  [46, 47, 18, 2, 53, 8, 23, 32, 15, 50, 10, 31, 58, 3, 45, 35, 27, 43, 5, 49,
   33, 9, 42, 19, 29, 28, 14, 39, 12, 38, 41, 13, 37, 48, 7, 16, 24, 55, 40,
   61, 26, 17, 0, 1, 60, 51, 30, 4, 22, 25, 54, 21, 56, 59, 6, 63, 57, 62, 11,
   36, 20, 34, 44, 52]

/-- The UTF-8 encoding of a character. -/
def utf8Char (c : Char) : List Nat :=
  let n := c.toNat
  if n < 128 then [n]
  else if n < 2048 then [192 + n / 64, 128 + n % 64]
  else if n < 65536 then [224 + n / 4096, 128 + n / 64 % 64, 128 + n % 64]
  else [240 + n / 262144, 128 + n / 4096 % 64, 128 + n / 64 % 64, 128 + n % 64]

/-- The bytes of a Go string. -/
def utf8 (s : String) : List Nat := s.data.flatMap utf8Char

/-- Go `getMixinKey(orig)`: the bytes `orig[v]` for the entries `v < len(orig)` of the table,
of which the first 32 are returned; `none` is the panic of the slice `[:32]` on a shorter
string. -/
def getMixinKey (orig : String) : Option (List Nat) :=
  let str := mixinKeyEncTab.foldl
    (fun str v => if v < (utf8 orig).length then str ++ [(utf8 orig).getD v 0] else str) []
  if str.length < 32 then none else some (str.take 32)

/-- The list `unwantedChars` of `sanitizeString`: the characters ! (33), the apostrophe (39),
( (40), ) (41) and * (42). -/
def unwantedChars : List Char :=
  [Char.ofNat 33, Char.ofNat 39, Char.ofNat 40, Char.ofNat 41, Char.ofNat 42]

/-- Go `sanitizeString(s)`: `strings.ReplaceAll(s, char, "")` for each unwanted character in
turn. -/
def sanitizeString (s : String) : String :=
  unwantedChars.foldl (fun s char => String.mk (s.data.filter fun x => x != char)) s

/-- The entry of a key in a Go map, if there is one. -/
def mapGet? {β : Type} : List (String × β) → String → Option β
  | [], _ => none
  | (k1, v) :: m, k => if k1 = k then some v else mapGet? m k

/-- Go `m[k] = v`. -/
def mapSet {β : Type} : List (String × β) → String → β → List (String × β)
  | [], k, v => [(k, v)]
  | (k1, v1) :: m, k, v => if k1 = k then (k, v) :: m else (k1, v1) :: mapSet m k v

/-- Go `params[k]` on a `map[string]string`: the empty string for a key that is not there. -/
def mapGet (m : List (String × String)) (k : String) : String := (mapGet? m k).getD ""

/-- The order of `sort.Strings`: the lexicographic order of the bytes, which for UTF-8 is
that of the characters. -/
def lexLe : List Char → List Char → Bool
  | [], _ => true
  | _ :: _, [] => false
  | a :: as, b :: bs => if a < b then true else if b < a then false else lexLe as bs

/-- Go `sort.Strings(keys)`. -/
def sortStrings (keys : List String) : List String :=
  keys.insertionSort fun a b => lexLe a.data b.data = true

/-- The digits of `%XX` in `url.QueryEscape`. -/
def upperhex : List Char := "0123456789ABCDEF".data

/-- The function `shouldEscape(c, encodeQueryComponent)` of `net/url`: letters, digits and
`-`, `_`, `.`, `~` are not escaped. -/
def shouldEscape (c : Nat) : Bool :=
  ¬ ((97 ≤ c ∧ c ≤ 122) ∨ (65 ≤ c ∧ c ≤ 90) ∨ (48 ≤ c ∧ c ≤ 57)
    ∨ c = 45 ∨ c = 95 ∨ c = 46 ∨ c = 126)

/-- Go `url.QueryEscape(s)`: a space becomes `+`, a byte that is to be escaped `%XX`. -/
def QueryEscape (s : String) : String :=
  String.mk ((utf8 s).flatMap fun c =>
    if c = 32 then ['+']
    else if shouldEscape c then ['%', upperhex.getD (c / 16) '0', upperhex.getD (c % 16) '0']
    else [Char.ofNat c])

/-- Go `url.Values.Encode()`: the pairs `key=value`, escaped, in the order of the sorted
keys, joined by `&`. -/
def Encode (v : List (String × List String)) : String :=
  String.intercalate "&" ((sortStrings (v.map Prod.fst)).flatMap fun k =>
    ((mapGet? v k).getD []).map fun val => QueryEscape k ++ "=" ++ QueryEscape val)

/-- The table `hextable` of `encoding/hex`. -/
def hextable : List Char := "0123456789abcdef".data

/-- Go `hex.EncodeToString(src)`. -/
def hexEncode (src : List Nat) : String :=
  String.mk (src.flatMap fun v => [hextable.getD (v / 16 % 16) '0', hextable.getD (v % 16) '0'])

/-- Go `encWbi(params, imgKey, subKey)`; `none` is the panic of `getMixinKey`. -/
def encWbi (md5Sum : List Nat → List Nat) (now : Int) (params : List (String × String))
    (imgKey subKey : String) : Option (List (String × String)) :=
  match getMixinKey (imgKey ++ subKey) with
  | none => none
  | some mixinKey =>
    let currTime := FormatInt now
    let params := mapSet params "wts" currTime
    let keys := sortStrings (params.map Prod.fst)
    let params := params.map fun p => (p.1, sanitizeString p.2)
    let query := keys.foldl
      (fun (query : List (String × List String)) k => mapSet query k [mapGet params k]) []
    let queryStr := Encode query
    let hash := md5Sum (utf8 queryStr ++ mixinKey)
    some (mapSet params "w_rid" (hexEncode hash))

/-- What `SignAndGenerateURL` returns: an error, or the URL, of which the query `query` and
its encoding `RawQuery` are kept. -/
inductive Signed where
  | err
  | url (query : List (String × List String)) (RawQuery : String)

/-- The loop `for k, v := range query { params[k] = v[0] }` of `SignAndGenerateURL`; `none` is
the panic of `v[0]` on an empty list. -/
def firstValues : List (String × List String) → Option (List (String × String))
  | [] => some []
  | (k, v) :: query =>
    match v.head?, firstValues query with
    | some v0, some params => some (mapSet params k v0)
    | _, _ => none

/-- Go `SignAndGenerateURL(urlStr, cookie)` on the query of the parsed URL (`none` when
`url.Parse` fails) and the keys that `getWbiKeysCached` returns (`none` when it panics);
the result `none` is a panic. -/
def SignAndGenerateURL (md5Sum : List Nat → List Nat) (now : Int)
    (parsed : Option (List (String × List String))) (wbiKeys : Option (String × String)) :
    Option Signed :=
  match parsed with
  | none => some Signed.err
  | some query =>
    match wbiKeys with
    | none => none
    | some (imgKey, subKey) =>
      match firstValues query with
      | none => none
      | some params =>
        match encWbi md5Sum now params imgKey subKey with
        | none => none
        | some newParams =>
          let query := newParams.foldl
            (fun (query : List (String × List String)) p => mapSet query p.1 [p.2]) query
          some (Signed.url query (Encode query))

/-- One attempt of the request of `getWbiKeys`: an error of the client, or a response with its
status and its body, which is `none` when `io.ReadAll` fails and else the strings that
`gjson` reads at `data.wbi_img.img_url` and `data.wbi_img.sub_url`. -/
inductive NavAttempt where
  | transportError
  | response (status : Int) (body : Option (String × String))

/-- The outcome of the request of an attempt, as the retry closure sees it. -/
def NavAttempt.http : NavAttempt → HttpAttempt
  | NavAttempt.transportError => HttpAttempt.transportError
  | NavAttempt.response status _ => HttpAttempt.status status

/-- The expression `strings.Split(strings.Split(u, "/")[len(strings.Split(u, "/"))-1], ".")[0]`
of `getWbiKeys`: what follows the last `/`, up to its first `.`. -/
def wbiKeyOf (u : String) : String :=
  String.mk (((u.data.reverse.takeWhile fun c => c != '/').reverse).takeWhile fun c => c != '.')

/-- Go `getWbiKeys(cookie)` on the outcomes of the attempts of its request: it calls `Retry`
with `config.MaxRetries` and a nil `logger`; `none` is a panic. When `Retry` returns nil,
`resp` is the response of the last attempt. -/
def getWbiKeys (attempt : Nat → NavAttempt) : Option (String × String) :=
  match Retry MaxRetries (fun i => getWbiKeysAttempt (attempt i).http) isRetryable true with
  | none => none
  | some r =>
    match r.ret with
    | some _ => some ("", "")
    | none =>
      match attempt (r.calls - 1) with
      | NavAttempt.transportError => none
      | NavAttempt.response _ none => some ("", "")
      | NavAttempt.response _ (some (imgURL, subURL)) => some (wbiKeyOf imgURL, wbiKeyOf subURL)

/-! ## Scenarios of the crawler and of the validation of one video -/

/-- A video list in which every page `r` succeeds and carries the one video `100 * r`. -/
def fetchEveryPage (round : Int) : Option VideoListResponse :=
  some { Code := 0, Vlist := [100 * round] }

/-- A reply thread in which only page 1 succeeds: it has no reply and the pinned reply 30. -/
def fetchPinnedOnly (round : Int) : Option CommentResponse :=
  if round = 1 then
    some { Code := 0, Replies := [], TopReplies := [topLevelReply 30], IsEnd := false,
           NextOffset := "" }
  else none

/-- A reply thread in which only page 1 succeeds: it has the reply 20 and the pinned reply
30. -/
def fetchReplyAndPinned (round : Int) : Option CommentResponse :=
  if round = 1 then
    some { Code := 0, Replies := [topLevelReply 20], TopReplies := [topLevelReply 30],
           IsEnd := false, NextOffset := "" }
  else none

/-- The issue of type `missing_stats` that the validation of the video `bvid` reports. -/
def missingStatsIssue (bvid : String) : Issue :=
  { Type_ := ErrorTypeMissingStats, Severity := "medium", Count := 1, Fixable := true,
    Fixed := false, AffectedBVids := [bvid] }

/-- The issue of type `inconsistent_stats` that the validation of the video `bvid` reports. -/
def inconsistentStatsIssue (bvid : String) : Issue :=
  { Type_ := ErrorTypeInconsistentStats, Severity := "medium", Count := 1, Fixable := true,
    Fixed := false, AffectedBVids := [bvid] }

/-- The issue of type `video_missing_comments` that the validation of the video `bvid`
reports. -/
def videoMissingCommentsIssue (bvid : String) : Issue :=
  { Type_ := ErrorTypeVideoMissingComments, Severity := "high", Count := 1, Fixable := true,
    Fixed := false, AffectedBVids := [bvid] }

/-- Whether `FindSubComment` counts the page `round` as empty: the request fails, the
response has a code other than 0, or it has no replies. -/
def subPageEmpty (fetch : Int → Option CommentResponse) (round : Int) : Bool :=
  match fetch round with
  | none => true
  | some cmtInfo => decide (cmtInfo.Code ≠ 0 ∨ cmtInfo.Replies.length = 0)

/-- What the page `round` adds to the `replyCollection` of `FindSubComment`. -/
def subPageOf (fetch : Int → Option CommentResponse) (round : Int) : List ReplyItem :=
  match fetch round with
  | none => []
  | some cmtInfo => if cmtInfo.Code ≠ 0 then [] else subPageReplies cmtInfo

/-! # Theorems -/

/-! ### 64-bit arithmetic and the codec loops -/

theorem toU64_of_nat (a : Nat) (h : a < 18446744073709551616) : toU64 (a : Int) = a := by
  unfold toU64
  omega

theorem toI64_of_lt (n : Nat) (h : n < 9223372036854775808) : toI64 n = (n : Int) := by
  unfold toI64
  have : n % 18446744073709551616 = n := Nat.mod_eq_of_lt (by omega)
  rw [this, if_pos h]

theorem wrap64_of_range (x : Int) (h0 : 0 ≤ x) (h1 : x < 9223372036854775808) : wrap64 x = x := by
  unfold wrap64 toI64 toU64
  omega

theorem nat_or_xor_code (a : Nat) (h : a < 2 ^ 51) :
    (a ||| 2 ^ 51) ^^^ 23442827791579 = 2 ^ 51 + (a ^^^ 23442827791579) := by
  have hX : (23442827791579 : Nat) < 2 ^ 51 := by norm_num
  have hax : a ^^^ 23442827791579 < 2 ^ 51 := Nat.xor_lt_two_pow h hX
  have hl : (a ||| 2 ^ 51) ^^^ 23442827791579 < 2 ^ 52 :=
    Nat.xor_lt_two_pow (Nat.or_lt_two_pow (by omega) (by norm_num)) (by norm_num)
  have hr : 2 ^ 51 + (a ^^^ 23442827791579) < 2 ^ 52 := by omega
  apply Nat.eq_of_testBit_eq
  intro i
  rcases Nat.lt_trichotomy i 51 with hi | hi | hi
  · rw [Nat.testBit_two_pow_add_gt hi]
    simp only [Nat.testBit_xor, Nat.testBit_or, Nat.testBit_two_pow]
    have : decide (51 = i) = false := by simp; omega
    rw [this]; simp
  · subst hi
    rw [Nat.testBit_two_pow_add_eq, Nat.testBit_lt_two_pow hax]
    simp only [Nat.testBit_xor, Nat.testBit_or, Nat.testBit_two_pow, Nat.testBit_lt_two_pow hX]
    simp
  · have h52 : (2:Nat) ^ 52 ≤ 2 ^ i := Nat.pow_le_pow_right (by norm_num) hi
    rw [Nat.testBit_lt_two_pow (lt_of_lt_of_le hl h52), Nat.testBit_lt_two_pow (lt_of_lt_of_le hr h52)]

theorem nat_xor_cancel (a : Nat) : (a ^^^ 23442827791579) ^^^ 23442827791579 = a := by
  rw [Nat.xor_assoc, Nat.xor_self, Nat.xor_zero]

theorem enc_temp (a : Nat) (h : a < 2 ^ 51) :
    xor64 (or64 (a : Int) (wrap64 (MAX_CODE + 1))) XOR_CODE
      = ((2 ^ 51 + (a ^^^ 23442827791579) : Nat) : Int) := by
  have hX : (23442827791579 : Nat) < 2 ^ 51 := by norm_num
  have hax : a ^^^ 23442827791579 < 2 ^ 51 := Nat.xor_lt_two_pow h hX
  have hw : wrap64 (MAX_CODE + 1) = ((2 ^ 51 : Nat) : Int) := by
    rw [wrap64_of_range] <;> simp [MAX_CODE]
  have hor : a ||| 2 ^ 51 < 2 ^ 52 := Nat.or_lt_two_pow (by omega) (by norm_num)
  unfold xor64 or64
  rw [hw, toU64_of_nat a (by omega), toU64_of_nat (2 ^ 51) (by norm_num),
    toI64_of_lt (a ||| 2 ^ 51) (by omega), toU64_of_nat (a ||| 2 ^ 51) (by omega)]
  have hx : toU64 XOR_CODE = 23442827791579 := by
    have := toU64_of_nat 23442827791579 (by norm_num)
    simpa [XOR_CODE] using this
  rw [hx, nat_or_xor_code a h, toI64_of_lt _ (by omega)]

theorem dec_temp (y : Nat) (h : y < 2 ^ 51) :
    xor64 (and64 ((2 ^ 51 + y : Nat) : Int) MAX_CODE) XOR_CODE
      = ((y ^^^ 23442827791579 : Nat) : Int) := by
  have hX : (23442827791579 : Nat) < 2 ^ 51 := by norm_num
  have hyx : y ^^^ 23442827791579 < 2 ^ 51 := Nat.xor_lt_two_pow h hX
  have hm : toU64 MAX_CODE = 2 ^ 51 - 1 := by
    have := toU64_of_nat (2 ^ 51 - 1) (by norm_num)
    simpa [MAX_CODE] using this
  have hx : toU64 XOR_CODE = 23442827791579 := by
    have := toU64_of_nat 23442827791579 (by norm_num)
    simpa [XOR_CODE] using this
  unfold xor64 and64
  rw [hm, toU64_of_nat _ (by omega), Nat.and_pow_two_sub_one_eq_mod]
  have : (2 ^ 51 + y) % 2 ^ 51 = y := by omega
  rw [this, toI64_of_lt y (by omega), toU64_of_nat y (by omega), hx, toI64_of_lt _ (by omega)]

theorem charts_get (d : Int) (h0 : 0 ≤ d) (h1 : d < 58) :
    CHARTS.get? d.toNat = some (digitChar d) := by
  have hl : d.toNat < CHARTS.length := by
    have : CHARTS.length = 58 := rfl
    omega
  unfold digitChar
  rw [List.get?_eq_get hl]
  rfl

theorem indexRune_digitChar (d : Int) (h0 : 0 ≤ d) (h1 : d < 58) :
    indexRune CHARTS (digitChar d) = d := by
  interval_cases d <;> rfl

theorem avid2bvidLoop_step (fuel : Nat) (temp : Int) (arr : List (List Char)) (bvIdx : Int)
    (ht : 0 < temp) (hi0 : 0 ≤ bvIdx) (hi1 : bvIdx.toNat < arr.length) :
    avid2bvidLoop (fuel + 1) temp arr bvIdx
      = avid2bvidLoop fuel (temp / 58) (arr.set bvIdx.toNat [digitChar (temp % 58)])
          (bvIdx - 1) := by
  have hm : Int.tmod temp 58 = temp % 58 := Int.tmod_eq_emod (by omega) (by norm_num)
  have hd : Int.tdiv temp 58 = temp / 58 := Int.tdiv_eq_ediv (by omega) (by norm_num)
  rw [avid2bvidLoop, if_pos (by omega : temp > 0)]
  simp only [hm, hd]
  rw [charts_get _ (by omega) (by omega)]
  simp only [hi0, hi1, and_self, if_true]

theorem avid2bvidLoop_done (fuel : Nat) (temp : Int) (arr : List (List Char)) (bvIdx : Int)
    (ht : temp ≤ 0) : avid2bvidLoop fuel temp arr bvIdx = some arr := by
  cases fuel <;> simp [avid2bvidLoop, not_lt.mpr ht]

theorem avid2bvidLoop_nine (fuel : Nat) (t : Int) (h0 : 128063081718016 ≤ t) :
    avid2bvidLoop (fuel + 9) t [['B'], ['V'], ['1'], [], [], [], [], [], [], [], [], []] 11
      = avid2bvidLoop fuel (t / 58 / 58 / 58 / 58 / 58 / 58 / 58 / 58 / 58)
          [['B'], ['V'], ['1'],
            [digitChar (t / 58 / 58 / 58 / 58 / 58 / 58 / 58 / 58 % 58)],
            [digitChar (t / 58 / 58 / 58 / 58 / 58 / 58 / 58 % 58)],
            [digitChar (t / 58 / 58 / 58 / 58 / 58 / 58 % 58)],
            [digitChar (t / 58 / 58 / 58 / 58 / 58 % 58)],
            [digitChar (t / 58 / 58 / 58 / 58 % 58)],
            [digitChar (t / 58 / 58 / 58 % 58)],
            [digitChar (t / 58 / 58 % 58)],
            [digitChar (t / 58 % 58)],
            [digitChar (t % 58)]] 2 := by
  rw [avid2bvidLoop_step _ _ _ _ (by omega) (by omega) (by simp)]
  rw [avid2bvidLoop_step _ _ _ _ (by omega) (by omega) (by simp)]
  rw [avid2bvidLoop_step _ _ _ _ (by omega) (by omega) (by simp)]
  rw [avid2bvidLoop_step _ _ _ _ (by omega) (by omega) (by simp)]
  rw [avid2bvidLoop_step _ _ _ _ (by omega) (by omega) (by simp)]
  rw [avid2bvidLoop_step _ _ _ _ (by omega) (by omega) (by simp)]
  rw [avid2bvidLoop_step _ _ _ _ (by omega) (by omega) (by simp)]
  rw [avid2bvidLoop_step _ _ _ _ (by omega) (by omega) (by simp)]
  rw [avid2bvidLoop_step _ _ _ _ (by omega) (by omega) (by simp)]
  simp [List.set]

theorem encode9 (t : Int) (h0 : 128063081718016 ≤ t) (h1 : t < 7427658739644928) :
    avid2bvidLoop 64 t [['B'], ['V'], ['1'], [], [], [], [], [], [], [], [], []] 11
      = some [['B'], ['V'], ['1'],
          [digitChar (t / 58 / 58 / 58 / 58 / 58 / 58 / 58 / 58 % 58)],
          [digitChar (t / 58 / 58 / 58 / 58 / 58 / 58 / 58 % 58)],
          [digitChar (t / 58 / 58 / 58 / 58 / 58 / 58 % 58)],
          [digitChar (t / 58 / 58 / 58 / 58 / 58 % 58)],
          [digitChar (t / 58 / 58 / 58 / 58 % 58)],
          [digitChar (t / 58 / 58 / 58 % 58)],
          [digitChar (t / 58 / 58 % 58)],
          [digitChar (t / 58 % 58)],
          [digitChar (t % 58)]] := by
  have h := avid2bvidLoop_nine 55 t h0
  norm_num at h
  rw [h, avid2bvidLoop_done _ _ _ _ (by omega)]

theorem utf8ByteSize_go_ge (l : List Char) : l.length ≤ String.utf8ByteSize.go l := by
  induction l with
  | nil => simp [String.utf8ByteSize.go]
  | cons c cs ih =>
    have := Char.utf8Size_pos c
    simp only [String.utf8ByteSize.go, List.length_cons]
    omega

theorem utf8ByteSize_ge (l : List Char) : l.length ≤ (String.mk l).utf8ByteSize :=
  utf8ByteSize_go_ge l

theorem Bvid2Avid_chars (c0 c1 c2 c3 c4 c5 c6 c7 c8 c9 c10 c11 : Char) :
    Bvid2Avid (String.mk [c0, c1, c2, c3, c4, c5, c6, c7, c8, c9, c10, c11])
      = some (xor64 (and64 (bvidTemp [c9, c7, c5, c6, c4, c8, c3, c10, c11] 0) MAX_CODE)
          XOR_CODE) := by
  have hs := utf8ByteSize_ge [c0, c1, c2, c3, c4, c5, c6, c7, c8, c9, c10, c11]
  simp only [List.length_cons, List.length_nil] at hs
  unfold Bvid2Avid
  rw [if_neg (by omega)]
  rfl

theorem bvidTemp_cons (d : Int) (cs : List Char) (t : Int) (hd0 : 0 ≤ d) (hd1 : d < 58)
    (ht0 : 0 ≤ t) (ht1 : t < 100000000000000000) :
    bvidTemp (digitChar d :: cs) t = bvidTemp cs (t * 58 + d) := by
  simp only [bvidTemp, List.foldl_cons]
  rw [indexRune_digitChar d hd0 hd1, wrap64_of_range (t * 58) (by omega) (by omega),
    wrap64_of_range (t * 58 + d) (by omega) (by omega)]

theorem bvidTemp_digits (d3 d4 d5 d6 d7 d8 d9 d10 d11 : Int)
    (h3 : 0 ≤ d3 ∧ d3 < 58) (h4 : 0 ≤ d4 ∧ d4 < 58) (h5 : 0 ≤ d5 ∧ d5 < 58)
    (h6 : 0 ≤ d6 ∧ d6 < 58) (h7 : 0 ≤ d7 ∧ d7 < 58) (h8 : 0 ≤ d8 ∧ d8 < 58)
    (h9 : 0 ≤ d9 ∧ d9 < 58) (h10 : 0 ≤ d10 ∧ d10 < 58) (h11 : 0 ≤ d11 ∧ d11 < 58) :
    bvidTemp [digitChar d3, digitChar d4, digitChar d5, digitChar d6, digitChar d7,
        digitChar d8, digitChar d9, digitChar d10, digitChar d11] 0
      = (((((((d3 * 58 + d4) * 58 + d5) * 58 + d6) * 58 + d7) * 58 + d8) * 58 + d9) * 58
          + d10) * 58 + d11 := by
  rw [bvidTemp_cons d3 _ _ h3.1 h3.2 (by omega) (by omega)]
  rw [bvidTemp_cons d4 _ _ h4.1 h4.2 (by omega) (by omega)]
  rw [bvidTemp_cons d5 _ _ h5.1 h5.2 (by omega) (by omega)]
  rw [bvidTemp_cons d6 _ _ h6.1 h6.2 (by omega) (by omega)]
  rw [bvidTemp_cons d7 _ _ h7.1 h7.2 (by omega) (by omega)]
  rw [bvidTemp_cons d8 _ _ h8.1 h8.2 (by omega) (by omega)]
  rw [bvidTemp_cons d9 _ _ h9.1 h9.2 (by omega) (by omega)]
  rw [bvidTemp_cons d10 _ _ h10.1 h10.2 (by omega) (by omega)]
  rw [bvidTemp_cons d11 _ _ h11.1 h11.2 (by omega) (by omega)]
  simp only [bvidTemp, List.foldl_nil]
  omega

theorem Avid2Bvid_of_temp (avid t : Int)
    (ht : xor64 (or64 avid (wrap64 (MAX_CODE + 1))) XOR_CODE = t)
    (h0 : 128063081718016 ≤ t) (h1 : t < 7427658739644928) :
    Avid2Bvid avid = some (String.mk (bvidChars t)) := by
  unfold Avid2Bvid
  simp only [ht, List.length_cons, List.length_nil]
  have h := encode9 t h0 h1
  norm_num at h ⊢
  rw [h]
  rfl

theorem Bvid2Avid_bvidChars (t : Int) (h0 : 0 ≤ t) (h1 : t < 7427658739644928) :
    Bvid2Avid (String.mk (bvidChars t)) = some (xor64 (and64 t MAX_CODE) XOR_CODE) := by
  unfold bvidChars
  rw [Bvid2Avid_chars, bvidTemp_digits _ _ _ _ _ _ _ _ _ (by omega) (by omega) (by omega)
    (by omega) (by omega) (by omega) (by omega) (by omega) (by omega)]
  have key : ∀ x : Int, x = t →
      some (xor64 (and64 x MAX_CODE) XOR_CODE) = some (xor64 (and64 t MAX_CODE) XOR_CODE) := by
    intro x hx
    rw [hx]
  exact key _ (by omega)

theorem list_length_twelve {α : Type} (l : List α) (h : l.length = 12) :
    ∃ a0 a1 a2 a3 a4 a5 a6 a7 a8 a9 a10 a11, l = [a0, a1, a2, a3, a4, a5, a6, a7, a8, a9, a10, a11] := by
  rcases l with _ | ⟨a0, _ | ⟨a1, _ | ⟨a2, _ | ⟨a3, _ | ⟨a4, _ | ⟨a5, _ | ⟨a6, _ | ⟨a7, _ | ⟨a8,
    _ | ⟨a9, _ | ⟨a10, _ | ⟨a11, _ | ⟨a12, l⟩⟩⟩⟩⟩⟩⟩⟩⟩⟩⟩⟩⟩
  all_goals first
    | exact ⟨_, _, _, _, _, _, _, _, _, _, _, _, rfl⟩
    | (exfalso; simp at h)

theorem mem_CHARTS_digit (c : Char) (h : c ∈ CHARTS) :
    0 ≤ indexRune CHARTS c ∧ indexRune CHARTS c < 58 ∧ digitChar (indexRune CHARTS c) = c := by
  simp only [CHARTS, List.mem_cons, List.mem_singleton, List.not_mem_nil, or_false] at h
  rcases h with h | h | h | h | h | h | h | h | h | h | h | h | h | h | h | h | h | h | h | h
    | h | h | h | h | h | h | h | h | h | h | h | h | h | h | h | h | h | h | h | h
    | h | h | h | h | h | h | h | h | h | h | h | h | h | h | h | h | h | h <;>
  (subst h; decide)

theorem Avid2Bvid_finish (c1 c2 c3 c4 c5 c6 c7 c8 c9 c10 c11 : Char)
    (arr : List (List Char)) (raw : List Char)
    (harr : arr = [['B'], [c1], [c2], [c3], [c4], [c5], [c6], [c7], [c8], [c9], [c10], [c11]])
    (hraw : raw = arr.flatten) :
    ∃ s : String, (match swapString raw 3 9 with
      | none => none
      | some s1 =>
        match swapString s1 4 7 with
        | none => none
        | some s => some (String.mk s)) = some s := by
  subst harr
  subst hraw
  exact ⟨_, rfl⟩

theorem Avid2Bvid_temp_range (a : Nat) (h1 : a < 2 ^ 63) :
    ∃ t : Int, xor64 (or64 (a : Int) (wrap64 (MAX_CODE + 1))) XOR_CODE = t
      ∧ 2251799813685248 ≤ t ∧ t < 9223372036854775808 := by
  have hw : wrap64 (MAX_CODE + 1) = ((2 ^ 51 : Nat) : Int) := by
    rw [wrap64_of_range] <;> simp [MAX_CODE]
  have hx : toU64 XOR_CODE = 23442827791579 := by
    have := toU64_of_nat 23442827791579 (by norm_num)
    simpa [XOR_CODE] using this
  have hor : a ||| 2 ^ 51 < 2 ^ 63 := Nat.or_lt_two_pow h1 (by norm_num)
  have hxo : (a ||| 2 ^ 51) ^^^ 23442827791579 < 2 ^ 63 := Nat.xor_lt_two_pow hor (by norm_num)
  have hge : 2 ^ 51 ≤ (a ||| 2 ^ 51) ^^^ 23442827791579 := by
    apply Nat.testBit_implies_ge
    have hX : (23442827791579 : Nat) < 2 ^ 51 := by norm_num
    simp only [Nat.testBit_xor, Nat.testBit_or, Nat.testBit_two_pow, Nat.testBit_lt_two_pow hX]
    simp
  refine ⟨(((a ||| 2 ^ 51) ^^^ 23442827791579 : Nat) : Int), ?_, ?_, ?_⟩
  · unfold xor64 or64
    rw [hw, toU64_of_nat a (by omega), toU64_of_nat (2 ^ 51) (by norm_num),
      toI64_of_lt (a ||| 2 ^ 51) (by omega), toU64_of_nat (a ||| 2 ^ 51) (by omega), hx,
      toI64_of_lt _ (by omega)]
  · have : (2251799813685248 : Int) = ((2 ^ 51 : Nat) : Int) := by norm_num
    rw [this]
    exact_mod_cast hge
  · have : (9223372036854775808 : Int) = ((2 ^ 63 : Nat) : Int) := by norm_num
    rw [this]
    exact_mod_cast hxo

/-- Totality: `Avid2Bvid` does not panic on a positive `int64`. -/
theorem Avid2Bvid_isSome (avid : Int) (h0 : 0 < avid) (h1 : avid < 2 ^ 63) :
    ∃ s, Avid2Bvid avid = some s := by
  norm_num at h1
  lift avid to Nat using (by omega)
  obtain ⟨t, ht, ht0, ht1⟩ := Avid2Bvid_temp_range avid (by norm_num; omega)
  unfold Avid2Bvid
  simp only [ht, List.length_cons, List.length_nil]
  have h9 := avid2bvidLoop_nine 55 t (by omega)
  norm_num at h9 ⊢
  rw [h9]
  by_cases hq9 : t / 58 / 58 / 58 / 58 / 58 / 58 / 58 / 58 / 58 ≤ 0
  · rw [avid2bvidLoop_done _ _ _ _ hq9]
    exact Avid2Bvid_finish _ _ _ _ _ _ _ _ _ _ _ _ _ rfl rfl
  · rw [avid2bvidLoop_step _ _ _ _ (by omega) (by omega) (by simp)]
    by_cases hq10 : t / 58 / 58 / 58 / 58 / 58 / 58 / 58 / 58 / 58 / 58 ≤ 0
    · rw [avid2bvidLoop_done _ _ _ _ hq10]
      exact Avid2Bvid_finish _ _ _ _ _ _ _ _ _ _ _ _ _ rfl rfl
    · rw [avid2bvidLoop_step _ _ _ _ (by omega) (by omega) (by simp)]
      rw [avid2bvidLoop_done _ _ _ _ (by omega)]
      exact Avid2Bvid_finish _ _ _ _ _ _ _ _ _ _ _ _ _ rfl rfl

/-! ### Claims on the BVID/AVID codec -/

theorem swapString_some (s : List Char) (x y : Nat) (hx : x < s.length) (hy : y < s.length) :
    ∃ l, swapString s x y = some l ∧ l.length = s.length := by
  unfold swapString
  rw [List.get?_eq_get hx, List.get?_eq_get hy]
  exact ⟨_, rfl, by simp⟩

theorem swapString_none (s : List Char) (x y : Nat) (hy : s.length ≤ y) :
    swapString s x y = none := by
  unfold swapString
  rw [List.get?_eq_none.mpr hy]
  cases s.get? x <;> rfl

/-- The slip behind C4: a string of at least 4 bytes with fewer than 10 characters passes the
guard `len(bvid) < 4` and then panics in `swapString(bvid, 3, 9)`. -/
theorem Bvid2Avid_panics (s : String) (h1 : 4 ≤ s.utf8ByteSize) (h2 : s.length < 10) :
    Bvid2Avid s = none := by
  unfold Bvid2Avid
  rw [if_neg (by omega), swapString_none _ 3 9 (by
    have : s.toList.length = s.length := rfl
    omega)]

/-- C1: for every avid with `1 ≤ avid < 2^51`, `Avid2Bvid` returns a string and `Bvid2Avid`
maps that string back to `avid`. -/
theorem Bvid2Avid_Avid2Bvid (avid : Int) (h1 : 1 ≤ avid) (h2 : avid < 2 ^ 51) :
    ∃ s, Avid2Bvid avid = some s ∧ Bvid2Avid s = some avid := by
  norm_num at h2
  lift avid to Nat using (by omega)
  have ha : avid < 2 ^ 51 := by norm_num; omega
  have hX : (23442827791579 : Nat) < 2 ^ 51 := by norm_num
  have hax : avid ^^^ 23442827791579 < 2 ^ 51 := Nat.xor_lt_two_pow ha hX
  have ht := enc_temp avid ha
  have hp : (2:Nat) ^ 51 = 2251799813685248 := by norm_num
  refine ⟨_, Avid2Bvid_of_temp _ _ ht (by push_cast; omega) (by push_cast; omega), ?_⟩
  rw [Bvid2Avid_bvidChars _ (by push_cast; omega) (by push_cast; omega), dec_temp _ hax,
    nat_xor_cancel]

/-- Witness of C1 at `avid = 2`. -/
theorem Bvid2Avid_Avid2Bvid_witness :
    (1 : Int) ≤ 2 ∧ (2 : Int) < 2 ^ 51 ∧ ∃ s, Avid2Bvid 2 = some s ∧ Bvid2Avid s = some 2 :=
  ⟨by decide, by norm_num, Bvid2Avid_Avid2Bvid 2 (by decide) (by norm_num)⟩

/-- C2 as stated fails: `BV1FFFFFFFFF` is a valid public id (its nine data characters are the
digit zero), `Bvid2Avid` maps it to `XOR_CODE`, and `Avid2Bvid` maps that to another id. -/
theorem Avid2Bvid_Bvid2Avid_counterexample :
    validBvid "BV1FFFFFFFFF" ∧ Bvid2Avid "BV1FFFFFFFFF" = some 23442827791579
      ∧ Avid2Bvid 23442827791579 = some "BV1JSSoei7Vg" := by
  decide

/-- C2, amended: for every valid public id `s` whose nine data characters, after the two
swaps, read as a base-58 number `n` with `2^51 ≤ n < 2^52` (the ids `Avid2Bvid` produces),
`Bvid2Avid` returns an id and `Avid2Bvid` maps that id back to `s`. -/
theorem Avid2Bvid_Bvid2Avid_of_range (s : String) (n : Int) (hv : validBvid s)
    (hn : bvidValue s = some n) (h0 : 2 ^ 51 ≤ n) (h1 : n < 2 ^ 52) :
    ∃ a, Bvid2Avid s = some a ∧ Avid2Bvid a = some s := by
  obtain ⟨l⟩ := s
  obtain ⟨hlen, hpre, hmem⟩ := hv
  simp only [String.toList] at hlen hpre hmem
  obtain ⟨a0, a1, a2, c3, c4, c5, c6, c7, c8, c9, c10, c11, rfl⟩ := list_length_twelve l hlen
  simp only [List.take, List.cons.injEq, and_true] at hpre
  obtain ⟨rfl, rfl, rfl⟩ := hpre
  simp only [List.drop, List.mem_cons, List.mem_singleton, List.not_mem_nil, or_false,
    forall_eq_or_imp, forall_eq] at hmem
  obtain ⟨m3, m4, m5, m6, m7, m8, m9, m10, m11⟩ := hmem
  obtain ⟨p3, q3, e3⟩ := mem_CHARTS_digit c3 m3
  obtain ⟨p4, q4, e4⟩ := mem_CHARTS_digit c4 m4
  obtain ⟨p5, q5, e5⟩ := mem_CHARTS_digit c5 m5
  obtain ⟨p6, q6, e6⟩ := mem_CHARTS_digit c6 m6
  obtain ⟨p7, q7, e7⟩ := mem_CHARTS_digit c7 m7
  obtain ⟨p8, q8, e8⟩ := mem_CHARTS_digit c8 m8
  obtain ⟨p9, q9, e9⟩ := mem_CHARTS_digit c9 m9
  obtain ⟨p10, q10, e10⟩ := mem_CHARTS_digit c10 m10
  obtain ⟨p11, q11, e11⟩ := mem_CHARTS_digit c11 m11
  generalize indexRune CHARTS c3 = d3 at *
  generalize indexRune CHARTS c4 = d4 at *
  generalize indexRune CHARTS c5 = d5 at *
  generalize indexRune CHARTS c6 = d6 at *
  generalize indexRune CHARTS c7 = d7 at *
  generalize indexRune CHARTS c8 = d8 at *
  generalize indexRune CHARTS c9 = d9 at *
  generalize indexRune CHARTS c10 = d10 at *
  generalize indexRune CHARTS c11 = d11 at *
  subst e3 e4 e5 e6 e7 e8 e9 e10 e11
  have hval : bvidValue (String.mk ['B', 'V', '1', digitChar d3, digitChar d4, digitChar d5,
      digitChar d6, digitChar d7, digitChar d8, digitChar d9, digitChar d10, digitChar d11])
      = some (bvidTemp [digitChar d9, digitChar d7, digitChar d5, digitChar d6, digitChar d4,
          digitChar d8, digitChar d3, digitChar d10, digitChar d11] 0) := rfl
  rw [hval, bvidTemp_digits _ _ _ _ _ _ _ _ _ ⟨p9, q9⟩ ⟨p7, q7⟩ ⟨p5, q5⟩ ⟨p6, q6⟩ ⟨p4, q4⟩
    ⟨p8, q8⟩ ⟨p3, q3⟩ ⟨p10, q10⟩ ⟨p11, q11⟩] at hn
  simp only [Option.some.injEq] at hn
  norm_num at h0 h1
  rw [Bvid2Avid_chars, bvidTemp_digits _ _ _ _ _ _ _ _ _ ⟨p9, q9⟩ ⟨p7, q7⟩ ⟨p5, q5⟩ ⟨p6, q6⟩
    ⟨p4, q4⟩ ⟨p8, q8⟩ ⟨p3, q3⟩ ⟨p10, q10⟩ ⟨p11, q11⟩, hn]
  refine ⟨_, rfl, ?_⟩
  obtain ⟨y, hy⟩ : ∃ y : Nat, n = ((2 ^ 51 + y : Nat) : Int) := ⟨(n - 2 ^ 51).toNat, by
    push_cast; omega⟩
  have hy1 : y < 2 ^ 51 := by
    have : ((2 ^ 51 + y : Nat) : Int) < 4503599627370496 := by rw [← hy]; exact h1
    push_cast at this
    omega
  have hX : (23442827791579 : Nat) < 2 ^ 51 := by norm_num
  have hyx : y ^^^ 23442827791579 < 2 ^ 51 := Nat.xor_lt_two_pow hy1 hX
  have ht := enc_temp (y ^^^ 23442827791579) hyx
  rw [nat_xor_cancel, ← hy] at ht
  rw [hy, dec_temp y hy1]
  rw [Avid2Bvid_of_temp _ n ht (by omega) (by omega)]
  unfold bvidChars
  have k3 : n / 58 / 58 % 58 = d3 := by omega
  have k4 : n / 58 / 58 / 58 / 58 % 58 = d4 := by omega
  have k5 : n / 58 / 58 / 58 / 58 / 58 / 58 % 58 = d5 := by omega
  have k6 : n / 58 / 58 / 58 / 58 / 58 % 58 = d6 := by omega
  have k7 : n / 58 / 58 / 58 / 58 / 58 / 58 / 58 % 58 = d7 := by omega
  have k8 : n / 58 / 58 / 58 % 58 = d8 := by omega
  have k9 : n / 58 / 58 / 58 / 58 / 58 / 58 / 58 / 58 % 58 = d9 := by omega
  have k10 : n / 58 % 58 = d10 := by omega
  have k11 : n % 58 = d11 := by omega
  rw [k3, k4, k5, k6, k7, k8, k9, k10, k11]

/-- Witness of C2 (amended) at `BV1xx411c7mQ`, the id of avid 1. -/
theorem Avid2Bvid_Bvid2Avid_of_range_witness :
    validBvid "BV1xx411c7mQ" ∧ bvidValue "BV1xx411c7mQ" = some 2275242641476826
      ∧ (2 : Int) ^ 51 ≤ 2275242641476826 ∧ (2275242641476826 : Int) < 2 ^ 52
      ∧ ∃ a, Bvid2Avid "BV1xx411c7mQ" = some a ∧ Avid2Bvid a = some "BV1xx411c7mQ" :=
  ⟨by decide, by decide, by norm_num, by norm_num,
    Avid2Bvid_Bvid2Avid_of_range "BV1xx411c7mQ" 2275242641476826 (by decide) (by decide)
      (by norm_num) (by norm_num)⟩

/-- C3: `Bvid2Avid("BV1xx411c7mD")` is the positive integer 2, and `Avid2Bvid` maps it back to
`"BV1xx411c7mD"`. -/
theorem scenario_BV1xx411c7mD :
    ∃ a, Bvid2Avid "BV1xx411c7mD" = some a ∧ 0 < a ∧ Avid2Bvid a = some "BV1xx411c7mD" :=
  ⟨2, by decide, by decide, by decide⟩

/-- C4 as stated fails: `AV1xx411c7mD` does not start with `BV1`, yet `Bvid2Avid` returns 2 for
it, not 0. -/
theorem Bvid2Avid_invalid_counterexample :
    ¬ ∀ s : String, (s.length ≠ 12 ∨ ¬ ("BV1".toList.isPrefixOf s.toList = true)) →
      Bvid2Avid s = some 0 := by
  intro h
  have h2 := h "AV1xx411c7mD" (Or.inr (by decide))
  revert h2
  decide

/-- C4, amended: a string of fewer than 4 bytes yields 0 without a panic, and a string of at
least 10 characters, whatever its length and its first characters, yields a value without a
panic (the value need not be 0). -/
theorem Bvid2Avid_short_or_long (s : String) :
    (s.utf8ByteSize < 4 → Bvid2Avid s = some 0)
      ∧ (10 ≤ s.length → ∃ v, Bvid2Avid s = some v) := by
  constructor
  · intro h
    unfold Bvid2Avid
    rw [if_pos h]
  · intro h
    have hl : s.toList.length = s.length := rfl
    have hb : s.toList.length ≤ s.utf8ByteSize := utf8ByteSize_ge s.toList
    obtain ⟨l1, e1, n1⟩ := swapString_some s.toList 3 9 (by omega) (by omega)
    obtain ⟨l2, e2, n2⟩ := swapString_some l1 4 7 (by omega) (by omega)
    unfold Bvid2Avid
    rw [if_neg (by omega), e1]
    simp only [e2]
    rw [if_neg (by omega)]
    exact ⟨_, rfl⟩

/-- Witness of C4 (amended) at `"BV"` and at `"AV1xx411c7mD"`. -/
theorem Bvid2Avid_short_or_long_witness :
    ("BV".utf8ByteSize < 4 ∧ Bvid2Avid "BV" = some 0)
      ∧ (10 ≤ "AV1xx411c7mD".length ∧ ∃ v, Bvid2Avid "AV1xx411c7mD" = some v) :=
  ⟨⟨by decide, (Bvid2Avid_short_or_long "BV").1 (by decide)⟩,
    ⟨by decide, (Bvid2Avid_short_or_long "AV1xx411c7mD").2 (by decide)⟩⟩

/-! ### The dedup step and the harvest invariant -/

theorem NewCMT_Rpid (k : ReplyItem) : (NewCMT k).Rpid = k.Rpid := rfl

theorem dedupLoop_spec (items : List ReplyItem) (acc : DedupAcc) :
    ∃ new : List Comment,
      (dedupLoop items acc).resultChan = acc.resultChan ++ new
      ∧ (dedupLoop items acc).cmtCollection = acc.cmtCollection ++ new
      ∧ (dedupLoop items acc).newCommentCount = acc.newCommentCount + (new.length : Int)
      ∧ (new.map Comment.Rpid).Nodup
      ∧ (∀ c ∈ new, c.Rpid ∉ acc.recordedMap)
      ∧ (dedupLoop items acc).recordedMap = acc.recordedMap ∪ (new.map Comment.Rpid).toFinset
      ∧ (dedupLoop items acc).recordedMap
          = acc.recordedMap ∪ (items.map ReplyItem.Rpid).toFinset := by
  induction items generalizing acc with
  | nil => exact ⟨[], by simp [dedupLoop]⟩
  | cons k ks ih =>
    by_cases hk : k.Rpid ∈ acc.recordedMap
    · obtain ⟨new, h1, h2, h3, h4, h5, h6, h7⟩ := ih acc
      refine ⟨new, ?_, ?_, ?_, h4, h5, ?_, ?_⟩
      · rw [dedupLoop, if_pos hk]; exact h1
      · rw [dedupLoop, if_pos hk]; exact h2
      · rw [dedupLoop, if_pos hk]; exact h3
      · rw [dedupLoop, if_pos hk]; exact h6
      · rw [dedupLoop, if_pos hk, h7]
        ext x
        simp only [Finset.mem_union, List.mem_toFinset, List.map_cons, List.mem_cons]
        constructor
        · rintro (h | h)
          · exact Or.inl h
          · exact Or.inr (Or.inr h)
        · rintro (h | h | h)
          · exact Or.inl h
          · exact Or.inl (h ▸ hk)
          · exact Or.inr h
    · obtain ⟨new, h1, h2, h3, h4, h5, h6, h7⟩ := ih
        { recordedMap := insert (NewCMT k).Rpid acc.recordedMap
          cmtCollection := acc.cmtCollection ++ [NewCMT k]
          resultChan := acc.resultChan ++ [NewCMT k]
          newCommentCount := acc.newCommentCount + 1 }
      simp only at h1 h2 h3 h5 h6 h7
      refine ⟨NewCMT k :: new, ?_, ?_, ?_, ?_, ?_, ?_, ?_⟩
      · rw [dedupLoop, if_neg hk, h1]; simp
      · rw [dedupLoop, if_neg hk, h2]; simp
      · rw [dedupLoop, if_neg hk, h3]; push_cast [List.length_cons]; ring
      · rw [List.map_cons, List.nodup_cons]
        refine ⟨?_, h4⟩
        intro hmem
        obtain ⟨c, hc, hce⟩ := List.mem_map.mp hmem
        exact h5 c hc (by rw [hce]; exact Finset.mem_insert_self _ _)
      · intro c hc
        rcases List.mem_cons.mp hc with h | h
        · rw [h, NewCMT_Rpid]; exact hk
        · exact fun hin => h5 c h (Finset.mem_insert_of_mem hin)
      · rw [dedupLoop, if_neg hk, h6]
        ext x
        simp only [Finset.mem_union, Finset.mem_insert, List.mem_toFinset, List.map_cons,
          List.mem_cons]
        tauto
      · rw [dedupLoop, if_neg hk, h7]
        ext x
        simp only [Finset.mem_union, Finset.mem_insert, List.mem_toFinset, List.map_cons,
          List.mem_cons, NewCMT_Rpid]
        tauto

theorem dedupStep_inv (st : HarvestState) (items : List ReplyItem) (h : HarvestInv st) :
    HarvestInv (dedupStep st items) := by
  obtain ⟨hn, hs, hc⟩ := h
  obtain ⟨new, h1, _, h3, h4, h5, h6, _⟩ := dedupLoop_spec items
    { recordedMap := st.recordedMap, cmtCollection := [], resultChan := st.resultChan,
      newCommentCount := 0 }
  simp only at h1 h3 h5 h6
  have hdisj : Disjoint st.recordedMap (new.map Comment.Rpid).toFinset := by
    rw [Finset.disjoint_left]
    intro x hx hx2
    obtain ⟨c, hc1, hc2⟩ := List.mem_map.mp (List.mem_toFinset.mp hx2)
    exact h5 c hc1 (hc2 ▸ hx)
  refine ⟨?_, ?_, ?_⟩
  · show ((dedupLoop items _).resultChan.map Comment.Rpid).Nodup
    rw [h1, List.map_append, List.nodup_append]
    refine ⟨hn, h4, ?_⟩
    intro x hx1 hx2
    obtain ⟨c, hc1, hc2⟩ := List.mem_map.mp hx2
    apply h5 c hc1
    rw [hc2, ← hs]
    exact List.mem_toFinset.mpr hx1
  · show ((dedupLoop items _).resultChan.map Comment.Rpid).toFinset = (dedupLoop items _).recordedMap
    rw [h1, h6, List.map_append, List.toFinset_append, hs]
  · show st.downloadedCount + (dedupLoop items _).newCommentCount
      = (((dedupLoop items _).recordedMap.card : Nat) : Int)
    rw [h3, h6, Finset.card_union_of_disjoint hdisj, List.toFinset_card_of_nodup h4, hc]
    simp

theorem pageWorker_inv (env : Env) (opt : model.Option) (st : HarvestState) (pageNum : Int)
    (offset : String) (chk : Nat) (h : HarvestInv st) :
    HarvestInv (pageWorker env opt st pageNum offset chk) := by
  unfold pageWorker
  split_ifs
  · exact h
  · exact h
  · cases hf : env.FetchComment pageNum offset with
    | none => exact h
    | some cmtInfo =>
      simp only
      split_ifs
      · exact h
      · exact h
      · exact dedupStep_inv st _ h
      · exact dedupStep_inv st _ h

theorem mainLoop_inv (env : Env) (opt : model.Option) (total : Int) (semCap semTokens : Nat)
    (fuel : Nat) : ∀ (i : Nat) (st : HarvestState), HarvestInv st →
      HarvestInv (mainLoop env opt total semCap semTokens fuel i st).1 := by
  induction fuel with
  | zero => intro i st h; exact h
  | succ f ih =>
    intro i st h
    rw [mainLoop]
    split_ifs
    · exact h
    · exact h
    · exact h
    · exact h
    · exact ih _ _ (pageWorker_inv env opt st st.page st.offsetStr (2 * i + 1) h)

theorem FindComment_inv (env : Env) (opt : model.Option) (semCap semTokens : Nat)
    (count : Option Int) (fuel : Nat) :
    HarvestInv (FindComment env opt semCap semTokens count none fuel).1 := by
  have h0 : HarvestInv (initState none) := by
    refine ⟨?_, ?_, ?_⟩ <;> simp [initState]
  have hrel : ∀ st, HarvestInv st → HarvestInv (releaseSem semTokens st).1 := by
    intro st h
    unfold releaseSem
    split_ifs <;> exact h
  unfold FindComment
  cases count with
  | none => exact hrel _ h0
  | some total =>
    simp only
    split_ifs
    · exact hrel _ h0
    · have hl := mainLoop_inv env opt total semCap semTokens fuel 0 (loadedState none) h0
      generalize mainLoop env opt total semCap semTokens fuel 0 (loadedState none) = r at hl
      obtain ⟨st2, status⟩ := r
      cases status
      · exact hrel _ hl
      · exact hl
      · exact hl
      · exact hl

/-- C5: in the dedup step, for every state `st` (its `recordedMap` is the set seen) and every
list of reply items, the comments sent to `resultChan` have pairwise distinct rpids, none of
them in `recordedMap` before; afterwards `recordedMap` is the old one united with the rpids
of the list and `downloadedCount` has grown by the number of comments sent. Consequently a
harvest started without a checkpoint never sends an rpid twice, and its `downloadedCount` is
the size of `recordedMap`. -/
theorem dedup_at_most_once (st : HarvestState) (items : List ReplyItem) (env : Env)
    (opt : model.Option) (semCap semTokens : Nat) (count : Option Int) (fuel : Nat) :
    ((dedupStep st items).resultChan = st.resultChan ++ emittedBy st items
      ∧ ((emittedBy st items).map Comment.Rpid).Nodup
      ∧ (∀ c ∈ emittedBy st items, c.Rpid ∉ st.recordedMap)
      ∧ (dedupStep st items).recordedMap
          = st.recordedMap ∪ (items.map ReplyItem.Rpid).toFinset
      ∧ (dedupStep st items).downloadedCount
          = st.downloadedCount + ((emittedBy st items).length : Int))
    ∧ (((FindComment env opt semCap semTokens count none fuel).1.resultChan.map
          Comment.Rpid).Nodup
      ∧ (FindComment env opt semCap semTokens count none fuel).1.downloadedCount
          = ((FindComment env opt semCap semTokens count none fuel).1.recordedMap.card : Int)) := by
  obtain ⟨new, h1, h2, h3, h4, h5, _, h7⟩ := dedupLoop_spec items
    { recordedMap := st.recordedMap, cmtCollection := [], resultChan := st.resultChan,
      newCommentCount := 0 }
  simp only [List.nil_append, zero_add] at h1 h2 h3 h5 h7
  have he : emittedBy st items = new := h2
  have hinv := FindComment_inv env opt semCap semTokens count fuel
  refine ⟨⟨?_, ?_, ?_, ?_, ?_⟩, hinv.1, hinv.2.2⟩
  · rw [he]; exact h1
  · rw [he]; exact h4
  · rw [he]; exact h5
  · exact h7
  · rw [he]
    show st.downloadedCount + (dedupLoop items _).newCommentCount = _
    rw [h3]

/-! ### Termination of the main loop -/

theorem ctxDone_mono (env : Env) (m n : Nat) (h : m ≤ n) (hm : env.ctxDone m = true) :
    env.ctxDone n = true := by
  unfold Env.ctxDone at *
  cases hc : env.cancelFrom with
  | none => rw [hc] at hm; simp at hm
  | some c =>
    rw [hc] at hm
    simp only [decide_eq_true_eq] at hm ⊢
    omega

theorem dedupStep_cases (st : HarvestState) (items : List ReplyItem) :
    ((dedupStep st items).downloadedCount = st.downloadedCount
        ∧ (dedupStep st items).consecutiveEmptyPages = st.consecutiveEmptyPages + 1
        ∧ (dedupStep st items).resultChan = st.resultChan)
      ∨ (st.downloadedCount < (dedupStep st items).downloadedCount
        ∧ (dedupStep st items).consecutiveEmptyPages = 0) := by
  obtain ⟨new, h1, _, h3, _, _, _, _⟩ := dedupLoop_spec items
    { recordedMap := st.recordedMap, cmtCollection := [], resultChan := st.resultChan,
      newCommentCount := 0 }
  simp only [zero_add] at h1 h3
  cases new with
  | nil =>
    left
    simp only [List.length_nil, Nat.cast_zero] at h3
    simp only [List.append_nil] at h1
    refine ⟨?_, ?_, h1⟩
    · show st.downloadedCount + (dedupLoop items _).newCommentCount = _
      rw [h3]; simp
    · show (if (dedupLoop items _).newCommentCount = 0 then st.consecutiveEmptyPages + 1 else 0)
        = _
      rw [h3]; simp
  | cons c cs =>
    right
    have hpos : (0 : Int) < ((c :: cs).length : Int) := by
      simp only [List.length_cons]; push_cast; omega
    refine ⟨?_, ?_⟩
    · show st.downloadedCount < st.downloadedCount + (dedupLoop items _).newCommentCount
      rw [h3]; omega
    · show (if (dedupLoop items _).newCommentCount = 0 then st.consecutiveEmptyPages + 1 else 0)
        = 0
      rw [h3, if_neg (by omega)]

/-- What a page goroutine that is not cancelled does to the counters, when the jitter bound
is positive: it fails or finds nothing new, or it sees the end of the cursor, or it adds new
comments. -/
theorem pageWorker_cases (env : Env) (opt : model.Option) (st : HarvestState) (pageNum : Int)
    (offset : String) (chk : Nat) (hj : 0 < opt.DelayJitterMs) (hc : env.ctxDone chk = false) :
    ((pageWorker env opt st pageNum offset chk).downloadedCount = st.downloadedCount
        ∧ (pageWorker env opt st pageNum offset chk).consecutiveEmptyPages
            = st.consecutiveEmptyPages + 1)
      ∨ ((pageWorker env opt st pageNum offset chk).downloadedCount = st.downloadedCount
        ∧ (pageWorker env opt st pageNum offset chk).consecutiveEmptyPages = opt.MaxTryCount)
      ∨ (st.downloadedCount < (pageWorker env opt st pageNum offset chk).downloadedCount
        ∧ (pageWorker env opt st pageNum offset chk).consecutiveEmptyPages = 0) := by
  unfold pageWorker
  rw [hc]
  simp only [Bool.false_eq_true, if_false, if_neg (not_le.mpr hj)]
  cases hf : env.FetchComment pageNum offset with
  | none => exact Or.inl ⟨rfl, rfl⟩
  | some cmtInfo =>
    simp only
    split_ifs
    · exact Or.inl ⟨rfl, rfl⟩
    · exact Or.inr (Or.inl ⟨rfl, rfl⟩)
    · rcases dedupStep_cases st (replyCollection env cmtInfo) with h | h
      · exact Or.inl ⟨h.1, h.2.1⟩
      · exact Or.inr (Or.inr h)
    · rcases dedupStep_cases st (replyCollection env cmtInfo) with h | h
      · exact Or.inl ⟨h.1, h.2.1⟩
      · exact Or.inr (Or.inr h)

theorem haltsAt_of_stop (env : Env) (opt : model.Option) (total : Int) (semCap semTokens : Nat)
    (i : Nat) (st : HarvestState)
    (h : env.ctxDone (2 * i) = true ∨ st.downloadedCount ≥ total
      ∨ st.consecutiveEmptyPages ≥ opt.MaxTryCount ∨ semCap ≤ semTokens) :
    HaltsAt env opt total semCap semTokens i st 1 := by
  have key : ∀ f, mainLoop env opt total semCap semTokens (f + 1) i st
      = mainLoop env opt total semCap semTokens 1 i st
      ∧ (mainLoop env opt total semCap semTokens 1 i st).2 ≠ Status.outOfFuel := by
    intro f
    rw [mainLoop, mainLoop]
    split_ifs <;> first | exact ⟨rfl, by simp⟩ | (exfalso; tauto)
  refine ⟨(key 0).2, ?_⟩
  intro fuel hf
  obtain ⟨f, rfl⟩ : ∃ f, fuel = f + 1 := ⟨fuel - 1, by omega⟩
  exact (key f).1

theorem haltsAt_of_step (env : Env) (opt : model.Option) (total : Int) (semCap semTokens : Nat)
    (i : Nat) (st : HarvestState) (n : Nat)
    (h1 : env.ctxDone (2 * i) = false) (h2 : ¬ st.downloadedCount ≥ total)
    (h3 : ¬ st.consecutiveEmptyPages ≥ opt.MaxTryCount) (h4 : ¬ semCap ≤ semTokens)
    (hn : HaltsAt env opt total semCap semTokens (i + 1)
      { pageWorker env opt st st.page st.offsetStr (2 * i + 1) with
        page := st.page + 1, launched := st.launched + 1 } n) :
    HaltsAt env opt total semCap semTokens i st (n + 1) := by
  have key : ∀ f, mainLoop env opt total semCap semTokens (f + 1) i st
      = mainLoop env opt total semCap semTokens f (i + 1)
        { pageWorker env opt st st.page st.offsetStr (2 * i + 1) with
          page := st.page + 1, launched := st.launched + 1 } := by
    intro f
    rw [mainLoop, h1]
    simp only [Bool.false_eq_true, if_false, if_neg h2, if_neg h3, if_neg h4]
  refine ⟨?_, ?_⟩
  · rw [key]; exact hn.1
  · intro fuel hf
    obtain ⟨f, rfl⟩ : ∃ f, fuel = f + 1 := ⟨fuel - 1, by omega⟩
    rw [key, key]
    exact hn.2 f (by omega)

theorem mainLoop_halts_aux (env : Env) (opt : model.Option) (total : Int)
    (semCap semTokens : Nat) (hj : 0 < opt.DelayJitterMs) :
    ∀ (a b : Nat) (i : Nat) (st : HarvestState),
      (total - st.downloadedCount).toNat = a →
      (opt.MaxTryCount - st.consecutiveEmptyPages).toNat = b →
      ∃ n, HaltsAt env opt total semCap semTokens i st n := by
  intro a
  induction a using Nat.strong_induction_on with
  | _ a iha =>
    intro b
    induction b using Nat.strong_induction_on with
    | _ b ihb =>
      intro i st ha hb
      by_cases h1 : env.ctxDone (2 * i) = true
      · exact ⟨1, haltsAt_of_stop _ _ _ _ _ _ _ (Or.inl h1)⟩
      by_cases h2 : st.downloadedCount ≥ total
      · exact ⟨1, haltsAt_of_stop _ _ _ _ _ _ _ (Or.inr (Or.inl h2))⟩
      by_cases h3 : st.consecutiveEmptyPages ≥ opt.MaxTryCount
      · exact ⟨1, haltsAt_of_stop _ _ _ _ _ _ _ (Or.inr (Or.inr (Or.inl h3)))⟩
      by_cases h4 : semCap ≤ semTokens
      · exact ⟨1, haltsAt_of_stop _ _ _ _ _ _ _ (Or.inr (Or.inr (Or.inr h4)))⟩
      have h1f : env.ctxDone (2 * i) = false := by simpa using h1
      suffices hs : ∃ n, HaltsAt env opt total semCap semTokens (i + 1)
          { pageWorker env opt st st.page st.offsetStr (2 * i + 1) with
            page := st.page + 1, launched := st.launched + 1 } n by
        obtain ⟨n, hn⟩ := hs
        exact ⟨n + 1, haltsAt_of_step _ _ _ _ _ _ _ n h1f h2 h3 h4 hn⟩
      by_cases hc : env.ctxDone (2 * i + 1) = true
      · exact ⟨1, haltsAt_of_stop _ _ _ _ _ _ _
          (Or.inl (ctxDone_mono env (2 * i + 1) (2 * (i + 1)) (by omega) hc))⟩
      have hcf : env.ctxDone (2 * i + 1) = false := by simpa using hc
      rcases pageWorker_cases env opt st st.page st.offsetStr (2 * i + 1) hj hcf with
        ⟨e1, e2⟩ | ⟨e1, e2⟩ | ⟨e1, e2⟩
      · exact ihb ((opt.MaxTryCount - (st.consecutiveEmptyPages + 1)).toNat) (by omega) _ _
          (by simp only [e1]; exact ha) (by simp only [e2])
      · exact ihb 0 (by omega) _ _ (by simp only [e1]; exact ha) (by simp only [e2]; omega)
      · exact iha _ (by
          show (total - (pageWorker env opt st st.page st.offsetStr (2 * i + 1)).downloadedCount).toNat < a
          omega) _ _ _ rfl rfl

theorem mainLoop_stop (env : Env) (opt : model.Option) (total : Int) (semCap semTokens : Nat)
    (f i : Nat) (st : HarvestState) (h1 : env.ctxDone (2 * i) = false)
    (h : st.downloadedCount ≥ total ∨ st.consecutiveEmptyPages ≥ opt.MaxTryCount) :
    mainLoop env opt total semCap semTokens (f + 1) i st = (st, Status.returned) := by
  rw [mainLoop, h1]
  simp only [Bool.false_eq_true, if_false]
  split_ifs <;> first | rfl | (exfalso; tauto)

theorem mainLoop_step (env : Env) (opt : model.Option) (total : Int) (semCap semTokens : Nat)
    (f i : Nat) (st : HarvestState)
    (h1 : env.ctxDone (2 * i) = false) (h2 : ¬ st.downloadedCount ≥ total)
    (h3 : ¬ st.consecutiveEmptyPages ≥ opt.MaxTryCount) (h4 : ¬ semCap ≤ semTokens) :
    mainLoop env opt total semCap semTokens (f + 1) i st
      = mainLoop env opt total semCap semTokens f (i + 1)
        { pageWorker env opt st st.page st.offsetStr (2 * i + 1) with
          page := st.page + 1, launched := st.launched + 1 } := by
  rw [mainLoop, h1]
  simp only [Bool.false_eq_true, if_false, if_neg h2, if_neg h3, if_neg h4]

theorem pageWorker_fail (env : Env) (opt : model.Option) (st : HarvestState) (pageNum : Int)
    (offset : String) (chk : Nat) (hj : 0 < opt.DelayJitterMs) (hc : env.ctxDone chk = false)
    (hf : env.FetchComment pageNum offset = none) :
    pageWorker env opt st pageNum offset chk
      = { st with consecutiveEmptyPages := st.consecutiveEmptyPages + 1 } := by
  unfold pageWorker
  rw [hc, hf]
  simp only [Bool.false_eq_true, if_false, if_neg (not_le.mpr hj)]

theorem mainLoop_all_fail (env : Env) (opt : model.Option) (total : Int)
    (semCap semTokens : Nat) (hj : 0 < opt.DelayJitterMs)
    (hfail : ∀ p o, env.FetchComment p o = none) (hcan : env.cancelFrom = none)
    (hsem : semTokens < semCap) :
    ∀ (j i : Nat) (st : HarvestState), st.downloadedCount < total →
      st.consecutiveEmptyPages + (j : Int) = opt.MaxTryCount →
      HaltsAt env opt total semCap semTokens i st (j + 1)
        ∧ (mainLoop env opt total semCap semTokens (j + 1) i st).2 = Status.returned
        ∧ (mainLoop env opt total semCap semTokens (j + 1) i st).1.launched = st.launched + j
        ∧ (mainLoop env opt total semCap semTokens (j + 1) i st).1.resultChan
            = st.resultChan := by
  have hctx : ∀ n, env.ctxDone n = false := by
    intro n
    unfold Env.ctxDone
    rw [hcan]
  intro j
  induction j with
  | zero =>
    intro i st hdc hk
    have hge : st.consecutiveEmptyPages ≥ opt.MaxTryCount := by
      simp only [Nat.cast_zero, add_zero] at hk
      omega
    have hstop := mainLoop_stop env opt total semCap semTokens 0 i st (hctx _) (Or.inr hge)
    refine ⟨haltsAt_of_stop _ _ _ _ _ _ _ (Or.inr (Or.inr (Or.inl hge))), ?_, ?_, ?_⟩
    · rw [hstop]
    · rw [hstop]; rfl
    · rw [hstop]
  | succ j ih =>
    intro i st hdc hk
    have h2 : ¬ st.downloadedCount ≥ total := by omega
    have h3 : ¬ st.consecutiveEmptyPages ≥ opt.MaxTryCount := by
      push_cast at hk
      omega
    have h4 : ¬ semCap ≤ semTokens := by omega
    have hpw := pageWorker_fail env opt st st.page st.offsetStr (2 * i + 1) hj (hctx _)
      (hfail _ _)
    obtain ⟨g1, g2, g3, g4⟩ := ih (i + 1)
      { pageWorker env opt st st.page st.offsetStr (2 * i + 1) with
        page := st.page + 1, launched := st.launched + 1 }
      (by rw [hpw]; exact hdc)
      (by rw [hpw]; push_cast at hk; simp only; omega)
    refine ⟨haltsAt_of_step _ _ _ _ _ _ _ (j + 1) (hctx _) h2 h3 h4 g1, ?_, ?_, ?_⟩
    · rw [mainLoop_step env opt total semCap semTokens (j + 1) i st (hctx _) h2 h3 h4]
      exact g2
    · rw [mainLoop_step env opt total semCap semTokens (j + 1) i st (hctx _) h2 h3 h4, g3]
      simp only
      omega
    · rw [mainLoop_step env opt total semCap semTokens (j + 1) i st (hctx _) h2 h3 h4, g4, hpw]

/-- With pages processed one after another and a positive jitter bound (so that every
page goroutine ends in one of the outcomes error, end of cursor, new comments, nothing new),
the main loop of `FindComment` halts from every state, for every total and every behaviour
of the API and of `ctx`; and when every page fails, `ctx` is not cancelled, `MaxTryCount`
is `K ≥ 1`, the semaphore has a free slot and the loop starts with work left
(`downloadedCount < total`) and no empty page counted, it returns after launching exactly
`K` pages and sends no comment. -/
theorem mainLoop_terminates (env : Env) (opt : model.Option) (total : Int)
    (semCap semTokens : Nat) (i : Nat) (st : HarvestState) (hj : 0 < opt.DelayJitterMs) :
    (∃ n, HaltsAt env opt total semCap semTokens i st n)
      ∧ ((∀ p o, env.FetchComment p o = none) → env.cancelFrom = none →
          1 ≤ opt.MaxTryCount → st.downloadedCount < total → st.consecutiveEmptyPages = 0 →
          semTokens < semCap →
          ∃ n, HaltsAt env opt total semCap semTokens i st n
            ∧ (mainLoop env opt total semCap semTokens n i st).2 = Status.returned
            ∧ (mainLoop env opt total semCap semTokens n i st).1.launched
                = st.launched + opt.MaxTryCount.toNat
            ∧ (mainLoop env opt total semCap semTokens n i st).1.resultChan
                = st.resultChan) := by
  refine ⟨mainLoop_halts_aux env opt total semCap semTokens hj _ _ i st rfl rfl, ?_⟩
  intro hfail hcan hK hdc hcep hsem
  exact ⟨opt.MaxTryCount.toNat + 1,
    mainLoop_all_fail env opt total semCap semTokens hj hfail hcan hsem opt.MaxTryCount.toNat
      i st hdc (by rw [hcep]; omega)⟩

/-- An instance of `mainLoop_terminates`: a fresh harvest of a video with 5 comments in which
every page fails, with the default options (`K = 3`), launches 3 pages and sends nothing. -/
theorem mainLoop_terminates_witness :
    0 < defaultOption.DelayJitterMs
      ∧ ∃ n, HaltsAt envFail defaultOption 5 5 0 0 (initState none) n
        ∧ (mainLoop envFail defaultOption 5 5 0 n 0 (initState none)).2 = Status.returned
        ∧ (mainLoop envFail defaultOption 5 5 0 n 0 (initState none)).1.launched = 0 + 3
        ∧ (mainLoop envFail defaultOption 5 5 0 n 0 (initState none)).1.resultChan = [] :=
  ⟨by decide,
    (mainLoop_terminates envFail defaultOption 5 5 0 0 (initState none) (by decide)).2
      (fun _ _ => rfl) rfl (by decide) (by decide) rfl (by decide)⟩

theorem pageWorker_without_jitter (env : Env) (opt : model.Option) (st : HarvestState)
    (pageNum : Int) (offset : String) (chk : Nat) (hj : opt.DelayJitterMs ≤ 0) :
    pageWorker env opt st pageNum offset chk = st := by
  unfold pageWorker
  split_ifs <;> rfl

theorem mainLoop_without_jitter_aux (env : Env) (opt : model.Option) (total : Int)
    (semCap semTokens : Nat) (hj : opt.DelayJitterMs ≤ 0) (hcan : env.cancelFrom = none)
    (hsem : semTokens < semCap) :
    ∀ (fuel i : Nat) (st : HarvestState), st.downloadedCount < total →
      st.consecutiveEmptyPages < opt.MaxTryCount →
      (mainLoop env opt total semCap semTokens fuel i st).2 = Status.outOfFuel
        ∧ (mainLoop env opt total semCap semTokens fuel i st).1.launched = st.launched + fuel
        ∧ (mainLoop env opt total semCap semTokens fuel i st).1.resultChan = st.resultChan
        ∧ (mainLoop env opt total semCap semTokens fuel i st).1.consecutiveEmptyPages
            = st.consecutiveEmptyPages
        ∧ (mainLoop env opt total semCap semTokens fuel i st).1.downloadedCount
            = st.downloadedCount := by
  have hctx : ∀ n, env.ctxDone n = false := by
    intro n
    unfold Env.ctxDone
    rw [hcan]
  intro fuel
  induction fuel with
  | zero => intro i st _ _; exact ⟨rfl, rfl, rfl, rfl, rfl⟩
  | succ fuel ih =>
    intro i st hdc hcep
    rw [mainLoop_step env opt total semCap semTokens fuel i st (hctx _) (by omega) (by omega)
      (by omega), pageWorker_without_jitter env opt st _ _ _ hj]
    obtain ⟨h1, h2, h3, h4, h5⟩ := ih (i + 1)
      { st with page := st.page + 1, launched := st.launched + 1 } hdc hcep
    refine ⟨h1, ?_, h3, h4, h5⟩
    rw [h2]
    simp only
    omega

/-- C7 fails for the options that the command `video` builds, whose `DelayJitterMs` is 0:
`rand.Int63n(0)` panics in every page goroutine, the deferred function recovers it and no
counter moves, so on a video with 5 comments and `MaxTryCount = 3` the main loop has launched
`fuel` pages after `fuel` rounds, for every `fuel`, and has not ended; it sends no comment.
So it is for every option with `DelayJitterMs ≤ 0`, every behaviour of the API, a `ctx` that is
not cancelled and a semaphore with a free slot, from every state with work left and fewer
than `MaxTryCount` empty pages counted: the loop halts at no `n`. -/
theorem mainLoop_without_jitter :
    (videoCmdOption 3).DelayJitterMs = 0
      ∧ (mainLoop envFail (videoCmdOption 3) 5 5 0 100 0 (initState none)).2
          = Status.outOfFuel
      ∧ (mainLoop envFail (videoCmdOption 3) 5 5 0 100 0 (initState none)).1.launched = 100
      ∧ (∀ fuel,
          (mainLoop envFail (videoCmdOption 3) 5 5 0 fuel 0 (initState none)).2
              = Status.outOfFuel
            ∧ (mainLoop envFail (videoCmdOption 3) 5 5 0 fuel 0 (initState none)).1.launched
                = fuel
            ∧ (mainLoop envFail (videoCmdOption 3) 5 5 0 fuel 0 (initState none)).1.resultChan
                = [])
      ∧ (∀ (env : Env) (opt : model.Option) (total : Int) (semCap semTokens i : Nat)
          (st : HarvestState), opt.DelayJitterMs ≤ 0 → env.cancelFrom = none →
          semTokens < semCap → st.downloadedCount < total →
          st.consecutiveEmptyPages < opt.MaxTryCount →
          (∀ fuel, (mainLoop env opt total semCap semTokens fuel i st).2 = Status.outOfFuel
            ∧ (mainLoop env opt total semCap semTokens fuel i st).1.launched
                = st.launched + fuel)
          ∧ ¬ ∃ n, HaltsAt env opt total semCap semTokens i st n) := by
  refine ⟨rfl, by decide, by decide, ?_, ?_⟩
  · intro fuel
    obtain ⟨h1, h2, h3, _, _⟩ := mainLoop_without_jitter_aux envFail (videoCmdOption 3) 5 5 0
      (le_refl _) rfl (by decide) fuel 0 (initState none) (by decide) (by decide)
    refine ⟨h1, ?_, h3⟩
    rw [h2]
    simp [initState]
  · intro env opt total semCap semTokens i st hj hcan hsem hdc hcep
    refine ⟨fun fuel => ?_, ?_⟩
    · obtain ⟨h1, h2, _, _, _⟩ := mainLoop_without_jitter_aux env opt total semCap semTokens hj
        hcan hsem fuel i st hdc hcep
      exact ⟨h1, h2⟩
    · rintro ⟨n, hn, _⟩
      exact hn (mainLoop_without_jitter_aux env opt total semCap semTokens hj hcan hsem n i st
        hdc hcep).1

/-! ### Scenarios in which the harvester departs from the specification -/

/-- A page whose cursor reports the end contributes nothing: the page goroutine returns
before it looks at the replies of the page. -/
theorem pageWorker_isEnd (env : Env) (opt : model.Option) (st : HarvestState) (pageNum : Int)
    (offset : String) (chk : Nat) (cmtInfo : CommentResponse)
    (hf : env.FetchComment pageNum offset = some cmtInfo) (he : cmtInfo.IsEnd = true) :
    (pageWorker env opt st pageNum offset chk).resultChan = st.resultChan := by
  unfold pageWorker
  rw [hf]
  simp only [he, if_true]
  split_ifs <;> rfl

/-- C6, the code at the failing input: with a comment count of 2, page 1 carrying the replies
10 and 20 and `cursor.isEnd = true`, `FindComment` launches one page, returns, and has sent
no comment at all. -/
theorem FindComment_scenario_S1 :
    (FindComment envS1 defaultOption 5 1 (some 2) none 10).1.resultChan.map Comment.Rpid = []
      ∧ (FindComment envS1 defaultOption 5 1 (some 2) none 10).2 = Status.returned
      ∧ (FindComment envS1 defaultOption 5 1 (some 2) none 10).1.launched = 1 := by
  decide

/-- C8, the code at the failing input: when `FetchCount` returns 0, the deferred `<-sem` of
`FindComment` finds the semaphore made by `CrawlVideo` empty (`CrawlVideo` never sends on
it), so `FindComment` blocks and `CrawlVideo` does not return; called with one token in the
semaphore, as `FindUser` does, `FindComment` returns. -/
theorem CrawlVideo_total_zero (env : Env) (opt : model.Option)
    (progressFile : Option (Int × Int)) (fuel : Nat) :
    (FindComment env opt opt.Workers 0 (some 0) progressFile fuel).2 = Status.blockedOnReceive
      ∧ CrawlVideo env opt "BV1xx411c7mD" (some 0) progressFile fuel = none
      ∧ (FindComment env opt opt.Workers 1 (some 0) progressFile fuel).2 = Status.returned := by
  refine ⟨rfl, ?_, rfl⟩
  have h : Bvid2Avid "BV1xx411c7mD" = some 2 := by decide
  unfold CrawlVideo
  rw [h]
  rfl

/-- C9, the code at the failing input: `ctx` is cancelled after the first page. The main loop
leaves the checkpoint `(page, downloadedCount) = (2, 2)` in `progress.json`, and
`FindComment`, which then runs `removeProgress`, finishes with the file absent. -/
theorem FindComment_cancel_removes_checkpoint :
    (mainLoop envCancel defaultOption 5 5 1 10 0 (loadedState none)).1.progressFile
        = some (2, 2)
      ∧ (mainLoop envCancel defaultOption 5 5 1 10 0 (loadedState none)).2 = Status.returned
      ∧ (FindComment envCancel defaultOption 5 1 (some 5) none 10).1.progressFile = none
      ∧ (FindComment envCancel defaultOption 5 1 (some 5) none 10).2 = Status.returned := by
  decide

/-- Whenever `FindComment` gets past `FetchCount` with a non-zero total and its main loop
ends, the checkpoint file is absent afterwards, cancelled or not. -/
theorem FindComment_progressFile (env : Env) (opt : model.Option) (semCap semTokens : Nat)
    (total : Int) (progressFile : Option (Int × Int)) (fuel : Nat) (ht : total ≠ 0)
    (hs : (mainLoop env opt total semCap semTokens fuel 0 (loadedState progressFile)).2
      = Status.returned) :
    (FindComment env opt semCap semTokens (some total) progressFile fuel).1.progressFile
      = none := by
  unfold FindComment
  simp only [if_neg ht]
  generalize mainLoop env opt total semCap semTokens fuel 0 (loadedState progressFile) = r at hs
  obtain ⟨st2, status⟩ := r
  simp only at hs
  subst hs
  simp only [releaseSem]
  split_ifs <;> rfl

/-! ### The import path and rejected records -/

theorem chunksAux_flatten {α : Type} (n : Nat) (l : List α) :
    ∀ (k : Nat) (cur : List α), (chunksAux n l k cur).flatten = cur ++ l := by
  induction l with
  | nil =>
    intro k cur
    cases cur <;> simp [chunksAux]
  | cons x xs ih =>
    intro k cur
    rw [chunksAux]
    split_ifs
    · rw [List.flatten_cons, ih]; simp
    · rw [ih]; simp

theorem saveBatch_none (rows : List CommentRow) (batch : List (Option database.Comment))
    (h : none ∈ batch) : saveBatch rows batch = none := by
  unfold saveBatch
  rw [if_neg]
  intro hall
  have := List.all_eq_true.mp hall none h
  simp at this

theorem foldl_saveBatch_none (batches : List (List (Option database.Comment))) :
    List.foldl (fun acc batch => acc.bind fun rs => saveBatch rs batch) none batches = none := by
  induction batches with
  | nil => rfl
  | cons b bs ih => simpa using ih

theorem foldl_saveBatch_mem (batches : List (List (Option database.Comment))) :
    ∀ (acc : Option (List CommentRow)), (∃ b ∈ batches, none ∈ b) →
      List.foldl (fun acc batch => acc.bind fun rs => saveBatch rs batch) acc batches = none := by
  induction batches with
  | nil => intro acc h; simp at h
  | cons b bs ih =>
    intro acc h
    rw [List.foldl_cons]
    obtain ⟨b1, hb1, hn⟩ := h
    rcases List.mem_cons.mp hb1 with e | e
    · subst e
      cases acc with
      | none => exact foldl_saveBatch_none bs
      | some rs =>
        rw [Option.some_bind, saveBatch_none rs b1 hn]
        exact foldl_saveBatch_none bs
    · exact ih _ ⟨b1, e, hn⟩

theorem saveChunk_none (rows : List CommentRow) (chunk : List (Option database.Comment))
    (h : none ∈ chunk) : saveChunk rows chunk = none := by
  unfold saveChunk
  apply foldl_saveBatch_mem
  have hf := chunksAux_flatten 100 chunk 0 []
  rw [List.nil_append] at hf
  rw [← hf] at h
  obtain ⟨b, hb, hn⟩ := List.mem_flatten.mp h
  exact ⟨b, hb, hn⟩

theorem saveChunks_panic (chunks : List (List (Option database.Comment))) :
    ∀ (rows : List CommentRow), (∃ c ∈ chunks, none ∈ c) →
      (saveChunks rows chunks).2 = Outcome.panicked := by
  induction chunks with
  | nil => intro rows h; simp at h
  | cons c cs ih =>
    intro rows h
    rw [saveChunks]
    cases hs : saveChunk rows c with
    | none => rfl
    | some rows1 =>
      simp only
      apply ih
      obtain ⟨c1, hc1, hn⟩ := h
      rcases List.mem_cons.mp hc1 with e | e
      · subst e
        rw [saveChunk_none rows c1 hn] at hs
        cases hs
      · exact ⟨c1, e, hn⟩

theorem BatchSaveComments_panic (store : Store) (comments : List (Option database.Comment))
    (h : none ∈ comments) : (BatchSaveComments store comments).2 = Outcome.panicked := by
  unfold BatchSaveComments
  have hlen : comments.length ≠ 0 := by
    intro h0
    rw [List.length_eq_zero] at h0
    rw [h0] at h
    simp at h
  rw [if_neg hlen]
  simp only
  apply saveChunks_panic
  have hf := chunksAux_flatten 1000 comments 0 []
  rw [List.nil_append] at hf
  rw [← hf] at h
  obtain ⟨b, hb, hn⟩ := List.mem_flatten.mp h
  exact ⟨b, hb, hn⟩

/-- The defect behind C10 in general: one comment with `rpid ≤ 0` anywhere in the list makes
`importCommentsToDB` panic (in `BatchSaveComments`, on the nil pointer). -/
theorem importCommentsToDB_panics (store : Store) (bvid : String) (comments : List Comment)
    (c : Comment) (hc : c ∈ comments) (hr : c.Rpid ≤ 0) :
    (importCommentsToDB store bvid comments).2 = Outcome.panicked := by
  have hconv : convertToDBComment c = none := by
    unfold convertToDBComment
    split_ifs <;> rfl
  have hmem : none ∈ comments.map convertToDBComment :=
    List.mem_map.mpr ⟨c, hc, hconv⟩
  have hlen : comments.length ≠ 0 := by
    intro h0
    rw [List.length_eq_zero] at h0
    rw [h0] at hc
    simp at hc
  have hb := BatchSaveComments_panic store _ hmem
  unfold importCommentsToDB
  rw [if_neg hlen]
  simp only
  generalize BatchSaveComments store (comments.map convertToDBComment) = r at hb
  obtain ⟨s1, o⟩ := r
  simp only at hb
  subst hb
  rfl

/-- C10, the code at the failing input: of the harvested comments with rpid 10, 0 and 20,
`convertToDBComment` rejects the second with nil; `importCommentsToDB` appends that nil to
the batch, `BatchSaveComments` panics on it, and none of the three comments is stored. -/
theorem importCommentsToDB_rejected_record :
    convertToDBComment (harvested 0) = none
      ∧ (importCommentsToDB emptyStore "BV1xx411c7mD"
          [harvested 10, harvested 0, harvested 20]).2 = Outcome.panicked
      ∧ (importCommentsToDB emptyStore "BV1xx411c7mD"
          [harvested 10, harvested 0, harvested 20]).1.bilibili_comments = [] := by
  refine ⟨rfl, ?_, ?_⟩ <;> decide

/-! ### RebuildAllCommentRelations -/

theorem foldl_insertEdge_mem {α : Type} (f : α → String × String) (l : List α) :
    ∀ (rel : List (String × String)) (e : String × String),
      e ∈ l.foldl (fun rel r => if f r ∈ rel then rel else rel ++ [f r]) rel
        ↔ e ∈ rel ∨ ∃ r ∈ l, e = f r := by
  induction l with
  | nil => intro rel e; simp
  | cons x xs ih =>
    intro rel e
    rw [List.foldl_cons, ih]
    by_cases hx : f x ∈ rel
    · rw [if_pos hx]
      constructor
      · rintro (h | ⟨r, hr, he⟩)
        · exact Or.inl h
        · exact Or.inr ⟨r, List.mem_cons_of_mem _ hr, he⟩
      · rintro (h | ⟨r, hr, he⟩)
        · exact Or.inl h
        · rcases List.mem_cons.mp hr with rfl | hr
          · exact Or.inl (he ▸ hx)
          · exact Or.inr ⟨r, hr, he⟩
    · rw [if_neg hx]
      constructor
      · rintro (h | ⟨r, hr, he⟩)
        · rcases List.mem_append.mp h with h | h
          · exact Or.inl h
          · exact Or.inr ⟨x, List.mem_cons_self _ _, by simpa using h⟩
        · exact Or.inr ⟨r, List.mem_cons_of_mem _ hr, he⟩
      · rintro (h | ⟨r, hr, he⟩)
        · exact Or.inl (List.mem_append_left _ h)
        · rcases List.mem_cons.mp hr with rfl | hr
          · exact Or.inl (List.mem_append_right _ (by simp [he]))
          · exact Or.inr ⟨r, hr, he⟩

theorem mem_edgesAfterDelete (store : Store) (bvid : String) (e : String × String) :
    e ∈ edgesAfterDelete store bvid
      ↔ e ∈ store.comment_relations
        ∧ ¬ ∃ c ∈ store.bilibili_comments, c.bvid = bvid
            ∧ (c.unique_id = e.1 ∨ c.unique_id = e.2) := by
  unfold edgesAfterDelete
  simp only [List.mem_filter, List.mem_map, decide_eq_true_eq, not_or, not_exists, not_and]
  constructor
  · rintro ⟨h1, h2, h3⟩
    refine ⟨h1, ?_⟩
    intro c hc hb
    exact ⟨fun h => h2 c ⟨hc, hb⟩ h, fun h => h3 c ⟨hc, hb⟩ h⟩
  · rintro ⟨h1, h2⟩
    exact ⟨h1, fun c hc h => (h2 c hc.1 hc.2).1 h, fun c hc h => (h2 c hc.1 hc.2).2 h⟩

theorem mem_rebuild (store : Store) (bvid : String) (e : String × String) :
    e ∈ (RebuildAllCommentRelations store bvid).comment_relations
      ↔ (e ∈ store.comment_relations
          ∧ ¬ ∃ c ∈ store.bilibili_comments, c.bvid = bvid
              ∧ (c.unique_id = e.1 ∨ c.unique_id = e.2))
        ∨ ∃ c ∈ store.bilibili_comments, c.bvid = bvid ∧ c.parent ≠ "0"
            ∧ e = (c.parent, c.unique_id) := by
  have h := foldl_insertEdge_mem (fun r : CommentRow => (r.parent, r.unique_id))
    (store.bilibili_comments.filter fun r => decide (r.bvid = bvid ∧ r.parent ≠ "0"))
    (edgesAfterDelete store bvid) e
  have hd := mem_edgesAfterDelete store bvid e
  unfold RebuildAllCommentRelations
  unfold edgesAfterDelete at h hd
  simp only at h hd ⊢
  rw [h, hd]
  simp only [List.mem_filter, decide_eq_true_eq]
  constructor
  · rintro (h1 | ⟨r, ⟨hr, hb, hp⟩, he⟩)
    · exact Or.inl h1
    · exact Or.inr ⟨r, hr, hb, hp, he⟩
  · rintro (h1 | ⟨r, hr, hb, hp, he⟩)
    · exact Or.inl h1
    · exact Or.inr ⟨r, ⟨hr, hb, hp⟩, he⟩

theorem rebuildWithFault_ok (store : Store) (bvid : String) (fault : Option RebuildFault)
    (h : (rebuildWithFault store bvid fault).2 = Outcome.ok) :
    (rebuildWithFault store bvid fault).1 = RebuildAllCommentRelations store bvid := by
  cases fault with
  | none => rfl
  | some f =>
    cases f with
    | deleteFails => simp [rebuildWithFault] at h
    | queryFails => simp [rebuildWithFault] at h
    | beginFails => simp [rebuildWithFault] at h
    | prepareFails => simp [rebuildWithFault] at h
    | rowsErr => simp [rebuildWithFault] at h
    | commitFails => simp [rebuildWithFault] at h
    | scanFails i =>
      simp only [rebuildWithFault] at h ⊢
      split_ifs at h ⊢
      rfl
    | insertFails i =>
      simp only [rebuildWithFault] at h ⊢
      split_ifs at h ⊢
      rfl

/-- C13: when `RebuildAllCommentRelations(bvid)` succeeds, the edges afterwards are the old
edges with neither end a comment of `bvid`, together with the pairs `(c.parent, c.unique_id)`
of the stored comments `c` of `bvid` with `parent ≠ "0"`; the comment, video and count
tables are unchanged. -/
theorem rebuild_postcondition (store : Store) (bvid : String) (fault : Option RebuildFault)
    (h : (rebuildWithFault store bvid fault).2 = Outcome.ok) :
    (∀ e : String × String,
      e ∈ (rebuildWithFault store bvid fault).1.comment_relations
        ↔ (e ∈ store.comment_relations
            ∧ ¬ ∃ c ∈ store.bilibili_comments, c.bvid = bvid
                ∧ (c.unique_id = e.1 ∨ c.unique_id = e.2))
          ∨ ∃ c ∈ store.bilibili_comments, c.bvid = bvid ∧ c.parent ≠ "0"
              ∧ e = (c.parent, c.unique_id))
      ∧ (rebuildWithFault store bvid fault).1.bilibili_comments = store.bilibili_comments
      ∧ (rebuildWithFault store bvid fault).1.video_info = store.video_info
      ∧ (rebuildWithFault store bvid fault).1.comment_stats = store.comment_stats := by
  rw [rebuildWithFault_ok store bvid fault h]
  exact ⟨mem_rebuild store bvid, rfl, rfl, rfl⟩

/-- Witness of C13: the rebuild of the relations of `BV1xx411c7mD` in `storeThread`. -/
theorem rebuild_postcondition_witness :
    (rebuildWithFault storeThread "BV1xx411c7mD" none).2 = Outcome.ok
      ∧ (∀ e : String × String,
        e ∈ (rebuildWithFault storeThread "BV1xx411c7mD" none).1.comment_relations
          ↔ (e ∈ storeThread.comment_relations
              ∧ ¬ ∃ c ∈ storeThread.bilibili_comments, c.bvid = "BV1xx411c7mD"
                  ∧ (c.unique_id = e.1 ∨ c.unique_id = e.2))
            ∨ ∃ c ∈ storeThread.bilibili_comments, c.bvid = "BV1xx411c7mD" ∧ c.parent ≠ "0"
                ∧ e = (c.parent, c.unique_id))
      ∧ (rebuildWithFault storeThread "BV1xx411c7mD" none).1.bilibili_comments
          = storeThread.bilibili_comments
      ∧ (rebuildWithFault storeThread "BV1xx411c7mD" none).1.video_info
          = storeThread.video_info
      ∧ (rebuildWithFault storeThread "BV1xx411c7mD" none).1.comment_stats
          = storeThread.comment_stats :=
  ⟨rfl, rebuild_postcondition storeThread "BV1xx411c7mD" none rfl⟩

/-- C14, the code at the failing input: in `storeThread` the edge `(…_10, …_11)` is stored;
when the first insert of `RebuildAllCommentRelations("BV1xx411c7mD")` fails, the call returns
an error and the edge table is empty, because the `DELETE` was executed before the
transaction that is rolled back. -/
theorem rebuild_not_atomic :
    storeThread.comment_relations = [("BV1xx411c7mD_10", "BV1xx411c7mD_11")]
      ∧ (rebuildWithFault storeThread "BV1xx411c7mD" (some (RebuildFault.insertFails 0))).2
          = Outcome.error
      ∧ (rebuildWithFault storeThread "BV1xx411c7mD"
          (some (RebuildFault.insertFails 0))).1.comment_relations = [] := by
  decide

/-- The only failure of `RebuildAllCommentRelations` that leaves the edge table as it was is
that of the `DELETE` itself; after any other failure the table is what the `DELETE` left. -/
theorem rebuildWithFault_error (store : Store) (bvid : String) (fault : Option RebuildFault)
    (h : (rebuildWithFault store bvid fault).2 = Outcome.error) :
    (rebuildWithFault store bvid fault).1.comment_relations = store.comment_relations
      ∨ (rebuildWithFault store bvid fault).1.comment_relations
          = edgesAfterDelete store bvid := by
  cases fault with
  | none => simp [rebuildWithFault] at h
  | some f =>
    cases f with
    | deleteFails => exact Or.inl rfl
    | queryFails => exact Or.inr rfl
    | beginFails => exact Or.inr rfl
    | prepareFails => exact Or.inr rfl
    | rowsErr => exact Or.inr rfl
    | commitFails => exact Or.inr rfl
    | scanFails i =>
      simp only [rebuildWithFault] at h ⊢
      split_ifs at h ⊢
      exact Or.inr rfl
    | insertFails i =>
      simp only [rebuildWithFault] at h ⊢
      split_ifs at h ⊢
      exact Or.inr rfl

/-! ### The edges written by the import path -/

theorem BatchSaveComments_relations (store : Store) (l : List (Option database.Comment)) :
    (BatchSaveComments store l).1.comment_relations = store.comment_relations := by
  unfold BatchSaveComments
  split_ifs <;> rfl

theorem saveAllRelations_noReplies (l : List (Option database.Comment)) :
    ∀ (store : Store), (∀ c, some c ∈ l → c.Replies = []) →
      (saveAllRelations store l).1 = store := by
  induction l with
  | nil => intro store _; rfl
  | cons x xs ih =>
    intro store h
    cases x with
    | none => rfl
    | some c =>
      have hc : c.Replies = [] := h c (List.mem_cons_self _ _)
      rw [saveAllRelations, if_neg (by rw [hc]; simp)]
      exact ih store fun c1 h1 => h c1 (List.mem_cons_of_mem _ h1)

theorem convertToDBComment_NewCMT_Replies (k : ReplyItem) (c : database.Comment)
    (h : convertToDBComment (NewCMT k) = some c) : c.Replies = [] := by
  unfold convertToDBComment at h
  split_ifs at h <;>
  · simp only [Option.some.injEq] at h
    rw [← h]
    rfl

/-- C12 fails: the harvested reply 11 of comment 10, imported alone into the empty store, is
stored with the edge `(…_10, …_11)`, whose parent end is not a stored comment, although
the import succeeds. -/
theorem import_edge_counterexample :
    (importCommentsToDB emptyStore "BV1xx411c7mD" [NewCMT (replyOf 11 10)]).2 = Outcome.ok
      ∧ ("BV1xx411c7mD_10", "BV1xx411c7mD_11")
          ∈ (importCommentsToDB emptyStore "BV1xx411c7mD"
              [NewCMT (replyOf 11 10)]).1.comment_relations
      ∧ "BV1xx411c7mD_10"
          ∉ commentIds (importCommentsToDB emptyStore "BV1xx411c7mD"
              [NewCMT (replyOf 11 10)]).1 := by
  decide

/-- What the import path does store: after `importCommentsToDB(bvid, comments)` has completed
successfully on the empty store, for every list of harvested comments, every edge `(p, c)` is
the pair `(parent, unique_id)` of a stored comment of `bvid` whose parent is not `"0"`; so
`c` is stored, `p` is stored exactly when that comment's parent is, and `p ≠ c` unless that
comment names itself as its parent. -/
theorem import_edges (items : List ReplyItem) (bvid : String)
    (h : (importCommentsToDB emptyStore bvid (items.map NewCMT)).2 = Outcome.ok) :
    ∀ e ∈ (importCommentsToDB emptyStore bvid (items.map NewCMT)).1.comment_relations,
      ∃ c ∈ (importCommentsToDB emptyStore bvid (items.map NewCMT)).1.bilibili_comments,
        c.unique_id = e.2 ∧ c.parent = e.1 ∧ c.parent ≠ "0" ∧ c.bvid = bvid := by
  have hrep : ∀ c, some c ∈ (items.map NewCMT).map convertToDBComment → c.Replies = [] := by
    intro c hc
    obtain ⟨cm, hcm, hconv⟩ := List.mem_map.mp hc
    obtain ⟨k, _, rfl⟩ := List.mem_map.mp hcm
    exact convertToDBComment_NewCMT_Replies k c hconv
  have hrel := BatchSaveComments_relations emptyStore ((items.map NewCMT).map convertToDBComment)
  unfold importCommentsToDB at h ⊢
  split_ifs at h ⊢
  · intro e he
    simp [emptyStore] at he
  · simp only at h ⊢
    rcases hb : BatchSaveComments emptyStore ((items.map NewCMT).map convertToDBComment) with
      ⟨store1, o1⟩
    rw [hb] at h hrel
    have hsave := saveAllRelations_noReplies ((items.map NewCMT).map convertToDBComment)
      store1 hrep
    rcases hs : saveAllRelations store1 ((items.map NewCMT).map convertToDBComment) with
      ⟨store2, o2⟩
    rw [hs] at hsave
    simp only at hsave hrel
    subst hsave
    cases o1 <;> simp only at h ⊢
    · rw [hs] at h ⊢
      cases o2 <;> simp only at h ⊢
      · intro e he
        rcases (mem_rebuild _ bvid e).mp he with ⟨hold, _⟩ | ⟨c, hc, hb1, hp, rfl⟩
        · have : (UpdateCommentStats store2 bvid).comment_relations = [] := by
            show store2.comment_relations = []
            rw [hrel]; rfl
          rw [this] at hold
          simp at hold
        · exact ⟨c, hc, rfl, rfl, hp, hb1⟩
      · exact absurd h (by simp)
      · exact absurd h (by simp)
    · exact absurd h (by simp)
    · exact absurd h (by simp)

/-- An instance of `import_edges`: the import of the harvested comment 10 and its reply 11. -/
theorem import_edges_witness :
    (importCommentsToDB emptyStore "BV1xx411c7mD"
        ([replyOf 10 0, replyOf 11 10].map NewCMT)).2 = Outcome.ok
      ∧ ∀ e ∈ (importCommentsToDB emptyStore "BV1xx411c7mD"
          ([replyOf 10 0, replyOf 11 10].map NewCMT)).1.comment_relations,
        ∃ c ∈ (importCommentsToDB emptyStore "BV1xx411c7mD"
            ([replyOf 10 0, replyOf 11 10].map NewCMT)).1.bilibili_comments,
          c.unique_id = e.2 ∧ c.parent = e.1 ∧ c.parent ≠ "0" ∧ c.bvid = "BV1xx411c7mD" :=
  ⟨by decide, import_edges [replyOf 10 0, replyOf 11 10] "BV1xx411c7mD" (by decide)⟩

/-! ### The invariant of the comment table under the write paths -/

theorem mem_upsertRow (rows : List CommentRow) (r x : CommentRow) (h : x ∈ upsertRow rows r) :
    x ∈ rows ∨ x = r := by
  unfold upsertRow at h
  rcases List.mem_append.mp h with h | h
  · exact Or.inl (List.mem_filter.mp h).1
  · exact Or.inr (by simpa using h)

theorem mem_foldl_upsert (batch : List (Option database.Comment)) :
    ∀ (rows : List CommentRow) (x : CommentRow),
      x ∈ batch.foldl (fun rs c => match c with
        | some c => upsertRow rs (rowOf c)
        | none => rs) rows →
      x ∈ rows ∨ ∃ c, some c ∈ batch ∧ x = rowOf c := by
  induction batch with
  | nil => intro rows x h; exact Or.inl h
  | cons b bs ih =>
    intro rows x h
    rw [List.foldl_cons] at h
    rcases ih _ x h with h1 | ⟨c, hc, hx⟩
    · cases b with
      | none => exact Or.inl h1
      | some c =>
        rcases mem_upsertRow rows (rowOf c) x h1 with h2 | h2
        · exact Or.inl h2
        · exact Or.inr ⟨c, List.mem_cons_self _ _, h2⟩
    · exact Or.inr ⟨c, List.mem_cons_of_mem _ hc, hx⟩

theorem mem_saveBatch (rows rows1 : List CommentRow) (batch : List (Option database.Comment))
    (h : saveBatch rows batch = some rows1) (x : CommentRow) (hx : x ∈ rows1) :
    x ∈ rows ∨ ∃ c, some c ∈ batch ∧ x = rowOf c := by
  unfold saveBatch at h
  split_ifs at h
  simp only [Option.some.injEq] at h
  subst h
  exact mem_foldl_upsert batch rows x hx

theorem mem_foldl_saveBatch (batches : List (List (Option database.Comment))) :
    ∀ (acc : Option (List CommentRow)) (rows rows1 : List CommentRow),
      acc = some rows →
      List.foldl (fun acc batch => acc.bind fun rs => saveBatch rs batch) acc batches
        = some rows1 →
      ∀ x ∈ rows1, x ∈ rows ∨ ∃ c b, b ∈ batches ∧ some c ∈ b ∧ x = rowOf c := by
  induction batches with
  | nil =>
    intro acc rows rows1 hacc h x hx
    rw [List.foldl_nil, hacc, Option.some.injEq] at h
    subst h
    exact Or.inl hx
  | cons b bs ih =>
    intro acc rows rows1 hacc h x hx
    rw [List.foldl_cons, hacc, Option.some_bind] at h
    cases hs : saveBatch rows b with
    | none =>
      rw [hs, foldl_saveBatch_none] at h
      cases h
    | some rows2 =>
      rw [hs] at h
      rcases ih (some rows2) rows2 rows1 rfl h x hx with h1 | ⟨c, b1, hb1, hc, hx1⟩
      · rcases mem_saveBatch rows rows2 b hs x h1 with h2 | ⟨c, hc, hx1⟩
        · exact Or.inl h2
        · exact Or.inr ⟨c, b, List.mem_cons_self _ _, hc, hx1⟩
      · exact Or.inr ⟨c, b1, List.mem_cons_of_mem _ hb1, hc, hx1⟩

theorem mem_saveChunk (rows rows1 : List CommentRow) (chunk : List (Option database.Comment))
    (h : saveChunk rows chunk = some rows1) (x : CommentRow) (hx : x ∈ rows1) :
    x ∈ rows ∨ ∃ c, some c ∈ chunk ∧ x = rowOf c := by
  unfold saveChunk at h
  rcases mem_foldl_saveBatch _ (some rows) rows rows1 rfl h x hx with h1 | ⟨c, b, hb, hc, hx1⟩
  · exact Or.inl h1
  · refine Or.inr ⟨c, ?_, hx1⟩
    have hf := chunksAux_flatten 100 chunk 0 []
    rw [List.nil_append] at hf
    rw [← hf]
    exact List.mem_flatten.mpr ⟨b, hb, hc⟩

theorem mem_saveChunks (chunks : List (List (Option database.Comment))) :
    ∀ (rows : List CommentRow) (x : CommentRow), x ∈ (saveChunks rows chunks).1 →
      x ∈ rows ∨ ∃ c ch, ch ∈ chunks ∧ some c ∈ ch ∧ x = rowOf c := by
  induction chunks with
  | nil => intro rows x h; exact Or.inl h
  | cons ch chs ih =>
    intro rows x h
    rw [saveChunks] at h
    cases hs : saveChunk rows ch with
    | none =>
      rw [hs] at h
      exact Or.inl h
    | some rows1 =>
      rw [hs] at h
      rcases ih rows1 x h with h1 | ⟨c, ch1, hch1, hc, hx1⟩
      · rcases mem_saveChunk rows rows1 ch hs x h1 with h2 | ⟨c, hc, hx1⟩
        · exact Or.inl h2
        · exact Or.inr ⟨c, ch, List.mem_cons_self _ _, hc, hx1⟩
      · exact Or.inr ⟨c, ch1, List.mem_cons_of_mem _ hch1, hc, hx1⟩

/-- Every row in the comment table after `BatchSaveComments` was there before or is the row
written for one of the comments given. -/
theorem mem_BatchSaveComments (store : Store) (l : List (Option database.Comment))
    (x : CommentRow) (hx : x ∈ (BatchSaveComments store l).1.bilibili_comments) :
    x ∈ store.bilibili_comments ∨ ∃ c, some c ∈ l ∧ x = rowOf c := by
  unfold BatchSaveComments at hx
  split_ifs at hx
  · exact Or.inl hx
  · rcases mem_saveChunks _ store.bilibili_comments x hx with h1 | ⟨c, ch, hch, hc, hx1⟩
    · exact Or.inl h1
    · refine Or.inr ⟨c, ?_, hx1⟩
      have hf := chunksAux_flatten 1000 l 0 []
      rw [List.nil_append] at hf
      rw [← hf]
      exact List.mem_flatten.mpr ⟨ch, hch, hc⟩

theorem saveAllRelations_rows (l : List (Option database.Comment)) :
    ∀ (store : Store),
      (saveAllRelations store l).1.bilibili_comments = store.bilibili_comments := by
  induction l with
  | nil => intro store; rfl
  | cons x xs ih =>
    intro store
    cases x with
    | none => rfl
    | some c =>
      rw [saveAllRelations]
      split_ifs
      · rw [ih]; rfl
      · exact ih store

theorem importCommentsToDB_rows (store : Store) (bvid : String) (comments : List Comment) :
    (importCommentsToDB store bvid comments).1.bilibili_comments = store.bilibili_comments
      ∨ (importCommentsToDB store bvid comments).1.bilibili_comments
          = (BatchSaveComments store (comments.map convertToDBComment)).1.bilibili_comments := by
  unfold importCommentsToDB
  split_ifs
  · exact Or.inl rfl
  · right
    simp only
    rcases hb : BatchSaveComments store (comments.map convertToDBComment) with ⟨store1, o1⟩
    have hsave := saveAllRelations_rows (comments.map convertToDBComment) store1
    rcases hs : saveAllRelations store1 (comments.map convertToDBComment) with ⟨store2, o2⟩
    rw [hs] at hsave
    cases o1 <;> simp only
    rw [hs]
    cases o2 <;> simp only
    · exact hsave
    · exact hsave
    · exact hsave

theorem convertToDBComment_Rpid (cm : Comment) (c : database.Comment)
    (h : convertToDBComment cm = some c) : 0 < c.Rpid := by
  unfold convertToDBComment at h
  split_ifs at h with h1 h2 h3 <;>
  · simp only [Option.some.injEq] at h
    rw [← h]
    show 0 < cm.Rpid
    omega

theorem mem_keepFirstBy {α : Type} (key : α → String) (l : List α) :
    ∀ (seen : List String) (x : α), x ∈ keepFirstBy key l seen → x ∈ l := by
  induction l with
  | nil => intro seen x h; simp [keepFirstBy] at h
  | cons y ys ih =>
    intro seen x h
    rw [keepFirstBy] at h
    split_ifs at h
    · exact List.mem_cons_of_mem _ (ih _ x h)
    · rcases List.mem_cons.mp h with rfl | h
      · exact List.mem_cons_self _ _
      · exact List.mem_cons_of_mem _ (ih _ x h)

theorem foldl_rebuild_rows (l : List String) :
    ∀ (store : Store),
      (l.foldl RebuildAllCommentRelations store).bilibili_comments
        = store.bilibili_comments := by
  induction l with
  | nil => intro store; rfl
  | cons b bs ih => intro store; rw [List.foldl_cons, ih]; rfl

/-- What `fixIssue` does, by the type of the issue. -/
theorem fixIssue_cases (store : Store) (issue : Issue) (now : Int) (fault : Bool) :
    fixIssue store issue now fault = (store, Outcome.error)
      ∨ fixIssue store issue now fault = (fixEmptyVideoTitles store, Outcome.ok)
      ∨ fixIssue store issue now fault = (fixDuplicateBVids store, Outcome.ok)
      ∨ fixIssue store issue now fault = (fixVideoMissingComments store, Outcome.ok)
      ∨ fixIssue store issue now fault = (fixOrphanComments store, Outcome.ok)
      ∨ fixIssue store issue now fault = (fixDuplicateComments store, Outcome.ok)
      ∨ fixIssue store issue now fault = (fixEmptyCommentContent store, Outcome.ok)
      ∨ fixIssue store issue now fault = (fixInvalidTimestamps store now, Outcome.ok)
      ∨ fixIssue store issue now fault = (fixInvalidParentReferences store, Outcome.ok)
      ∨ fixIssue store issue now fault = (fixInvalidChildReferences store, Outcome.ok)
      ∨ fixIssue store issue now fault = (fixSelfReferences store, Outcome.ok)
      ∨ fixIssue store issue now fault = (fixInconsistentStats store, Outcome.ok)
      ∨ fixIssue store issue now fault = fixMissingStats store
      ∨ fixIssue store issue now fault = (fixAllCommentRelations store, Outcome.ok)
      ∨ (issue.Type_ = ErrorTypeParentNotExist
        ∧ fixIssue store issue now fault = (fixParentNotExist store now, Outcome.ok)) := by
  unfold fixIssue
  by_cases h0 : issue.Type_ = ErrorTypeEmptyVideoTitle
  · rw [if_pos h0]
    cases fault
    · exact Or.inr (Or.inl (rfl))
    · exact Or.inl rfl
  rw [if_neg h0]
  by_cases h1 : issue.Type_ = ErrorTypeDuplicateBvid
  · rw [if_pos h1]
    cases fault
    · exact Or.inr (Or.inr (Or.inl (rfl)))
    · exact Or.inl rfl
  rw [if_neg h1]
  by_cases h2 : issue.Type_ = ErrorTypeVideoMissingComments
  · rw [if_pos h2]
    cases fault
    · exact Or.inr (Or.inr (Or.inr (Or.inl (rfl))))
    · exact Or.inl rfl
  rw [if_neg h2]
  by_cases h3 : issue.Type_ = ErrorTypeOrphanComments
  · rw [if_pos h3]
    cases fault
    · exact Or.inr (Or.inr (Or.inr (Or.inr (Or.inl (rfl)))))
    · exact Or.inl rfl
  rw [if_neg h3]
  by_cases h4 : issue.Type_ = ErrorTypeDuplicateComments
  · rw [if_pos h4]
    cases fault
    · exact Or.inr (Or.inr (Or.inr (Or.inr (Or.inr (Or.inl (rfl))))))
    · exact Or.inl rfl
  rw [if_neg h4]
  by_cases h5 : issue.Type_ = ErrorTypeEmptyCommentContent
  · rw [if_pos h5]
    cases fault
    · exact Or.inr (Or.inr (Or.inr (Or.inr (Or.inr (Or.inr (Or.inl (rfl)))))))
    · exact Or.inl rfl
  rw [if_neg h5]
  by_cases h6 : issue.Type_ = ErrorTypeInvalidTimestamp
  · rw [if_pos h6]
    cases fault
    · exact Or.inr (Or.inr (Or.inr (Or.inr (Or.inr (Or.inr (Or.inr (Or.inl (rfl))))))))
    · exact Or.inl rfl
  rw [if_neg h6]
  by_cases h7 : issue.Type_ = ErrorTypeInvalidParentRef
  · rw [if_pos h7]
    cases fault
    · exact Or.inr (Or.inr (Or.inr (Or.inr (Or.inr (Or.inr (Or.inr (Or.inr (Or.inl (rfl)))))))))
    · exact Or.inl rfl
  rw [if_neg h7]
  by_cases h8 : issue.Type_ = ErrorTypeInvalidChildRef
  · rw [if_pos h8]
    cases fault
    · exact Or.inr (Or.inr (Or.inr (Or.inr (Or.inr (Or.inr (Or.inr (Or.inr (Or.inr (Or.inl (rfl))))))))))
    · exact Or.inl rfl
  rw [if_neg h8]
  by_cases h9 : issue.Type_ = ErrorTypeSelfReference
  · rw [if_pos h9]
    cases fault
    · exact Or.inr (Or.inr (Or.inr (Or.inr (Or.inr (Or.inr (Or.inr (Or.inr (Or.inr (Or.inr (Or.inl (rfl)))))))))))
    · exact Or.inl rfl
  rw [if_neg h9]
  by_cases h10 : issue.Type_ = ErrorTypeInconsistentStats
  · rw [if_pos h10]
    cases fault
    · exact Or.inr (Or.inr (Or.inr (Or.inr (Or.inr (Or.inr (Or.inr (Or.inr (Or.inr (Or.inr (Or.inr (Or.inl (rfl))))))))))))
    · exact Or.inl rfl
  rw [if_neg h10]
  by_cases h11 : issue.Type_ = ErrorTypeMissingStats
  · rw [if_pos h11]
    cases fault
    · exact Or.inr (Or.inr (Or.inr (Or.inr (Or.inr (Or.inr (Or.inr (Or.inr (Or.inr (Or.inr (Or.inr (Or.inr (Or.inl (rfl)))))))))))))
    · exact Or.inl rfl
  rw [if_neg h11]
  by_cases h12 : issue.Type_ = ErrorTypeMissingCommentRelations
  · rw [if_pos h12]
    cases fault
    · exact Or.inr (Or.inr (Or.inr (Or.inr (Or.inr (Or.inr (Or.inr (Or.inr (Or.inr (Or.inr (Or.inr (Or.inr (Or.inr (Or.inl (rfl))))))))))))))
    · exact Or.inl rfl
  rw [if_neg h12]
  by_cases h13 : issue.Type_ = ErrorTypeParentNotExist
  · rw [if_pos h13]
    cases fault
    · exact Or.inr (Or.inr (Or.inr (Or.inr (Or.inr (Or.inr (Or.inr (Or.inr (Or.inr (Or.inr (Or.inr (Or.inr (Or.inr (Or.inr (⟨h13, rfl⟩))))))))))))))
    · exact Or.inl rfl
  rw [if_neg h13]
  exact Or.inl rfl

/-- The rows of the comment table after a repair other than that of `parent_not_exist`: each
has the unique id, bvid and rpid of a row that was there before. -/
theorem fixIssue_rows (store : Store) (issue : Issue) (now : Int) (fault : Bool)
    (ht : issue.Type_ ≠ ErrorTypeParentNotExist) :
    ∀ x ∈ (fixIssue store issue now fault).1.bilibili_comments,
      ∃ y ∈ store.bilibili_comments,
        x.unique_id = y.unique_id ∧ x.bvid = y.bvid ∧ x.rpid = y.rpid := by
  have hsame : ∀ x ∈ store.bilibili_comments, ∃ y ∈ store.bilibili_comments,
      x.unique_id = y.unique_id ∧ x.bvid = y.bvid ∧ x.rpid = y.rpid :=
    fun x hx => ⟨x, hx, rfl, rfl, rfl⟩
  intro x hx
  rcases fixIssue_cases store issue now fault with
    h | h | h | h | h | h | h | h | h | h | h | h | h | h | ⟨h, _⟩
  · rw [h] at hx; exact hsame x hx
  · rw [h] at hx; exact hsame x hx
  · rw [h] at hx; exact hsame x hx
  · rw [h] at hx; exact hsame x hx
  · rw [h] at hx; exact hsame x (List.mem_filter.mp hx).1
  · rw [h] at hx; exact hsame x (mem_keepFirstBy _ _ _ x hx)
  · rw [h] at hx
    obtain ⟨y, hy, rfl⟩ := List.mem_map.mp hx
    exact ⟨y, hy, by split_ifs <;> rfl, by split_ifs <;> rfl, by split_ifs <;> rfl⟩
  · rw [h] at hx
    obtain ⟨y, hy, rfl⟩ := List.mem_map.mp hx
    exact ⟨y, hy, by split_ifs <;> rfl, by split_ifs <;> rfl, by split_ifs <;> rfl⟩
  · rw [h] at hx; exact hsame x hx
  · rw [h] at hx; exact hsame x hx
  · rw [h] at hx; exact hsame x hx
  · rw [h] at hx; exact hsame x hx
  · rw [h] at hx
    unfold fixMissingStats at hx
    split_ifs at hx <;> exact hsame x hx
  · rw [h] at hx
    unfold fixAllCommentRelations at hx
    rw [foldl_rebuild_rows] at hx
    exact hsame x hx
  · exact absurd h ht

/-! ### The repair of `parent_not_exist` -/

theorem foldl_insertPlaceholder (now : Int) (infos : List (String × String)) :
    ∀ (rows : List CommentRow), ∃ extra : List CommentRow,
      infos.foldl (insertPlaceholder now) rows = rows ++ extra
      ∧ (∀ x ∈ extra, ∃ info ∈ infos, x = placeholderRow info.1 info.2 now
          ∧ info.1 ∉ rows.map CommentRow.unique_id)
      ∧ (∀ info ∈ infos, info.1 ∈ (rows ++ extra).map CommentRow.unique_id) := by
  induction infos with
  | nil => intro rows; exact ⟨[], by simp⟩
  | cons info rest ih =>
    intro rows
    rw [List.foldl_cons]
    by_cases hin : info.1 ∈ rows.map CommentRow.unique_id
    · obtain ⟨extra, h1, h2, h3⟩ := ih rows
      refine ⟨extra, ?_, ?_, ?_⟩
      · rw [insertPlaceholder, if_pos hin]; exact h1
      · intro x hx
        obtain ⟨i, hi, hxi, hni⟩ := h2 x hx
        exact ⟨i, List.mem_cons_of_mem _ hi, hxi, hni⟩
      · intro i hi
        rcases List.mem_cons.mp hi with rfl | hi
        · rw [List.map_append]
          exact List.mem_append_left _ hin
        · exact h3 i hi
    · obtain ⟨extra, h1, h2, h3⟩ := ih (rows ++ [placeholderRow info.1 info.2 now])
      refine ⟨placeholderRow info.1 info.2 now :: extra, ?_, ?_, ?_⟩
      · rw [insertPlaceholder, if_neg hin, h1]; simp
      · intro x hx
        rcases List.mem_cons.mp hx with rfl | hx
        · exact ⟨info, List.mem_cons_self _ _, rfl, hin⟩
        · obtain ⟨i, hi, hxi, hni⟩ := h2 x hx
          refine ⟨i, List.mem_cons_of_mem _ hi, hxi, ?_⟩
          intro hmem
          apply hni
          rw [List.map_append]
          exact List.mem_append_left _ hmem
      · intro i hi
        have key : ∀ s, s ∈ ((rows ++ [placeholderRow info.1 info.2 now]) ++ extra).map
            CommentRow.unique_id →
            s ∈ (rows ++ placeholderRow info.1 info.2 now :: extra).map
              CommentRow.unique_id := by
          intro s hs
          simpa using hs
        rcases List.mem_cons.mp hi with rfl | hi
        · apply key
          rw [List.map_append, List.map_append]
          exact List.mem_append_left _ (List.mem_append_right _ (by simp [placeholderRow]))
        · exact key _ (h3 i hi)

/-- C11 as stated fails: `storeMissingParent` satisfies the invariant, the repair of its
`parent_not_exist` issue succeeds, and the store afterwards does not satisfy it (the
placeholder has rpid 0 and the unique id `BV1xx411c7mD_999`). -/
theorem fixParentNotExist_breaks_invariant :
    StoreInv storeMissingParent
      ∧ (fixIssue storeMissingParent parentNotExistIssue 1700000100 false).2 = Outcome.ok
      ∧ ¬ StoreInv (fixIssue storeMissingParent parentNotExistIssue 1700000100 false).1 := by
  decide

/-- C11, amended: on a store that satisfies the invariant, `BatchSaveComments` keeps
`unique_id = bvid + "_" + rpid` for every stored comment, and keeps `rpid > 0` when the
comments it is given have a positive rpid; `importCommentsToDB` keeps the invariant; every
repair of `fixIssue` other than that of `parent_not_exist` keeps it; and that repair leaves
the stored comments in place and adds only placeholders with rpid 0 whose unique id is the
parent id of a stored comment. -/
theorem store_invariant_writes (store : Store) (hinv : StoreInv store) :
    (∀ l, UniqueIdInv (BatchSaveComments store l).1)
      ∧ (∀ l, (∀ c, some c ∈ l → 0 < c.Rpid) → StoreInv (BatchSaveComments store l).1)
      ∧ (∀ bvid comments, StoreInv (importCommentsToDB store bvid comments).1)
      ∧ (∀ issue now fault, issue.Type_ ≠ ErrorTypeParentNotExist →
          StoreInv (fixIssue store issue now fault).1)
      ∧ (∀ now, ∀ x ∈ (fixParentNotExist store now).bilibili_comments,
          x ∈ store.bilibili_comments
            ∨ (x.rpid = 0 ∧ ∃ c ∈ store.bilibili_comments,
                x.unique_id = c.parent ∧ x.bvid = c.bvid)) := by
  have hbatch : ∀ l, (∀ c, some c ∈ l → 0 < c.Rpid) →
      StoreInv (BatchSaveComments store l).1 := by
    intro l hl x hx
    rcases mem_BatchSaveComments store l x hx with h | ⟨c, hc, rfl⟩
    · exact hinv x h
    · exact ⟨hl c hc, rfl⟩
  refine ⟨?_, hbatch, ?_, ?_, ?_⟩
  · intro l x hx
    rcases mem_BatchSaveComments store l x hx with h | ⟨c, _, rfl⟩
    · exact (hinv x h).2
    · rfl
  · intro bvid comments x hx
    rcases importCommentsToDB_rows store bvid comments with h | h
    · rw [h] at hx; exact hinv x hx
    · rw [h] at hx
      refine hbatch _ ?_ x hx
      intro c hc
      obtain ⟨cm, _, hconv⟩ := List.mem_map.mp hc
      exact convertToDBComment_Rpid cm c hconv
  · intro issue now fault ht x hx
    obtain ⟨y, hy, h1, h2, h3⟩ := fixIssue_rows store issue now fault ht x hx
    rw [h1, h2, h3]
    exact hinv y hy
  · intro now x hx
    obtain ⟨extra, he, hex, _⟩ := foldl_insertPlaceholder now (missingParents store)
      store.bilibili_comments
    have hx2 : x ∈ store.bilibili_comments ++ extra := by
      rw [← he]; exact hx
    rcases List.mem_append.mp hx2 with h | h
    · exact Or.inl h
    · right
      obtain ⟨info, hinfo, rfl, _⟩ := hex x h
      obtain ⟨c, hc, hci⟩ := List.mem_map.mp (List.mem_dedup.mp hinfo)
      refine ⟨rfl, c, (List.mem_filter.mp hc).1, ?_, ?_⟩
      · rw [← hci]; rfl
      · rw [← hci]; rfl

/-- Witness of C11 (amended) at `storeThread`. -/
theorem store_invariant_writes_witness :
    StoreInv storeThread
      ∧ (∀ l, UniqueIdInv (BatchSaveComments storeThread l).1)
      ∧ (∀ l, (∀ c, some c ∈ l → 0 < c.Rpid) → StoreInv (BatchSaveComments storeThread l).1)
      ∧ (∀ bvid comments, StoreInv (importCommentsToDB storeThread bvid comments).1)
      ∧ (∀ issue now fault, issue.Type_ ≠ ErrorTypeParentNotExist →
          StoreInv (fixIssue storeThread issue now fault).1)
      ∧ (∀ now, ∀ x ∈ (fixParentNotExist storeThread now).bilibili_comments,
          x ∈ storeThread.bilibili_comments
            ∨ (x.rpid = 0 ∧ ∃ c ∈ storeThread.bilibili_comments,
                x.unique_id = c.parent ∧ x.bvid = c.bvid)) :=
  ⟨by decide, store_invariant_writes storeThread (by decide)⟩

/-! ### Checks after a repair -/

theorem issueIf_zero (type severity : String) (affected : List String) :
    issueIf type severity 0 affected = [] := by
  simp [issueIf]

theorem issueIf_length (type severity : String) (count : Nat) (affected : List String)
    (h : 0 < count) :
    issueIf type severity count affected
      = [{ Type_ := type, Severity := severity, Count := (count : Int), Fixable := true,
           Fixed := false, AffectedBVids := affected }] := by
  simp [issueIf, h]

theorem filter_length_zero {α : Type} (p : α → Bool) (l : List α)
    (h : ∀ x ∈ l, p x = false) : (l.filter p).length = 0 := by
  rw [List.length_eq_zero, List.filter_eq_nil_iff]
  intro x hx
  simp [h x hx]

theorem keepFirstBy_keys {α : Type} (key : α → String) :
    ∀ (l : List α) (seen : List String),
      ((keepFirstBy key l seen).map key).Nodup
        ∧ ∀ k ∈ (keepFirstBy key l seen).map key, k ∉ seen := by
  intro l
  induction l with
  | nil => intro seen; simp [keepFirstBy]
  | cons x xs ih =>
    intro seen
    by_cases hx : key x ∈ seen
    · rw [keepFirstBy, if_pos hx]; exact ih seen
    · rw [keepFirstBy, if_neg hx]
      obtain ⟨h1, h2⟩ := ih (key x :: seen)
      refine ⟨?_, ?_⟩
      · rw [List.map_cons, List.nodup_cons]
        refine ⟨?_, h1⟩
        intro hmem
        exact h2 _ hmem (List.mem_cons_self _ _)
      · intro k hk
        rw [List.map_cons] at hk
        rcases List.mem_cons.mp hk with rfl | hk
        · exact hx
        · intro hs
          exact h2 k hk (List.mem_cons_of_mem _ hs)

theorem duplicatedKeys_nodup (keys : List String) (h : keys.Nodup) :
    duplicatedKeys keys = [] := by
  unfold duplicatedKeys
  rw [List.filter_eq_nil_iff]
  intro k _
  have := List.nodup_iff_count_le_one.mp h k
  simp only [decide_eq_true_eq]
  omega

theorem validateParentNotExist_fix (store : Store) (now : Int) :
    validateParentNotExist (fixParentNotExist store now) = [] := by
  obtain ⟨extra, he, hex, hall⟩ := foldl_insertPlaceholder now (missingParents store)
    store.bilibili_comments
  have hrows : (fixParentNotExist store now).bilibili_comments
      = store.bilibili_comments ++ extra := he
  unfold validateParentNotExist
  have hz : (parentNotExistRows (fixParentNotExist store now)).length = 0 := by
    unfold parentNotExistRows
    apply filter_length_zero
    intro r hr
    rw [decide_eq_false_iff_not]
    rintro ⟨hp0, hpn⟩
    apply hpn
    unfold commentIds
    rw [hrows] at hr ⊢
    rcases List.mem_append.mp hr with h | h
    · by_cases hin : r.parent ∈ store.bilibili_comments.map CommentRow.unique_id
      · rw [List.map_append]; exact List.mem_append_left _ hin
      · have hmiss : (r.parent, r.bvid) ∈ missingParents store := by
          unfold missingParents
          rw [List.mem_dedup]
          refine List.mem_map.mpr ⟨r, ?_, rfl⟩
          unfold parentNotExistRows
          rw [List.mem_filter]
          exact ⟨h, by simpa [commentIds] using And.intro hp0 hin⟩
        exact hall _ hmiss
    · obtain ⟨info, _, rfl, _⟩ := hex r h
      exact absurd rfl hp0
  rw [hz]
  exact issueIf_zero _ _ _

theorem issueIf_eq_nil (type severity : String) (count : Nat) (affected : List String)
    (h : count = 0) : issueIf type severity count affected = [] := by
  subst h
  exact issueIf_zero _ _ _

theorem validateEmptyVideoTitles_fix (store : Store) :
    validateEmptyVideoTitles (fixEmptyVideoTitles store) = [] := by
  apply issueIf_eq_nil
  apply filter_length_zero
  intro v hv
  obtain ⟨w, _, rfl⟩ := List.mem_map.mp hv
  by_cases hw : w.title = ""
  · rw [if_pos hw]
    show decide ("未知标题" = "") = false
    decide
  · rw [if_neg hw]; simpa using hw

theorem validateDuplicateBVids_fix (store : Store) :
    validateDuplicateBVids (fixDuplicateBVids store) = [] := by
  apply issueIf_eq_nil
  rw [List.length_eq_zero]
  exact duplicatedKeys_nodup _ (keepFirstBy_keys VideoRow.bvid store.video_info []).1

theorem validateOrphanComments_fix (store : Store) :
    validateOrphanComments (fixOrphanComments store) = [] := by
  apply issueIf_eq_nil
  apply filter_length_zero
  intro r hr
  have h := (List.mem_filter.mp hr).2
  simpa using h

theorem validateDuplicateComments_fix (store : Store) :
    validateDuplicateComments (fixDuplicateComments store) = [] := by
  apply issueIf_eq_nil
  rw [List.length_eq_zero]
  exact duplicatedKeys_nodup _
    (keepFirstBy_keys CommentRow.unique_id store.bilibili_comments []).1

theorem validateEmptyCommentContent_fix (store : Store) :
    validateEmptyCommentContent (fixEmptyCommentContent store) = [] := by
  apply issueIf_eq_nil
  apply filter_length_zero
  intro r hr
  obtain ⟨w, _, rfl⟩ := List.mem_map.mp hr
  by_cases hw : w.content = ""
  · rw [if_pos hw]
    show decide ("[内容已删除]" = "") = false
    decide
  · rw [if_neg hw]; simpa using hw

theorem validateInvalidTimestamps_fix (store : Store) (now : Int) (hnow : 0 ≤ now) :
    validateInvalidTimestamps (fixInvalidTimestamps store now) now = [] := by
  apply issueIf_eq_nil
  apply filter_length_zero
  intro r hr
  obtain ⟨w, _, rfl⟩ := List.mem_map.mp hr
  rw [decide_eq_false_iff_not]
  by_cases hw : w.ctime < 0 ∨ w.ctime > now + 86400
  · rw [if_pos hw]
    show ¬ (now < 0 ∨ now > now + 86400)
    omega
  · rw [if_neg hw]; exact hw

theorem validateInvalidParentReferences_fix (store : Store) :
    validateInvalidParentReferences (fixInvalidParentReferences store) = [] := by
  apply issueIf_eq_nil
  apply filter_length_zero
  intro e he
  have h := (List.mem_filter.mp he).2
  simpa [commentIds] using h

theorem validateInvalidChildReferences_fix (store : Store) :
    validateInvalidChildReferences (fixInvalidChildReferences store) = [] := by
  apply issueIf_eq_nil
  apply filter_length_zero
  intro e he
  have h := (List.mem_filter.mp he).2
  simpa [commentIds] using h

theorem validateSelfReferences_fix (store : Store) :
    validateSelfReferences (fixSelfReferences store) = [] := by
  apply issueIf_eq_nil
  apply filter_length_zero
  intro e he
  have h := (List.mem_filter.mp he).2
  simpa using h

theorem validateMissingStats_fix (store : Store)
    (hok : (fixMissingStats store).2 = Outcome.ok) :
    validateMissingStats (fixMissingStats store).1 = [] := by
  unfold fixMissingStats at hok ⊢
  split_ifs at hok ⊢ with hnd
  apply issueIf_eq_nil
  apply filter_length_zero
  intro v hv
  rw [decide_eq_false_iff_not, not_not]
  show v.bvid ∈ (store.comment_stats ++ missingStatsRows store).map Prod.fst
  rw [List.map_append]
  by_cases hin : v.bvid ∈ store.comment_stats.map Prod.fst
  · exact List.mem_append_left _ hin
  · apply List.mem_append_right
    unfold missingStatsRows
    rw [List.map_map]
    refine List.mem_map.mpr ⟨v, ?_, rfl⟩
    unfold videosMissingStats
    rw [List.mem_filter]
    exact ⟨hv, by simpa using hin⟩

/-- C15 fails on `storeThread`, whose count row holds the 1 top-level comment that
`UpdateCommentStats` writes: the repair of `inconsistent_stats` replaces it by 2, the number
of all stored comments of the video, and so does the repair of `missing_stats` when the count
row is missing. In general both repairs write `commentCount`, the number of all comments of
the bvid. -/
theorem repair_counts_all_comments :
    (UpdateCommentStats storeThread "BV1xx411c7mD").comment_stats = [("BV1xx411c7mD", 1)]
      ∧ (fixInconsistentStats storeThread).comment_stats = [("BV1xx411c7mD", 2)]
      ∧ (fixMissingStats { storeThread with comment_stats := [] }).1.comment_stats
          = [("BV1xx411c7mD", 2)]
      ∧ (∀ store : Store, ∀ s ∈ (fixInconsistentStats store).comment_stats,
          s.2 = (commentCount store s.1 : Int))
      ∧ (∀ store : Store, ∀ s ∈ (fixMissingStats store).1.comment_stats,
          s ∈ store.comment_stats ∨ s.2 = (commentCount store s.1 : Int)) := by
  refine ⟨by decide, by decide, by decide, ?_, ?_⟩
  · intro store s hs
    obtain ⟨t, _, rfl⟩ := List.mem_map.mp hs
    rfl
  · intro store s hs
    unfold fixMissingStats at hs
    split_ifs at hs
    · rcases List.mem_append.mp hs with h | h
      · exact Or.inl h
      · obtain ⟨v, _, rfl⟩ := List.mem_map.mp h
        exact Or.inr rfl
    · exact Or.inl hs

/-- C16 as stated fails on `storeNoComments`: every repair of `RepairDatabase` succeeds (all
issues end with `Fixed = true`), the store is left as it was, and the validation that follows
reports the same two fixable issues, `video_missing_comments` and `inconsistent_stats`. -/
theorem repair_not_fixed_point :
    (∀ issue ∈ (RepairDatabase storeNoComments 1700000100 fun _ => false).2.Issues,
        issue.Fixed = true)
      ∧ (RepairDatabase storeNoComments 1700000100 fun _ => false).2.Issues.length = 2
      ∧ ((ValidateDatabase (RepairDatabase storeNoComments 1700000100 fun _ => false).1
            1700000100).Issues.filter fun issue => issue.Fixable).map Issue.Type_
          = [ErrorTypeVideoMissingComments, ErrorTypeInconsistentStats] := by
  decide

/-- C16, amended: each repair other than those of `video_missing_comments`,
`inconsistent_stats` and `missing_comment_relations`, when it succeeds, leaves a store on which
the check of its own issue type reports no issue, and `RepairDatabase` leaves a store unchanged
on which the validation reports no issue. -/
theorem repairs_clear_own_check (store : Store) (now : Int) (hnow : 0 ≤ now) :
    validateEmptyVideoTitles (fixEmptyVideoTitles store) = []
      ∧ validateDuplicateBVids (fixDuplicateBVids store) = []
      ∧ validateOrphanComments (fixOrphanComments store) = []
      ∧ validateDuplicateComments (fixDuplicateComments store) = []
      ∧ validateEmptyCommentContent (fixEmptyCommentContent store) = []
      ∧ validateInvalidTimestamps (fixInvalidTimestamps store now) now = []
      ∧ validateInvalidParentReferences (fixInvalidParentReferences store) = []
      ∧ validateInvalidChildReferences (fixInvalidChildReferences store) = []
      ∧ validateSelfReferences (fixSelfReferences store) = []
      ∧ validateParentNotExist (fixParentNotExist store now) = []
      ∧ ((fixMissingStats store).2 = Outcome.ok →
          validateMissingStats (fixMissingStats store).1 = [])
      ∧ (∀ faults, (ValidateDatabase store now).Issues = [] →
          (RepairDatabase store now faults).1 = store) := by
  refine ⟨validateEmptyVideoTitles_fix store, validateDuplicateBVids_fix store,
    validateOrphanComments_fix store, validateDuplicateComments_fix store,
    validateEmptyCommentContent_fix store, validateInvalidTimestamps_fix store now hnow,
    validateInvalidParentReferences_fix store, validateInvalidChildReferences_fix store,
    validateSelfReferences_fix store, validateParentNotExist_fix store now,
    validateMissingStats_fix store, ?_⟩
  intro faults h
  simp [RepairDatabase, fixAllIssues, h, fixAllIssuesFrom]

/-- Witness of C16 (amended) at `storeMissingParent`. -/
theorem repairs_clear_own_check_witness :
    (0 : Int) ≤ 1700000100
      ∧ validateEmptyVideoTitles (fixEmptyVideoTitles storeMissingParent) = []
      ∧ validateDuplicateBVids (fixDuplicateBVids storeMissingParent) = []
      ∧ validateOrphanComments (fixOrphanComments storeMissingParent) = []
      ∧ validateDuplicateComments (fixDuplicateComments storeMissingParent) = []
      ∧ validateEmptyCommentContent (fixEmptyCommentContent storeMissingParent) = []
      ∧ validateInvalidTimestamps (fixInvalidTimestamps storeMissingParent 1700000100)
          1700000100 = []
      ∧ validateInvalidParentReferences (fixInvalidParentReferences storeMissingParent) = []
      ∧ validateInvalidChildReferences (fixInvalidChildReferences storeMissingParent) = []
      ∧ validateSelfReferences (fixSelfReferences storeMissingParent) = []
      ∧ validateParentNotExist (fixParentNotExist storeMissingParent 1700000100) = []
      ∧ ((fixMissingStats storeMissingParent).2 = Outcome.ok →
          validateMissingStats (fixMissingStats storeMissingParent).1 = [])
      ∧ (∀ faults, (ValidateDatabase storeMissingParent 1700000100).Issues = [] →
          (RepairDatabase storeMissingParent 1700000100 faults).1 = storeMissingParent) :=
  ⟨by decide, repairs_clear_own_check storeMissingParent 1700000100 (by decide)⟩

/-- C17: `validateParentNotExist` reports nothing but one issue of type `parent_not_exist`
whose count is the number of stored comments with a parent other than "0" that is the unique
id of no stored comment, and it reports that issue when the number is positive.
`fixParentNotExist` leaves a store in which for each such comment a comment with the unique id
of the missing parent, the content "[该评论内容缺失]" and the parent "0" exists, the comments
stored before come first and unchanged, the other tables are as before, and
`validateParentNotExist` reports no issue. -/
theorem parent_not_exist_repair (store : Store) (now : Int) :
    (∀ issue ∈ validateParentNotExist store,
        issue.Type_ = "parent_not_exist"
          ∧ issue.Count = ((store.bilibili_comments.countP fun r =>
              decide (r.parent ≠ "0"
                ∧ ∀ c ∈ store.bilibili_comments, c.unique_id ≠ r.parent) : Nat) : Int))
      ∧ ((0 < store.bilibili_comments.countP fun r =>
              decide (r.parent ≠ "0"
                ∧ ∀ c ∈ store.bilibili_comments, c.unique_id ≠ r.parent)) →
          (validateParentNotExist store).length = 1)
      ∧ (∀ r ∈ store.bilibili_comments, r.parent ≠ "0" →
          (∀ c ∈ store.bilibili_comments, c.unique_id ≠ r.parent) →
          ∃ p ∈ (fixParentNotExist store now).bilibili_comments,
            p.unique_id = r.parent ∧ p.content = "[该评论内容缺失]" ∧ p.parent = "0")
      ∧ (∃ extra, (fixParentNotExist store now).bilibili_comments
          = store.bilibili_comments ++ extra)
      ∧ (fixParentNotExist store now).video_info = store.video_info
      ∧ (fixParentNotExist store now).comment_relations = store.comment_relations
      ∧ (fixParentNotExist store now).comment_stats = store.comment_stats
      ∧ validateParentNotExist (fixParentNotExist store now) = [] := by
  have hcount : (parentNotExistRows store).length
      = store.bilibili_comments.countP fun r =>
          decide (r.parent ≠ "0"
            ∧ ∀ c ∈ store.bilibili_comments, c.unique_id ≠ r.parent) := by
    unfold parentNotExistRows
    rw [List.countP_eq_length_filter]
    congr 1
    apply List.filter_congr
    intro r _
    simp [commentIds]
  obtain ⟨extra, he, hex, hall⟩ := foldl_insertPlaceholder now (missingParents store)
    store.bilibili_comments
  refine ⟨?_, ?_, ?_, ⟨extra, he⟩, rfl, rfl, rfl, validateParentNotExist_fix store now⟩
  · intro issue hi
    unfold validateParentNotExist issueIf at hi
    split_ifs at hi with hpos
    · rw [List.mem_singleton] at hi
      subst hi
      exact ⟨rfl, by rw [← hcount]⟩
    · simp at hi
  · intro hpos
    rw [← hcount] at hpos
    unfold validateParentNotExist
    rw [issueIf_length _ _ _ _ hpos]
    rfl
  · intro r hr hp0 hnone
    have hnot : r.parent ∉ store.bilibili_comments.map CommentRow.unique_id := by
      intro hmem
      obtain ⟨c, hc, hcu⟩ := List.mem_map.mp hmem
      exact hnone c hc hcu
    have hmiss : (r.parent, r.bvid) ∈ missingParents store := by
      unfold missingParents
      rw [List.mem_dedup]
      refine List.mem_map.mpr ⟨r, ?_, rfl⟩
      unfold parentNotExistRows
      rw [List.mem_filter]
      exact ⟨hr, by simpa [commentIds] using And.intro hp0 hnot⟩
    have hin := hall _ hmiss
    rw [List.map_append] at hin
    rcases List.mem_append.mp hin with h | h
    · exact absurd h hnot
    · obtain ⟨p, hp, hpu⟩ := List.mem_map.mp h
      obtain ⟨info, _, hpi, _⟩ := hex p hp
      refine ⟨p, ?_, hpu, ?_, ?_⟩
      · show p ∈ (missingParents store).foldl (insertPlaceholder now) store.bilibili_comments
        rw [he]
        exact List.mem_append_right _ hp
      · rw [hpi]; rfl
      · rw [hpi]; rfl

/-- Witness of C17 at `storeMissingParent` (scenario S5): the placeholder for
`BV1xx411c7mD_999` exists after the repair. -/
theorem parent_not_exist_repair_witness :
    storedComment 11 "BV1xx411c7mD_999" ∈ storeMissingParent.bilibili_comments
      ∧ (storedComment 11 "BV1xx411c7mD_999").parent ≠ "0"
      ∧ (∀ c ∈ storeMissingParent.bilibili_comments,
          c.unique_id ≠ (storedComment 11 "BV1xx411c7mD_999").parent)
      ∧ ∃ p ∈ (fixParentNotExist storeMissingParent 1700000100).bilibili_comments,
          p.unique_id = (storedComment 11 "BV1xx411c7mD_999").parent
            ∧ p.content = "[该评论内容缺失]" ∧ p.parent = "0" :=
  ⟨by decide, by decide, by decide,
    (parent_not_exist_repair storeMissingParent 1700000100).2.2.1
      (storedComment 11 "BV1xx411c7mD_999") (by decide) (by decide) (by decide)⟩

/-- C18 fails: `calculateSummary` sets the two totals only and nothing sets `IssuesFound` or
`IssuesUnfixable`, so both are 0 in every result of `ValidateDatabase`; on `storeNoComments`
the result lists 2 issues and has `IssuesFound = 0`. -/
theorem summary_counts_not_set :
    (ValidateDatabase storeNoComments 1700000100).Issues.length = 2
      ∧ (ValidateDatabase storeNoComments 1700000100).Summary.IssuesFound = 0
      ∧ (∀ store now, (ValidateDatabase store now).Summary.IssuesFound = 0
          ∧ (ValidateDatabase store now).Summary.IssuesUnfixable = 0)
      ∧ (∀ store now faults, (RepairDatabase store now faults).2.Summary.IssuesFound = 0) := by
  refine ⟨by decide, by decide, ?_, ?_⟩
  · intro store now; exact ⟨rfl, rfl⟩
  · intro store now faults; rfl

/-! ### `fixAllIssues` -/

theorem fixAllIssuesFrom_cons (now : Int) (faults : Nat → Bool) (i : Nat) (store : Store)
    (issue : Issue) (rest : List Issue) :
    fixAllIssuesFrom now faults i store (issue :: rest)
      = ((fixAllIssuesFrom now faults (i + 1)
            (if issue.Fixable = true ∧ issue.Fixed = false then
              (fixIssue store issue now (faults i)).1 else store) rest).1,
          (if issue.Fixable = true ∧ issue.Fixed = false
              ∧ (fixIssue store issue now (faults i)).2 = Outcome.ok then
            { issue with Fixed := true } else issue)
            :: (fixAllIssuesFrom now faults (i + 1)
              (if issue.Fixable = true ∧ issue.Fixed = false then
                (fixIssue store issue now (faults i)).1 else store) rest).2.1,
          (fixAllIssuesFrom now faults (i + 1)
              (if issue.Fixable = true ∧ issue.Fixed = false then
                (fixIssue store issue now (faults i)).1 else store) rest).2.2
            + (if issue.Fixable = true ∧ issue.Fixed = false
                ∧ (fixIssue store issue now (faults i)).2 = Outcome.ok then 1 else 0)) := by
  by_cases hc : issue.Fixable = true ∧ issue.Fixed = false
  · rw [fixAllIssuesFrom, if_pos hc, if_pos hc]
    rcases hfix : fixIssue store issue now (faults i) with ⟨s1, o⟩
    cases o <;> simp [hc]
  · rw [fixAllIssuesFrom, if_neg hc, if_neg hc]
    have h2 : ¬ (issue.Fixable = true ∧ issue.Fixed = false
        ∧ (fixIssue store issue now (faults i)).2 = Outcome.ok) :=
      fun h => hc ⟨h.1, h.2.1⟩
    simp only [if_neg h2, add_zero]

theorem fixAllIssuesFrom_length (now : Int) (faults : Nat → Bool) :
    ∀ (issues : List Issue) (i : Nat) (store : Store),
      (fixAllIssuesFrom now faults i store issues).2.1.length = issues.length := by
  intro issues
  induction issues with
  | nil => intro i store; rfl
  | cons issue rest ih =>
    intro i store
    rw [fixAllIssuesFrom_cons]
    simp [ih]

theorem fixAllIssuesFrom_get (now : Int) (faults : Nat → Bool) :
    ∀ (issues : List Issue) (i : Nat) (store : Store) (k : Nat) (issue : Issue),
      issues[k]? = some issue →
      (fixAllIssuesFrom now faults i store issues).2.1[k]?
        = some (if issue.Fixable = true ∧ issue.Fixed = false
            ∧ (fixIssue (fixAllIssuesFrom now faults i store (issues.take k)).1 issue now
                (faults (i + k))).2 = Outcome.ok then
          { issue with Fixed := true } else issue) := by
  intro issues
  induction issues with
  | nil => intro i store k issue h; simp at h
  | cons head rest ih =>
    intro i store k issue h
    rw [fixAllIssuesFrom_cons]
    cases k with
    | zero =>
      simp only [List.getElem?_cons_zero, Option.some.injEq] at h
      subst h
      simp [fixAllIssuesFrom]
    | succ k =>
      simp only [List.getElem?_cons_succ] at h
      simp only [List.getElem?_cons_succ, List.take_succ_cons]
      have hidx : i + 1 + k = i + (k + 1) := by omega
      have hst : (fixAllIssuesFrom now faults i store (head :: List.take k rest)).1
          = (fixAllIssuesFrom now faults (i + 1)
              (if head.Fixable = true ∧ head.Fixed = false then
                (fixIssue store head now (faults i)).1 else store) (List.take k rest)).1 := by
        rw [fixAllIssuesFrom_cons]
      rw [ih _ _ k issue h]
      simp only [hst, hidx]

theorem fixAllIssuesFrom_store (now : Int) (faults : Nat → Bool) :
    ∀ (issues : List Issue) (i : Nat) (store : Store) (k : Nat) (issue : Issue),
      issues[k]? = some issue →
      (fixAllIssuesFrom now faults i store (issues.take (k + 1))).1
        = if issue.Fixable = true ∧ issue.Fixed = false then
            (fixIssue (fixAllIssuesFrom now faults i store (issues.take k)).1 issue now
              (faults (i + k))).1
          else (fixAllIssuesFrom now faults i store (issues.take k)).1 := by
  intro issues
  induction issues with
  | nil => intro i store k issue h; simp at h
  | cons head rest ih =>
    intro i store k issue h
    cases k with
    | zero =>
      simp only [List.getElem?_cons_zero, Option.some.injEq] at h
      subst h
      rw [List.take_succ_cons, fixAllIssuesFrom_cons]
      simp [fixAllIssuesFrom]
    | succ k =>
      simp only [List.getElem?_cons_succ] at h
      simp only [List.take_succ_cons]
      rw [fixAllIssuesFrom_cons, fixAllIssuesFrom_cons]
      have hidx : i + 1 + k = i + (k + 1) := by omega
      rw [ih _ _ k issue h, hidx]

theorem fixAllIssuesFrom_count (now : Int) (faults : Nat → Bool) :
    ∀ (issues : List Issue) (i : Nat) (store : Store),
      (fixAllIssuesFrom now faults i store issues).2.2
        = (((issues.zip (fixAllIssuesFrom now faults i store issues).2.1).countP fun p =>
            decide (p.1.Fixed = false ∧ p.2.Fixed = true) : Nat) : Int) := by
  intro issues
  induction issues with
  | nil => intro i store; rfl
  | cons issue rest ih =>
    intro i store
    rw [fixAllIssuesFrom_cons]
    simp only [List.zip_cons_cons, List.countP_cons]
    rw [ih]
    by_cases hc : issue.Fixable = true ∧ issue.Fixed = false
        ∧ (fixIssue store issue now (faults i)).2 = Outcome.ok
    · simp [hc]
    · simp [hc]

/-- C19: `fixAllIssues` returns as many issues as it was given, in the same order. The issue
at index `k` ends as the given one with `Fixed = true` when the given one was fixable, not yet
fixed, and its repair, run on the store that the repairs before it left, returned no error;
otherwise it ends as it was given. Each such repair is applied once, to the store left by the
issues before it, also after a repair has failed. The returned count is the number of issues
whose `Fixed` flag went from false to true. -/
theorem fixAllIssues_marks (store : Store) (issues : List Issue) (now : Int)
    (faults : Nat → Bool) :
    (fixAllIssues store issues now faults).2.1.length = issues.length
      ∧ (∀ k issue, issues[k]? = some issue →
          (fixAllIssues store issues now faults).2.1[k]?
            = some (if issue.Fixable = true ∧ issue.Fixed = false
                ∧ (fixIssue (fixAllIssues store (issues.take k) now faults).1 issue now
                    (faults k)).2 = Outcome.ok then
              { issue with Fixed := true } else issue))
      ∧ (∀ k issue, issues[k]? = some issue →
          (fixAllIssues store (issues.take (k + 1)) now faults).1
            = if issue.Fixable = true ∧ issue.Fixed = false then
                (fixIssue (fixAllIssues store (issues.take k) now faults).1 issue now
                  (faults k)).1
              else (fixAllIssues store (issues.take k) now faults).1)
      ∧ (fixAllIssues store issues now faults).2.2
          = (((issues.zip (fixAllIssues store issues now faults).2.1).countP fun p =>
              decide (p.1.Fixed = false ∧ p.2.Fixed = true) : Nat) : Int) := by
  refine ⟨fixAllIssuesFrom_length now faults issues 0 store, ?_, ?_,
    fixAllIssuesFrom_count now faults issues 0 store⟩
  · intro k issue h
    have := fixAllIssuesFrom_get now faults issues 0 store k issue h
    rw [Nat.zero_add] at this
    exact this
  · intro k issue h
    have := fixAllIssuesFrom_store now faults issues 0 store k issue h
    rw [Nat.zero_add] at this
    exact this

/-- Witness of C19: the one issue of `storeMissingParent` is repaired and marked. -/
theorem fixAllIssues_marks_witness :
    [parentNotExistIssue][0]? = some parentNotExistIssue
      ∧ (fixAllIssues storeMissingParent [parentNotExistIssue] 1700000100
            fun _ => false).2.1[0]?
          = some (if parentNotExistIssue.Fixable = true ∧ parentNotExistIssue.Fixed = false
              ∧ (fixIssue (fixAllIssues storeMissingParent ([parentNotExistIssue].take 0)
                    1700000100 fun _ => false).1 parentNotExistIssue 1700000100
                  ((fun _ => false) 0)).2 = Outcome.ok then
            { parentNotExistIssue with Fixed := true } else parentNotExistIssue) :=
  ⟨rfl, (fixAllIssues_marks storeMissingParent [parentNotExistIssue] 1700000100
    fun _ => false).2.1 0 parentNotExistIssue rfl⟩

/-! ### `RetryWithBackoff` -/

theorem retryLoop_stop {ε : Type} (fn : Nat → Option ε) (isRetryable : ε → Bool) :
    ∀ (j k i : Nat) (err : Option ε) (sl : List Nat), j < k →
      (∀ m < j, ∃ e, fn (i + m) = some e ∧ isRetryable e = true) →
      (fn (i + j) = none ∨ ∃ e, fn (i + j) = some e ∧ isRetryable e = false) →
      ∃ r, retryLoop fn isRetryable false k i err sl = some r
        ∧ r.ret = fn (i + j) ∧ r.calls = i + j + 1 := by
  intro j
  induction j with
  | zero =>
    intro k i err sl hk _ hstop
    obtain ⟨k, rfl⟩ : ∃ k2, k = k2 + 1 := ⟨k - 1, by omega⟩
    simp only [Nat.add_zero] at hstop ⊢
    rcases hstop with h | ⟨e, h, hr⟩
    · refine ⟨{ ret := none, calls := i + 1, sleeps := sl }, ?_, by rw [h], rfl⟩
      rw [retryLoop, h]
    · refine ⟨{ ret := some e, calls := i + 1, sleeps := sl }, ?_, by rw [h], rfl⟩
      rw [retryLoop, h]
      simp only [hr, if_true]
  | succ j ih =>
    intro k i err sl hk hpre hstop
    obtain ⟨k, rfl⟩ : ∃ k2, k = k2 + 1 := ⟨k - 1, by omega⟩
    obtain ⟨e, he, hre⟩ := hpre 0 (by omega)
    rw [Nat.add_zero] at he
    have hstep : retryLoop fn isRetryable false (k + 1) i err sl
        = retryLoop fn isRetryable false k (i + 1) (some e) (sl ++ [i]) := by
      rw [retryLoop, he]
      simp [hre]
    have hidx : i + 1 + j = i + (j + 1) := by omega
    obtain ⟨r, h1, h2, h3⟩ := ih k (i + 1) (some e) (sl ++ [i]) (by omega)
      (by
        intro m hm
        have := hpre (m + 1) (by omega)
        have hi : i + 1 + m = i + (m + 1) := by omega
        rw [hi]; exact this)
      (by rw [hidx]; exact hstop)
    exact ⟨r, by rw [hstep]; exact h1, by rw [h2, hidx], by rw [h3, hidx]⟩

theorem retryLoop_exhaust {ε : Type} (fn : Nat → Option ε) (isRetryable : ε → Bool) :
    ∀ (k i : Nat) (err : Option ε) (sl : List Nat),
      (∀ m < k, ∃ e, fn (i + m) = some e ∧ isRetryable e = true) →
      ∃ r, retryLoop fn isRetryable false k i err sl = some r
        ∧ r.ret = (if k = 0 then err else fn (i + k - 1)) ∧ r.calls = i + k := by
  intro k
  induction k with
  | zero => intro i err sl _; exact ⟨_, rfl, rfl, rfl⟩
  | succ k ih =>
    intro i err sl hpre
    obtain ⟨e, he, hre⟩ := hpre 0 (by omega)
    rw [Nat.add_zero] at he
    have hstep : retryLoop fn isRetryable false (k + 1) i err sl
        = retryLoop fn isRetryable false k (i + 1) (some e) (sl ++ [i]) := by
      rw [retryLoop, he]
      simp [hre]
    obtain ⟨r, h1, h2, h3⟩ := ih (i + 1) (some e) (sl ++ [i])
      (by
        intro m hm
        have := hpre (m + 1) (by omega)
        have hi : i + 1 + m = i + (m + 1) := by omega
        rw [hi]; exact this)
    refine ⟨r, by rw [hstep]; exact h1, ?_, by rw [h3]; omega⟩
    rw [h2, if_neg (Nat.succ_ne_zero k)]
    by_cases hk : k = 0
    · subst hk
      simp [he]
    · rw [if_neg hk]
      have hi : i + 1 + k - 1 = i + (k + 1) - 1 := by omega
      rw [hi]

theorem retryLoop_calls {ε : Type} (fn : Nat → Option ε) (isRetryable : ε → Bool) :
    ∀ (k i : Nat) (err : Option ε) (sl : List Nat),
      ∃ r, retryLoop fn isRetryable false k i err sl = some r ∧ r.calls ≤ i + k := by
  intro k
  induction k with
  | zero => intro i err sl; exact ⟨_, rfl, Nat.le_refl _⟩
  | succ k ih =>
    intro i err sl
    rw [retryLoop]
    cases hf : fn i with
    | none => exact ⟨_, rfl, by show i + 1 ≤ i + (k + 1); omega⟩
    | some e =>
      by_cases hre : isRetryable e = false
      · refine ⟨{ ret := some e, calls := i + 1, sleeps := sl }, ?_, ?_⟩
        · simp only [hre, if_true]
        · show i + 1 ≤ i + (k + 1)
          omega
      · obtain ⟨r, h1, h2⟩ := ih (i + 1) (some e) (sl ++ [i])
        refine ⟨r, ?_, by omega⟩
        simp only [if_neg hre]
        exact h1

/-- C20 fails with the nil `logger` that `getWbiKeys` hands to `Retry`: after the first
retryable error `logger.Warnf` panics, so with three attempts and only retryable errors `fn`
is called once and nothing is returned, where a logger gives three calls and the last error;
the same happens with one attempt. In general, for `attempts ≥ 1` and a nil logger, a
retryable error of the first call of `fn` ends `RetryWithBackoff` in a panic. -/
theorem RetryWithBackoff_nil_logger :
    (RetryWithBackoff 3 (fun _ => some "timeout") (fun _ => true) true).isNone = true
      ∧ (RetryWithBackoff 1 (fun _ => some "timeout") (fun _ => true) true).isNone = true
      ∧ (RetryWithBackoff 3 (fun _ => some "timeout") (fun _ => true) false).map
          (fun r => (r.ret, r.calls)) = some (some "timeout", 3)
      ∧ (∀ (ε : Type) (n : Nat) (fn : Nat → Option ε) (isRetryable : ε → Bool) (e : ε),
          1 ≤ n → fn 0 = some e → isRetryable e = true →
          RetryWithBackoff (n : Int) fn isRetryable true = none) := by
  refine ⟨by decide, by decide, by decide, ?_⟩
  intro ε n fn isRetryable e hn hf hr
  obtain ⟨k, rfl⟩ : ∃ k, n = k + 1 := ⟨n - 1, by omega⟩
  unfold RetryWithBackoff
  rw [Int.toNat_ofNat, retryLoop, hf]
  simp [hr]

/-- With a `logger` that is not nil and `attempts = n ≥ 1`, `RetryWithBackoff` returns; it returns nil after `j + 1` calls when call `j < n` of `fn` is the first to return
nil after retryable errors only; it returns the error of call `j < n` after `j + 1` calls when
that error is the first that is not retryable; when all `n` calls return retryable errors it
calls `fn` exactly `n` times and returns the error of the last call; and it never calls `fn`
more than `n` times. -/
theorem RetryWithBackoff_spec {ε : Type} (n : Nat) (hn : 1 ≤ n) (fn : Nat → Option ε)
    (isRetryable : ε → Bool) :
    (∀ j < n, (∀ m < j, ∃ e, fn m = some e ∧ isRetryable e = true) → fn j = none →
        ∃ r, RetryWithBackoff (n : Int) fn isRetryable false = some r
          ∧ r.ret = none ∧ r.calls = j + 1)
      ∧ (∀ j < n, ∀ e, (∀ m < j, ∃ e2, fn m = some e2 ∧ isRetryable e2 = true) →
          fn j = some e → isRetryable e = false →
          ∃ r, RetryWithBackoff (n : Int) fn isRetryable false = some r
            ∧ r.ret = some e ∧ r.calls = j + 1)
      ∧ ((∀ m < n, ∃ e, fn m = some e ∧ isRetryable e = true) →
          ∃ r, RetryWithBackoff (n : Int) fn isRetryable false = some r
            ∧ r.ret = fn (n - 1) ∧ r.calls = n)
      ∧ (∃ r, RetryWithBackoff (n : Int) fn isRetryable false = some r ∧ r.calls ≤ n) := by
  unfold RetryWithBackoff
  rw [Int.toNat_ofNat]
  refine ⟨?_, ?_, ?_, ?_⟩
  · intro j hj hpre hnil
    obtain ⟨r, h1, h2, h3⟩ := retryLoop_stop fn isRetryable j n 0 none [] hj
      (by intro m hm; rw [Nat.zero_add]; exact hpre m hm)
      (by rw [Nat.zero_add]; exact Or.inl hnil)
    rw [Nat.zero_add] at h2 h3
    exact ⟨r, h1, by rw [h2, hnil], h3⟩
  · intro j hj e hpre he hre
    obtain ⟨r, h1, h2, h3⟩ := retryLoop_stop fn isRetryable j n 0 none [] hj
      (by intro m hm; rw [Nat.zero_add]; exact hpre m hm)
      (by rw [Nat.zero_add]; exact Or.inr ⟨e, he, hre⟩)
    rw [Nat.zero_add] at h2 h3
    exact ⟨r, h1, by rw [h2, he], h3⟩
  · intro hpre
    obtain ⟨r, h1, h2, h3⟩ := retryLoop_exhaust fn isRetryable n 0 none []
      (by intro m hm; rw [Nat.zero_add]; exact hpre m hm)
    rw [Nat.zero_add] at h3
    rw [if_neg (by omega), Nat.zero_add] at h2
    exact ⟨r, h1, h2, h3⟩
  · obtain ⟨r, h1, h2⟩ := retryLoop_calls fn isRetryable n 0 none []
    rw [Nat.zero_add] at h2
    exact ⟨r, h1, h2⟩

/-- An instance of `RetryWithBackoff_spec`: three attempts, the first two calls fail with a
retryable error and the third returns nil. -/
theorem RetryWithBackoff_spec_witness :
    1 ≤ 3
      ∧ (∀ j < 3, (∀ m < j, ∃ e, (fun i => if i < 2 then some "timeout" else none) m = some e
            ∧ (fun _ => true) e = true) →
          (fun i => if i < 2 then some "timeout" else none) j = none →
          ∃ r, RetryWithBackoff ((3 : Nat) : Int)
              (fun i => if i < 2 then some "timeout" else none) (fun _ => true) false = some r
            ∧ r.ret = none ∧ r.calls = j + 1)
      ∧ (∀ j < 3, ∀ e, (∀ m < j, ∃ e2,
            (fun i => if i < 2 then some "timeout" else none) m = some e2
              ∧ (fun _ => true) e2 = true) →
          (fun i => if i < 2 then some "timeout" else none) j = some e →
          (fun _ => true) e = false →
          ∃ r, RetryWithBackoff ((3 : Nat) : Int)
              (fun i => if i < 2 then some "timeout" else none) (fun _ => true) false = some r
            ∧ r.ret = some e ∧ r.calls = j + 1)
      ∧ ((∀ m < 3, ∃ e, (fun i => if i < 2 then some "timeout" else none) m = some e
            ∧ (fun _ => true) e = true) →
          ∃ r, RetryWithBackoff ((3 : Nat) : Int)
              (fun i => if i < 2 then some "timeout" else none) (fun _ => true) false = some r
            ∧ r.ret = (fun i => if i < 2 then some "timeout" else none) (3 - 1) ∧ r.calls = 3)
      ∧ (∃ r, RetryWithBackoff ((3 : Nat) : Int)
            (fun i => if i < 2 then some "timeout" else none) (fun _ => true) false = some r
          ∧ r.calls ≤ 3) :=
  ⟨by decide,
    RetryWithBackoff_spec 3 (by decide) (fun i => if i < 2 then some "timeout" else none)
      (fun _ => true)⟩

/-! ### The delays of the retry helper and of the harvester -/

theorem wrap64_of_int_range (x : Int) (h0 : -9223372036854775808 ≤ x)
    (h1 : x < 9223372036854775808) : wrap64 x = x := by
  unfold wrap64 toI64 toU64
  omega

theorem two_pow_le_of_le_33 (i : Nat) (hi : i ≤ 33) :
    (1 : Int) ≤ 2 ^ i ∧ (2 : Int) ^ i ≤ 8589934592 := by
  constructor
  · exact one_le_pow₀ (by norm_num)
  · have h : (2 : Int) ^ i ≤ 2 ^ 33 := pow_le_pow_right₀ (by norm_num) hi
    norm_num at h
    exact h

/-- C21 as stated fails: with `delay_jitter_ms = 100`, after the first failed attempt and with
`maxDelay` of 60 s, the draws 999 and 0 give a delay of 1.999 s, which is not below
`min(2^0 s, maxDelay) + 100 ms`; and without a configuration the second draw is below 800. -/
theorem retrySleepDelay_two_draws :
    retrySleepDelay (some 100) 0 (2 * Second) (60 * Second) 999 0 = some 1999000000
      ∧ ¬ (1999000000 < min ((2 : Int) ^ 0 * Second) (60 * Second) + 100 * Millisecond)
      ∧ retrySleepDelay none 0 (2 * Second) (60 * Second) 0 799 = some 1799000000 := by
  decide

/-- C21, amended: for a failed attempt `i ≤ 33`, a `maxDelay` between 0 and 4 * 10^18 ns and a
configured jitter of at most 10^12 ms, the delay is `min(2^i s, maxDelay)` plus two draws: one
below 1000 ms, made by `RetryDelay`, and one below `jitterMs` ms, where `jitterMs` is the
configured `delay_jitter_ms` when that is positive and 800 otherwise; so the delay is below
`min(2^i s, maxDelay) + 1000 ms + jitterMs ms`. -/
theorem retrySleepDelay_spec (cfg : Option Int) (i : Nat) (baseDelay maxDelay : Int)
    (r1 r2 : Nat) (hi : i ≤ 33) (hmax : 0 ≤ maxDelay ∧ maxDelay ≤ 4000000000000000000)
    (hcfg : ∀ j, cfg = some j → j ≤ 1000000000000) :
    (∀ j, cfg = some j → 0 < j → retryJitterMs cfg = j)
      ∧ (∀ j, cfg = some j → j ≤ 0 → retryJitterMs cfg = 800)
      ∧ (cfg = none → retryJitterMs cfg = 800)
      ∧ retrySleepDelay cfg i baseDelay maxDelay r1 r2
          = some (min ((2 : Int) ^ i * Second) maxDelay
              + ((r1 % 1000 : Nat) : Int) * Millisecond
              + ((r2 % (retryJitterMs cfg).toNat : Nat) : Int) * Millisecond)
      ∧ ((r1 % 1000 : Nat) : Int) < 1000
      ∧ ((r2 % (retryJitterMs cfg).toNat : Nat) : Int) < retryJitterMs cfg
      ∧ (∀ d, retrySleepDelay cfg i baseDelay maxDelay r1 r2 = some d →
          d < min ((2 : Int) ^ i * Second) maxDelay + 1000 * Millisecond
            + retryJitterMs cfg * Millisecond) := by
  have hjpos : 0 < retryJitterMs cfg ∧ retryJitterMs cfg ≤ 1000000000000 := by
    unfold retryJitterMs
    cases cfg with
    | none => simp
    | some j =>
      have := hcfg j rfl
      simp only
      split_ifs with hj
      · exact ⟨hj, this⟩
      · simp
  obtain ⟨hp1, hp2⟩ := two_pow_le_of_le_33 i hi
  have hr1 : ((r1 % 1000 : Nat) : Int) < 1000 := by
    have := Nat.mod_lt r1 (show 0 < 1000 by norm_num)
    omega
  have hr2 : ((r2 % (retryJitterMs cfg).toNat : Nat) : Int) < retryJitterMs cfg := by
    have := Nat.mod_lt r2 (show 0 < (retryJitterMs cfg).toNat by omega)
    omega
  have hr10 : (0 : Int) ≤ ((r1 % 1000 : Nat) : Int) := Int.natCast_nonneg _
  have hr20 : (0 : Int) ≤ ((r2 % (retryJitterMs cfg).toNat : Nat) : Int) :=
    Int.natCast_nonneg _
  have hdelay : retrySleepDelay cfg i baseDelay maxDelay r1 r2
      = some (min ((2 : Int) ^ i * Second) maxDelay
          + ((r1 % 1000 : Nat) : Int) * Millisecond
          + ((r2 % (retryJitterMs cfg).toNat : Nat) : Int) * Millisecond) := by
    unfold retrySleepDelay RetryDelay
    rw [if_pos (by omega)]
    simp only [Second, Millisecond] at *
    generalize (2 : Int) ^ i = p at hp1 hp2 ⊢
    generalize ((r1 % 1000 : Nat) : Int) = j1 at hr1 hr10 ⊢
    generalize ((r2 % (retryJitterMs cfg).toNat : Nat) : Int) = j2 at hr2 hr20 ⊢
    rw [wrap64_of_range (p * 1000000000) (by omega) (by omega),
      wrap64_of_range (j1 * 1000000) (by omega) (by omega),
      wrap64_of_range (j2 * 1000000) (by omega) (by omega)]
    have hmin : (if p * 1000000000 > maxDelay then maxDelay else p * 1000000000)
        = min (p * 1000000000) maxDelay := by
      split_ifs with h
      · exact (min_eq_right (le_of_lt h)).symm
      · exact (min_eq_left (not_lt.mp h)).symm
    rw [hmin]
    have hm0 : 0 ≤ min (p * 1000000000) maxDelay := le_min (by omega) hmax.1
    have hm1 : min (p * 1000000000) maxDelay ≤ 4000000000000000000 :=
      le_trans (min_le_right _ _) hmax.2
    generalize min (p * 1000000000) maxDelay = m at hm0 hm1 ⊢
    rw [wrap64_of_range (m + j1 * 1000000) (by omega) (by omega),
      wrap64_of_range (m + j1 * 1000000 + j2 * 1000000) (by omega) (by omega)]
  refine ⟨?_, ?_, ?_, hdelay, hr1, hr2, ?_⟩
  · intro j hj hpos
    subst hj
    simp [retryJitterMs, hpos]
  · intro j hj hneg
    subst hj
    simp [retryJitterMs, not_lt.mpr hneg]
  · intro h
    subst h
    rfl
  · intro d hd
    rw [hdelay] at hd
    have hd2 := Option.some.inj hd
    subst hd2
    simp only [Millisecond] at *
    omega

/-- Witness of C21 (amended): the delay after the second failed attempt with the configured
jitter 2000. -/
theorem retrySleepDelay_spec_witness :
    1 ≤ 33 ∧ ((0 : Int) ≤ 60 * Second ∧ 60 * Second ≤ 4000000000000000000)
      ∧ (∀ j : Int, some (2000 : Int) = some j → j ≤ 1000000000000)
      ∧ (∀ j, some (2000 : Int) = some j → 0 < j → retryJitterMs (some 2000) = j)
      ∧ (∀ j, some (2000 : Int) = some j → j ≤ 0 → retryJitterMs (some 2000) = 800)
      ∧ (some (2000 : Int) = none → retryJitterMs (some 2000) = 800)
      ∧ retrySleepDelay (some 2000) 1 (2 * Second) (60 * Second) 1234 5678
          = some (min ((2 : Int) ^ 1 * Second) (60 * Second)
              + ((1234 % 1000 : Nat) : Int) * Millisecond
              + ((5678 % (retryJitterMs (some 2000)).toNat : Nat) : Int) * Millisecond)
      ∧ ((1234 % 1000 : Nat) : Int) < 1000
      ∧ ((5678 % (retryJitterMs (some 2000)).toNat : Nat) : Int) < retryJitterMs (some 2000)
      ∧ (∀ d, retrySleepDelay (some 2000) 1 (2 * Second) (60 * Second) 1234 5678 = some d →
          d < min ((2 : Int) ^ 1 * Second) (60 * Second) + 1000 * Millisecond
            + retryJitterMs (some 2000) * Millisecond) :=
  ⟨by decide, by decide, by intro j h; cases h; decide,
    retrySleepDelay_spec (some 2000) 1 (2 * Second) (60 * Second) 1234 5678 (by decide)
      (by decide) (by intro j h; cases h; decide)⟩

/-- C28: the delay of the page goroutine, of `FindSubComment` and of `FindUser` is defined
exactly when `opt.DelayJitterMs > 0`; then, for a base delay of at most 4 * 10^12 ms in
absolute value and a jitter of at most 4 * 10^12 ms, it is a whole number `ms` of
milliseconds with `DelayBaseMs ≤ ms < DelayBaseMs + DelayJitterMs`. The options that the
commands `video` and `up` build have `DelayJitterMs = 0`, so their delay is not defined. -/
theorem pageDelay_spec (opt : model.Option) (r : Nat) :
    ((pageDelay opt r).isSome = true ↔ 0 < opt.DelayJitterMs)
      ∧ (-4000000000000 ≤ opt.DelayBaseMs → opt.DelayBaseMs ≤ 4000000000000 →
          opt.DelayJitterMs ≤ 4000000000000 →
          ∀ d, pageDelay opt r = some d →
            ∃ ms : Int, d = ms * Millisecond ∧ opt.DelayBaseMs ≤ ms
              ∧ ms < opt.DelayBaseMs + opt.DelayJitterMs)
      ∧ (∀ maxTryCount, (videoCmdOption maxTryCount).DelayJitterMs = 0
          ∧ pageDelay (videoCmdOption maxTryCount) r = none)
      ∧ (∀ pages skip maxTryCount, (upCmdOption pages skip maxTryCount).DelayJitterMs = 0
          ∧ pageDelay (upCmdOption pages skip maxTryCount) r = none) := by
  refine ⟨?_, ?_, fun _ => ⟨rfl, rfl⟩, fun _ _ _ => ⟨rfl, rfl⟩⟩
  · unfold pageDelay
    split_ifs with h
    · simp only [Option.isSome_none, Bool.false_eq_true, false_iff, not_lt]
      exact h
    · simp only [Option.isSome_some, true_iff]
      omega
  · intro hb0 hb1 hj d hd
    unfold pageDelay at hd
    split_ifs at hd with h
    have hpos : 0 < opt.DelayJitterMs := by omega
    have hr : ((r % opt.DelayJitterMs.toNat : Nat) : Int) < opt.DelayJitterMs := by
      have := Nat.mod_lt r (show 0 < opt.DelayJitterMs.toNat by omega)
      omega
    have hr0 : (0 : Int) ≤ ((r % opt.DelayJitterMs.toNat : Nat) : Int) := Int.natCast_nonneg _
    refine ⟨opt.DelayBaseMs + ((r % opt.DelayJitterMs.toNat : Nat) : Int), ?_, by omega,
      by omega⟩
    have hd2 := Option.some.inj hd
    rw [← hd2]
    simp only [Millisecond] at *
    generalize ((r % opt.DelayJitterMs.toNat : Nat) : Int) = j at hr hr0 ⊢
    rw [wrap64_of_int_range (opt.DelayBaseMs * 1000000) (by omega) (by omega),
      wrap64_of_range (j * 1000000) (by omega) (by omega),
      wrap64_of_int_range (opt.DelayBaseMs * 1000000 + j * 1000000) (by omega) (by omega)]
    ring

/-- Witness of C28: with the defaults 3000 and 2000 and the draw 12345 the delay is
3345 ms. -/
theorem pageDelay_spec_witness :
    (0 : Int) < defaultOption.DelayJitterMs
      ∧ pageDelay defaultOption 12345 = some 3345000000
      ∧ ∃ ms : Int, (3345000000 : Int) = ms * Millisecond ∧ defaultOption.DelayBaseMs ≤ ms
          ∧ ms < defaultOption.DelayBaseMs + defaultOption.DelayJitterMs :=
  ⟨by decide, by decide,
    (pageDelay_spec defaultOption 12345).2.1 (by decide) (by decide) (by decide) 3345000000
      (by decide)⟩

/-- C29: with `attempts ≤ 0` the loop of `RetryWithBackoff` does not run: `fn` is not called
and nil is returned, whatever `fn`, `isRetryable` and the logger are; so for `Retry`. -/
theorem RetryWithBackoff_nonpositive {ε : Type} (attempts : Int) (h : attempts ≤ 0)
    (fn : Nat → Option ε) (isRetryable : ε → Bool) (loggerNil : Bool) :
    (∃ r, RetryWithBackoff attempts fn isRetryable loggerNil = some r
        ∧ r.ret = none ∧ r.calls = 0 ∧ r.sleeps = [])
      ∧ (∃ r, Retry attempts fn isRetryable loggerNil = some r
        ∧ r.ret = none ∧ r.calls = 0 ∧ r.sleeps = []) := by
  have h0 : attempts.toNat = 0 := by omega
  unfold Retry RetryWithBackoff
  rw [h0]
  exact ⟨⟨_, rfl, rfl, rfl, rfl⟩, ⟨_, rfl, rfl, rfl, rfl⟩⟩

/-- Witness of C29: `attempts = -1` with an `fn` that would fail. -/
theorem RetryWithBackoff_nonpositive_witness :
    (-1 : Int) ≤ 0
      ∧ (∃ r, RetryWithBackoff (-1) (fun _ => some RetryErr.reqErr) isRetryable true = some r
        ∧ r.ret = none ∧ r.calls = 0 ∧ r.sleeps = [])
      ∧ (∃ r, Retry (-1) (fun _ => some RetryErr.reqErr) isRetryable true = some r
        ∧ r.ret = none ∧ r.calls = 0 ∧ r.sleeps = []) :=
  ⟨by decide, RetryWithBackoff_nonpositive (-1) (by decide) (fun _ => some RetryErr.reqErr)
    isRetryable true⟩

/-- C22 fails for `FetchVideoList` and `getWbiKeys`: their closures wrap a response with
status ≥ 500 in a `PermanentError`, which `isRetryable` refuses, so `Retry` gives up after
one call; the closures of `FetchComment` and `FetchSubComment` return a plain error, which is
retried. A status from 400 to 499 is permanent in all four. -/
theorem retry_classification :
    FetchVideoListAttempt (HttpAttempt.status 503) = some (RetryErr.permanent 503)
      ∧ isRetryable (RetryErr.permanent 503) = false
      ∧ (Retry MaxRetries (fun _ => FetchVideoListAttempt (HttpAttempt.status 503))
          isRetryable false).map (fun r => (r.ret, r.calls))
          = some (some (RetryErr.permanent 503), 1)
      ∧ (Retry MaxRetries (fun _ => getWbiKeysAttempt (HttpAttempt.status 503))
          isRetryable false).map (fun r => (r.ret, r.calls))
          = some (some (RetryErr.permanent 503), 1)
      ∧ (Retry MaxRetries (fun _ => FetchCommentAttempt (HttpAttempt.status 503))
          isRetryable false).map (fun r => (r.ret, r.calls))
          = some (some (RetryErr.plain 503), 3)
      ∧ (∀ code, 500 ≤ code →
          FetchVideoListAttempt (HttpAttempt.status code) = some (RetryErr.permanent code)
            ∧ getWbiKeysAttempt (HttpAttempt.status code) = some (RetryErr.permanent code)
            ∧ FetchCommentAttempt (HttpAttempt.status code) = some (RetryErr.plain code)
            ∧ FetchSubCommentAttempt (HttpAttempt.status code) = some (RetryErr.plain code)
            ∧ isRetryable (RetryErr.plain code) = true
            ∧ isRetryable (RetryErr.permanent code) = false)
      ∧ (∀ code, 400 ≤ code → code < 500 →
          FetchVideoListAttempt (HttpAttempt.status code) = some (RetryErr.permanent code)
            ∧ getWbiKeysAttempt (HttpAttempt.status code) = some (RetryErr.permanent code)
            ∧ FetchCommentAttempt (HttpAttempt.status code) = some (RetryErr.permanent code)
            ∧ FetchSubCommentAttempt (HttpAttempt.status code)
                = some (RetryErr.permanent code)) := by
  refine ⟨by decide, by decide, by decide, by decide, by decide, ?_, ?_⟩
  · intro code h
    simp [FetchVideoListAttempt, getWbiKeysAttempt, FetchCommentAttempt,
      FetchSubCommentAttempt, isRetryable, h]
  · intro code h1 h2
    have h3 : ¬ code ≥ 500 := by omega
    simp [FetchVideoListAttempt, getWbiKeysAttempt, FetchCommentAttempt,
      FetchSubCommentAttempt, h1, h3]

/-! ### `FindUser` and `FindSubComment` -/

theorem findUserLoop_all (fetch : Int → Option VideoListResponse) (opt : model.Option)
    (hj : 0 < opt.DelayJitterMs)
    (hall : ∀ r, ∃ info, fetch r = some info ∧ info.Code = 0 ∧ info.Vlist.length ≠ 0) :
    ∀ (n : Nat) (round : Int) (acc : UserPages),
      findUserLoop fetch opt n round acc
        = some { requested := acc.requested
                   ++ (List.range n).map fun i : Nat => round + (i : Int)
                 videoCollection := acc.videoCollection
                   ++ ((List.range n).map fun i : Nat => round + (i : Int)).flatMap fun r =>
                      ((fetch r).map VideoListResponse.Vlist).getD [] } := by
  intro n
  induction n with
  | zero => intro round acc; simp [findUserLoop]
  | succ n ih =>
    intro round acc
    obtain ⟨info, hf, hc, hv⟩ := hall round
    rw [findUserLoop, if_neg (by omega), hf]
    simp only [hc, ne_eq, not_true_eq_false, if_false, hv, not_false_eq_true, if_true]
    rw [ih, List.range_succ_eq_map]
    simp only [List.map_cons, List.map_map, List.flatMap_cons, Nat.cast_zero, add_zero, hf,
      Option.map_some', Option.getD_some, List.append_assoc, List.singleton_append]
    have hfun : ((fun i : Nat => round + (i : Int)) ∘ Nat.succ)
        = fun i : Nat => round + 1 + (i : Int) := by
      funext i
      simp only [Function.comp, Nat.succ_eq_add_one, Nat.cast_add, Nat.cast_one]
      ring
    rw [hfun]

/-- C25 fails: the loop of `FindUser` runs while `round < Pages + Skip`, so with `Pages = 3`
and `Skip = 0` it requests the two pages 1 and 2, with `Pages = 1` none, and in general, when
every page succeeds and is not empty, the `Pages - 1` pages `Skip + 1, ..., Skip + Pages - 1`,
whose videos it collects in this order. -/
theorem FindUser_pages :
    FindUser fetchEveryPage { defaultOption with Pages := 3, Skip := 0 }
        = some { requested := [1, 2], videoCollection := [100, 200] }
      ∧ FindUser fetchEveryPage { defaultOption with Pages := 1, Skip := 0 }
        = some { requested := [], videoCollection := [] }
      ∧ (∀ (fetch : Int → Option VideoListResponse) (opt : model.Option),
          0 < opt.DelayJitterMs → 1 ≤ opt.Pages →
          (∀ r, ∃ info, fetch r = some info ∧ info.Code = 0 ∧ info.Vlist.length ≠ 0) →
          ∃ u, FindUser fetch opt = some u
            ∧ u.requested = (List.range (opt.Pages - 1).toNat).map
                (fun i : Nat => opt.Skip + 1 + (i : Int))
            ∧ u.requested.length + 1 = opt.Pages
            ∧ u.videoCollection = u.requested.flatMap
                (fun r => ((fetch r).map VideoListResponse.Vlist).getD [])) := by
  refine ⟨by decide, by decide, ?_⟩
  intro fetch opt hj hp hall
  have hn : (opt.Pages + opt.Skip - (opt.Skip + 1)).toNat = (opt.Pages - 1).toNat := by
    congr 1
    ring
  have hrun : FindUser fetch opt
      = some { requested := (List.range (opt.Pages - 1).toNat).map
                 fun i : Nat => opt.Skip + 1 + (i : Int)
               videoCollection := ((List.range (opt.Pages - 1).toNat).map
                 fun i : Nat => opt.Skip + 1 + (i : Int)).flatMap fun r =>
                   ((fetch r).map VideoListResponse.Vlist).getD [] } := by
    unfold FindUser
    rw [hn, findUserLoop_all fetch opt hj hall]
    simp
  refine ⟨_, hrun, rfl, ?_, rfl⟩
  simp only [List.length_map, List.length_range]
  omega

theorem findSubLoop_run (fetch : Int → Option CommentResponse) (opt : model.Option)
    (hj : 0 < opt.DelayJitterMs) (m K : Nat) (hK : opt.MaxTryCount = (K : Int))
    (hempty : ∀ i, 1 ≤ i → i ≤ K → subPageEmpty fetch ((m + i : Nat) : Int) = true) :
    ∀ (fuel j : Nat) (c : Int) (acc : SubHarvest), 0 ≤ c → c ≤ j →
      (j ≤ m ∨ (j : Int) - m ≤ c) →
      (∀ i : Nat, (j : Int) - c < i → i ≤ j → subPageEmpty fetch (i : Int) = true) →
      j ≤ m + K → m + K + 1 ≤ fuel + j →
      ∃ n res, j ≤ n ∧ n ≤ m + K ∧ K ≤ n
        ∧ (∀ i : Nat, (n : Int) - K < i → i ≤ n → subPageEmpty fetch (i : Int) = true)
        ∧ findSubLoop fetch opt fuel ((j : Int) + 1) c acc = some res
        ∧ res.requested
            = acc.requested ++ (List.range' (j + 1) (n - j)).map (fun i : Nat => (i : Int))
        ∧ res.replyCollection
            = acc.replyCollection
              ++ ((List.range' (j + 1) (n - j)).map (fun i : Nat => (i : Int))).flatMap
                  (subPageOf fetch) := by
  intro fuel
  induction fuel with
  | zero =>
    intro j c acc _ _ _ _ h3 h4
    omega
  | succ fuel ih =>
    intro j c acc hc hcj hinv hlast hjle hfuel
    rw [findSubLoop]
    by_cases hstop : c ≥ opt.MaxTryCount
    · rw [if_pos hstop]
      refine ⟨j, acc, le_refl _, hjle, by omega, ?_, rfl, by simp, by simp⟩
      intro i hi1 hi2
      exact hlast i (by omega) hi2
    · rw [if_neg hstop, if_neg (by omega)]
      have hcK : c < (K : Int) := by omega
      have hjlt : j < m + K := by omega
      have hcast : ((j : Int) + 1 + 1) = (((j + 1 : Nat) : Int) + 1) := by push_cast; ring
      have hround : ((j : Int) + 1) = ((j + 1 : Nat) : Int) := by push_cast; ring
      have hlate : m ≤ j → subPageEmpty fetch ((j : Int) + 1) = true := by
        intro hmj
        have := hempty (j + 1 - m) (by omega) (by omega)
        have hidx : m + (j + 1 - m) = j + 1 := by omega
        rw [hidx] at this
        rw [hround]
        exact this
      have hcombine : ∀ (c1 : Int) (acc1 : SubHarvest), 0 ≤ c1 → c1 ≤ c + 1 →
          (j + 1 ≤ m ∨ ((j + 1 : Nat) : Int) - m ≤ c1) →
          (c1 = 0 ∨ subPageEmpty fetch ((j : Int) + 1) = true) →
          acc1.requested = acc.requested ++ [(j : Int) + 1] →
          acc1.replyCollection = acc.replyCollection ++ subPageOf fetch ((j : Int) + 1) →
          ∃ n res, j ≤ n ∧ n ≤ m + K ∧ K ≤ n
            ∧ (∀ i : Nat, (n : Int) - K < i → i ≤ n → subPageEmpty fetch (i : Int) = true)
            ∧ findSubLoop fetch opt fuel ((j : Int) + 1 + 1) c1 acc1 = some res
            ∧ res.requested
                = acc.requested
                  ++ (List.range' (j + 1) (n - j)).map (fun i : Nat => (i : Int))
            ∧ res.replyCollection
                = acc.replyCollection
                  ++ ((List.range' (j + 1) (n - j)).map (fun i : Nat => (i : Int))).flatMap
                      (subPageOf fetch) := by
        intro c1 acc1 hc1 hc1le hinv1 hpage hreq hcol
        obtain ⟨n, res, hn1, hn2, hn3, hn4, hrun, hr, hcl⟩ :=
          ih (j + 1) c1 acc1 hc1 (by push_cast; omega) hinv1
            (by
              intro i hi1 hi2
              by_cases hij : i ≤ j
              · exact hlast i (by push_cast at hi1; omega) hij
              · have hieq : i = j + 1 := by omega
                subst hieq
                rcases hpage with h0 | hp
                · push_cast at hi1
                  omega
                · rw [← hround]
                  exact hp)
            (by omega) (by omega)
        have hsplit : n - j = (n - (j + 1)) + 1 := by omega
        refine ⟨n, res, by omega, hn2, hn3, hn4, ?_, ?_, ?_⟩
        · rw [hcast]; exact hrun
        · rw [hr, hreq, hsplit, List.range'_succ, List.map_cons, hround]
          simp
        · rw [hcl, hcol, hsplit, List.range'_succ, List.map_cons, List.flatMap_cons, hround]
          simp
      cases hf : fetch ((j : Int) + 1) with
      | none =>
        simp only
        apply hcombine (c + 1) _ (by omega) (le_refl _) (by omega)
          (Or.inr (by simp [subPageEmpty, hf])) rfl
        simp [subPageOf, hf]
      | some cmtInfo =>
        simp only
        by_cases hcode : cmtInfo.Code ≠ 0
        · rw [if_pos hcode]
          apply hcombine (c + 1) _ (by omega) (le_refl _) (by omega)
            (Or.inr (by simp [subPageEmpty, hf, hcode])) rfl
          simp [subPageOf, hf, hcode]
        · rw [if_neg hcode]
          by_cases hrep : cmtInfo.Replies.length > 0
          · rw [if_pos hrep]
            apply hcombine 0 _ (le_refl _) (by omega) _ (Or.inl rfl) rfl
            · simp [subPageOf, hf, hcode]
            · left
              by_contra hnot
              have hsp := hlate (by omega)
              simp only [subPageEmpty, hf, decide_eq_true_eq] at hsp
              rcases hsp with h | h
              · exact hcode h
              · omega
          · rw [if_neg hrep]
            have h0 : cmtInfo.Replies.length = 0 := by omega
            apply hcombine (c + 1) _ (by omega) (le_refl _) (by omega)
              (Or.inr (by simp [subPageEmpty, hf, h0])) rfl
            simp [subPageOf, hf, hcode, subPageReplies, h0]

/-- C26 fails on a page without replies that has pinned replies: with `MaxTryCount = 1`,
when page 1 succeeds with no reply and the pinned reply 30, `FindSubComment` requests page 1,
counts it as empty and returns nothing, although the page goroutine of `FindComment` collects
the pinned reply of such a page. When page 1 also has the reply 20, both replies are
returned. In general, with a positive jitter and `MaxTryCount = K`, when the pages
`m + 1, ..., m + K` are counted as empty (failed, or without replies), `FindSubComment`
returns after the rounds `1, ..., n`, where `n ≤ m + K` ends a run of `K` such pages, with
what the pages add in page order: for a page with replies the replies, their inline replies,
the pinned replies and their inline replies, and nothing for a page without replies. -/
theorem FindSubComment_pinned_only :
    (FindSubComment fetchPinnedOnly { defaultOption with MaxTryCount := 1 } 10).map
        (fun h => (h.requested, h.replyCollection.map ReplyItem.Rpid)) = some ([1], [])
      ∧ ((fetchPinnedOnly 1).map fun page =>
          (replyCollection envFail page).map ReplyItem.Rpid) = some [30]
      ∧ (FindSubComment fetchReplyAndPinned { defaultOption with MaxTryCount := 1 } 10).map
        (fun h => (h.requested, h.replyCollection.map ReplyItem.Rpid)) = some ([1, 2], [20, 30])
      ∧ (∀ cmtInfo : CommentResponse, cmtInfo.Replies = [] → subPageReplies cmtInfo = [])
      ∧ (∀ (fetch : Int → Option CommentResponse) (opt : model.Option) (m K : Nat),
          0 < opt.DelayJitterMs → opt.MaxTryCount = (K : Int) →
          (∀ i, 1 ≤ i → i ≤ K → subPageEmpty fetch ((m + i : Nat) : Int) = true) →
          ∃ n res, n ≤ m + K ∧ K ≤ n
            ∧ (∀ i : Nat, (n : Int) - K < i → i ≤ n → subPageEmpty fetch (i : Int) = true)
            ∧ FindSubComment fetch opt (m + K + 1) = some res
            ∧ res.requested = (List.range' 1 n).map (fun i : Nat => (i : Int))
            ∧ res.replyCollection = res.requested.flatMap (subPageOf fetch)) := by
  refine ⟨by decide, by decide, by decide, ?_, ?_⟩
  · intro cmtInfo h
    simp [subPageReplies, h]
  · intro fetch opt m K hj hK hempty
    obtain ⟨n, res, _, hn2, hn3, hn4, hrun, hr, hc⟩ :=
      findSubLoop_run fetch opt hj m K hK hempty (m + K + 1) 0 0
        { requested := [], replyCollection := [] } (le_refl _) (by simp) (Or.inl (by omega))
        (by intro i h1 h2; simp at h1; omega) (by omega) (by omega)
    simp only [Nat.cast_zero, zero_add, List.nil_append, Nat.sub_zero] at hrun hr hc
    exact ⟨n, res, hn2, hn3, hn4, hrun, hr, by rw [hc, hr]⟩

/-! ### The validation of one video -/

theorem statsCountOf_eq_none (store : Store) (bvid : String) :
    statsCountOf store bvid = none ↔ ∀ s ∈ store.comment_stats, s.1 ≠ bvid := by
  unfold statsCountOf
  rw [Option.map_eq_none', List.find?_eq_none]
  simp

theorem checkVideoExists_iff (store : Store) (bvid : String) :
    checkVideoExists store bvid = true ↔ ∃ v ∈ store.video_info, v.bvid = bvid := by
  unfold checkVideoExists
  rw [decide_eq_true_iff, gt_iff_lt, List.length_pos_iff_exists_mem]
  constructor
  · rintro ⟨v, hv⟩
    rw [List.mem_filter] at hv
    exact ⟨v, hv.1, by simpa using hv.2⟩
  · rintro ⟨v, hv, hb⟩
    exact ⟨v, List.mem_filter.mpr ⟨hv, by simpa using hb⟩⟩

/-- C30: for a video that exists, `ValidateVideoData` lists what `validateVideoComments`
reports and then once more what `validateVideoStats` reports: without a count row two
`missing_stats` issues, with a count row that differs from the number of stored comments of
the video two `inconsistent_stats` issues, in both cases after the `video_missing_comments`
issue of a video without comments; with a matching count row no stats issue. For a video
that does not exist the list is the single issue `video_not_found`, critical and not
fixable. -/
theorem ValidateVideoData_issues (store : Store) (bvid : String) :
    ((∃ v ∈ store.video_info, v.bvid = bvid) →
        (∀ s ∈ store.comment_stats, s.1 ≠ bvid) →
        (ValidateVideoData store bvid).Issues
            = (if commentCount store bvid = 0 then [videoMissingCommentsIssue bvid] else [])
              ++ [missingStatsIssue bvid, missingStatsIssue bvid]
          ∧ (ValidateVideoData store bvid).Issues.countP
              (fun issue => decide (issue.Type_ = "missing_stats")) = 2)
      ∧ ((∃ v ∈ store.video_info, v.bvid = bvid) →
          ∀ statsCount, statsCountOf store bvid = some statsCount →
          statsCount ≠ (commentCount store bvid : Int) →
          (ValidateVideoData store bvid).Issues
              = (if commentCount store bvid = 0 then [videoMissingCommentsIssue bvid] else [])
                ++ [inconsistentStatsIssue bvid, inconsistentStatsIssue bvid]
            ∧ (ValidateVideoData store bvid).Issues.countP
                (fun issue => decide (issue.Type_ = "inconsistent_stats")) = 2)
      ∧ ((∃ v ∈ store.video_info, v.bvid = bvid) →
          statsCountOf store bvid = some (commentCount store bvid : Int) →
          (ValidateVideoData store bvid).Issues
              = if commentCount store bvid = 0 then [videoMissingCommentsIssue bvid] else [])
      ∧ ((¬ ∃ v ∈ store.video_info, v.bvid = bvid) →
          (ValidateVideoData store bvid).Issues
            = [{ Type_ := "video_not_found", Severity := "critical", Count := 1,
                 Fixable := false, Fixed := false, AffectedBVids := [bvid] }]) := by
  refine ⟨?_, ?_, ?_, ?_⟩
  · intro hex hno
    have hs := (statsCountOf_eq_none store bvid).mpr hno
    have hc := (checkVideoExists_iff store bvid).mpr hex
    have hI : (ValidateVideoData store bvid).Issues
        = (if commentCount store bvid = 0 then [videoMissingCommentsIssue bvid] else [])
          ++ [missingStatsIssue bvid, missingStatsIssue bvid] := by
      simp only [ValidateVideoData, hc, Bool.true_eq_false, if_false, validateVideoComments,
        validateVideoStats, hs, videoMissingCommentsIssue, missingStatsIssue]
      split_ifs <;> simp_all
    refine ⟨hI, ?_⟩
    rw [hI]
    split_ifs <;>
      simp [List.countP_cons, videoMissingCommentsIssue, missingStatsIssue,
        ErrorTypeVideoMissingComments, ErrorTypeMissingStats]
  · intro hex statsCount hs hne
    have hc := (checkVideoExists_iff store bvid).mpr hex
    have hI : (ValidateVideoData store bvid).Issues
        = (if commentCount store bvid = 0 then [videoMissingCommentsIssue bvid] else [])
          ++ [inconsistentStatsIssue bvid, inconsistentStatsIssue bvid] := by
      simp only [ValidateVideoData, hc, Bool.true_eq_false, if_false, validateVideoComments,
        validateVideoStats, hs, videoMissingCommentsIssue, inconsistentStatsIssue]
      split_ifs <;> simp_all
    refine ⟨hI, ?_⟩
    rw [hI]
    split_ifs <;>
      simp [List.countP_cons, videoMissingCommentsIssue, inconsistentStatsIssue,
        ErrorTypeVideoMissingComments, ErrorTypeInconsistentStats]
  · intro hex hs
    have hc := (checkVideoExists_iff store bvid).mpr hex
    simp only [ValidateVideoData, hc, Bool.true_eq_false, if_false, validateVideoComments,
      validateVideoStats, hs, videoMissingCommentsIssue]
    split_ifs <;> simp_all
  · intro hex
    have hc : checkVideoExists store bvid = false := by
      rw [← Bool.not_eq_true, checkVideoExists_iff]
      exact hex
    simp [ValidateVideoData, hc, ErrorTypeVideoNotFound]

/-- Witness of C30: the video of `storeThread` without its count row, and with the count row
1 beside 2 stored comments. -/
theorem ValidateVideoData_issues_witness :
    (∃ v ∈ ({ storeThread with comment_stats := [] } : Store).video_info,
        v.bvid = "BV1xx411c7mD")
      ∧ (∀ s ∈ ({ storeThread with comment_stats := [] } : Store).comment_stats,
          s.1 ≠ "BV1xx411c7mD")
      ∧ ((ValidateVideoData { storeThread with comment_stats := [] } "BV1xx411c7mD").Issues
          = (if commentCount { storeThread with comment_stats := [] } "BV1xx411c7mD" = 0 then
              [videoMissingCommentsIssue "BV1xx411c7mD"] else [])
            ++ [missingStatsIssue "BV1xx411c7mD", missingStatsIssue "BV1xx411c7mD"]
        ∧ (ValidateVideoData { storeThread with comment_stats := [] }
            "BV1xx411c7mD").Issues.countP
              (fun issue => decide (issue.Type_ = "missing_stats")) = 2) :=
  ⟨by decide, by decide,
    (ValidateVideoData_issues { storeThread with comment_stats := [] } "BV1xx411c7mD").1
      (by decide) (by decide)⟩

/-! ### The mixin key -/

theorem utf8Char_length_pos (c : Char) : 0 < (utf8Char c).length := by
  unfold utf8Char
  simp only
  split_ifs <;> simp

theorem flatMap_utf8Char_length (l : List Char) : l.length ≤ (l.flatMap utf8Char).length := by
  induction l with
  | nil => simp
  | cons c cs ih =>
    have := utf8Char_length_pos c
    simp only [List.flatMap_cons, List.length_append, List.length_cons]
    omega

theorem utf8_length_ge (s : String) : s.length ≤ (utf8 s).length :=
  flatMap_utf8Char_length s.data

theorem utf8_ascii (s : String) (h : ∀ c ∈ s.data, c.toNat < 128) :
    utf8 s = s.data.map Char.toNat := by
  unfold utf8
  generalize s.data = l at h
  induction l with
  | nil => rfl
  | cons c cs ih =>
    have hc := h c (List.mem_cons_self _ _)
    rw [List.flatMap_cons, List.map_cons, ih fun x hx => h x (List.mem_cons_of_mem _ hx)]
    simp [utf8Char, hc]

theorem mixin_foldl (bytes : List Nat) : ∀ (tab acc : List Nat),
    tab.foldl (fun str v => if v < bytes.length then str ++ [bytes.getD v 0] else str) acc
      = acc ++ (tab.filter fun v => decide (v < bytes.length)).map fun v => bytes.getD v 0 := by
  intro tab
  induction tab with
  | nil => intro acc; simp
  | cons v vs ih =>
    intro acc
    rw [List.foldl_cons, ih]
    by_cases hv : v < bytes.length
    · simp [hv]
    · simp [hv]

theorem getMixinKey_eq (orig : String) :
    getMixinKey orig
      = if ((mixinKeyEncTab.filter fun v => decide (v < (utf8 orig).length)).map
            fun v => (utf8 orig).getD v 0).length < 32 then none
        else some (((mixinKeyEncTab.filter fun v => decide (v < (utf8 orig).length)).map
            fun v => (utf8 orig).getD v 0).take 32) := by
  unfold getMixinKey
  simp only [mixin_foldl, List.nil_append]

theorem getMixinKey_isSome (orig : String) :
    (getMixinKey orig).isSome = true
      ↔ 32 ≤ (mixinKeyEncTab.filter fun v => decide (v < (utf8 orig).length)).length := by
  rw [getMixinKey_eq]
  split_ifs with h
  · simp only [List.length_map] at h
    simp only [Option.isSome_none, Bool.false_eq_true, false_iff, not_le]
    exact h
  · simp only [List.length_map, not_lt] at h
    simp only [Option.isSome_some, true_iff]
    exact h

theorem mixinKeyEncTab_lt : ∀ v ∈ mixinKeyEncTab, v < 64 := by decide

theorem getMixinKey_of_long (orig : String) (h : 64 ≤ (utf8 orig).length) :
    getMixinKey orig
      = some ((mixinKeyEncTab.take 32).map fun v => (utf8 orig).getD v 0) := by
  have hf : (mixinKeyEncTab.filter fun v => decide (v < (utf8 orig).length))
      = mixinKeyEncTab := by
    rw [List.filter_eq_self]
    intro v hv
    have := mixinKeyEncTab_lt v hv
    simp only [decide_eq_true_eq]
    omega
  rw [getMixinKey_eq, hf]
  have hl : (mixinKeyEncTab.map fun v => (utf8 orig).getD v 0).length = 64 := by
    rw [List.length_map]
    rfl
  rw [if_neg (by omega), List.map_take]

/-- C24: for every string `orig` of 64 characters, `getMixinKey(orig)` is defined and has
length 32, and its byte `i < 32` is the byte `orig[mixinKeyEncTab[i]]` (for a string of
characters below 128, such as the hexadecimal keys, the character at that index);
`mixinKeyEncTab` has 64 entries and is a permutation of `0..63`. -/
theorem getMixinKey_spec (orig : String) (h : orig.length = 64) :
    (∃ key, getMixinKey orig = some key ∧ key.length = 32
        ∧ (∀ i, i < 32 → key[i]? = (utf8 orig)[mixinKeyEncTab.getD i 0]?)
        ∧ ((∀ c ∈ orig.data, c.toNat < 128) →
            ∀ i, i < 32 → key[i]? = (orig.data[mixinKeyEncTab.getD i 0]?).map Char.toNat))
      ∧ mixinKeyEncTab.length = 64
      ∧ mixinKeyEncTab.Perm (List.range 64) := by
  have hlen : 64 ≤ (utf8 orig).length := by
    have := utf8_length_ge orig
    omega
  have hkey : ∀ i, i < 32 →
      ((mixinKeyEncTab.take 32).map fun v => (utf8 orig).getD v 0)[i]?
        = (utf8 orig)[mixinKeyEncTab.getD i 0]? := by
    intro i hi
    have hi64 : i < mixinKeyEncTab.length := by
      have : mixinKeyEncTab.length = 64 := rfl
      omega
    have hmem : mixinKeyEncTab.getD i 0 ∈ mixinKeyEncTab := by
      rw [List.getD_eq_getElem _ _ hi64]
      exact List.getElem_mem _
    have hlt := mixinKeyEncTab_lt _ hmem
    have hlt2 : mixinKeyEncTab.getD i 0 < (utf8 orig).length := by omega
    rw [List.getElem?_map, List.getElem?_take_of_lt hi, List.getElem?_eq_getElem hi64,
      Option.map_some', ← List.getD_eq_getElem _ 0 hi64]
    generalize mixinKeyEncTab.getD i 0 = v at hlt2 ⊢
    rw [List.getElem?_eq_getElem hlt2, List.getD_eq_getElem _ _ hlt2]
  refine ⟨⟨_, getMixinKey_of_long orig hlen, ?_, hkey, ?_⟩, rfl, by decide⟩
  · rw [List.length_map, List.length_take]
    rfl
  · intro hascii i hi
    rw [hkey i hi, utf8_ascii orig hascii, List.getElem?_map]

/-- Witness of C24: the mixin key of the two keys of the API documentation. -/
theorem getMixinKey_spec_witness :
    ("7cd084941338484aae1ad9425b84077c4932caff0ff746eab6f01bf08b70ac45").length = 64
      ∧ (∃ key, getMixinKey "7cd084941338484aae1ad9425b84077c4932caff0ff746eab6f01bf08b70ac45"
            = some key ∧ key.length = 32
        ∧ (∀ i, i < 32 → key[i]?
            = (utf8 "7cd084941338484aae1ad9425b84077c4932caff0ff746eab6f01bf08b70ac45")[
                mixinKeyEncTab.getD i 0]?)
        ∧ ((∀ c ∈ ("7cd084941338484aae1ad9425b84077c4932caff0ff746eab6f01bf08b70ac45").data,
              c.toNat < 128) →
            ∀ i, i < 32 → key[i]?
              = (("7cd084941338484aae1ad9425b84077c4932caff0ff746eab6f01bf08b70ac45").data[
                  mixinKeyEncTab.getD i 0]?).map Char.toNat))
      ∧ mixinKeyEncTab.length = 64
      ∧ mixinKeyEncTab.Perm (List.range 64) :=
  ⟨by decide,
    getMixinKey_spec "7cd084941338484aae1ad9425b84077c4932caff0ff746eab6f01bf08b70ac45"
      (by decide)⟩

theorem getMixinKey_empty : getMixinKey "" = none := by decide

theorem encWbi_empty_keys (md5Sum : List Nat → List Nat) (now : Int)
    (params : List (String × String)) : encWbi md5Sum now params "" "" = none := by
  unfold encWbi
  have h : ("" : String) ++ "" = "" := by decide
  rw [h, getMixinKey_empty]

theorem getWbiKeys_first_status (attempt : Nat → NavAttempt) (status : Int)
    (body : Option (String × String)) (h0 : attempt 0 = NavAttempt.response status body)
    (hs : 400 ≤ status) : getWbiKeys attempt = some ("", "") := by
  have hfn : getWbiKeysAttempt (attempt 0).http = some (RetryErr.permanent status) := by
    rw [h0]
    by_cases h5 : status ≥ 500
    · simp [NavAttempt.http, getWbiKeysAttempt, h5]
    · simp [NavAttempt.http, getWbiKeysAttempt, h5, hs]
  unfold getWbiKeys Retry RetryWithBackoff MaxRetries
  have h3 : (3 : Int).toNat = 2 + 1 := by decide
  rw [h3, retryLoop, hfn]
  simp [isRetryable]

theorem getWbiKeys_first_transport (attempt : Nat → NavAttempt)
    (h0 : attempt 0 = NavAttempt.transportError) : getWbiKeys attempt = none := by
  have hfn : getWbiKeysAttempt (attempt 0).http = some RetryErr.reqErr := by
    rw [h0]
    rfl
  unfold getWbiKeys Retry RetryWithBackoff MaxRetries
  have h3 : (3 : Int).toNat = 2 + 1 := by decide
  rw [h3, retryLoop, hfn]
  simp [isRetryable]

theorem getWbiKeys_first_unreadable (attempt : Nat → NavAttempt) (status : Int)
    (h0 : attempt 0 = NavAttempt.response status none) (hs : status < 400) :
    getWbiKeys attempt = some ("", "") := by
  have hfn : getWbiKeysAttempt (attempt 0).http = none := by
    rw [h0]
    have h4 : ¬ status ≥ 400 := by omega
    have h5 : ¬ status ≥ 500 := by omega
    simp [NavAttempt.http, getWbiKeysAttempt, h4, h5]
  unfold getWbiKeys Retry RetryWithBackoff MaxRetries
  have h3 : (3 : Int).toNat = 2 + 1 := by decide
  rw [h3, retryLoop, hfn]
  simp [h0]

/-- C27 fails in one part: when the request of `getWbiKeys` fails with an error of the HTTP
client, `getWbiKeys` does not return `("", "")` but panics, in `logger.Warnf` on the nil
logger it hands to `Retry`. The rest holds: `getMixinKey(orig)` is defined exactly when at
least 32 entries of `mixinKeyEncTab` are smaller than `len(orig)`, it panics for the empty
string, `getWbiKeys` returns `("", "")` when the response has a status of 400 or more or its
body cannot be read, and with these keys, or after the panic of `getWbiKeys`, `encWbi` and
`SignAndGenerateURL` panic and return no error value. -/
theorem getWbiKeys_failures :
    getWbiKeys (fun _ => NavAttempt.transportError) = none
      ∧ (∀ attempt : Nat → NavAttempt, attempt 0 = NavAttempt.transportError →
          getWbiKeys attempt = none)
      ∧ (∀ (attempt : Nat → NavAttempt) status body,
          attempt 0 = NavAttempt.response status body → 400 ≤ status →
          getWbiKeys attempt = some ("", ""))
      ∧ (∀ (attempt : Nat → NavAttempt) status,
          attempt 0 = NavAttempt.response status none → status < 400 →
          getWbiKeys attempt = some ("", ""))
      ∧ (∀ orig, (getMixinKey orig).isSome = true
          ↔ 32 ≤ (mixinKeyEncTab.filter fun v => decide (v < (utf8 orig).length)).length)
      ∧ getMixinKey "" = none
      ∧ (∀ md5Sum now params, encWbi md5Sum now params "" "" = none)
      ∧ (∀ md5Sum now query,
          SignAndGenerateURL md5Sum now (some query) (some ("", "")) = none)
      ∧ (∀ md5Sum now query, SignAndGenerateURL md5Sum now (some query) none = none) := by
  refine ⟨getWbiKeys_first_transport _ rfl, getWbiKeys_first_transport,
    getWbiKeys_first_status, getWbiKeys_first_unreadable, getMixinKey_isSome,
    getMixinKey_empty, encWbi_empty_keys, ?_, fun _ _ _ => rfl⟩
  intro md5Sum now query
  unfold SignAndGenerateURL
  simp only
  cases firstValues query with
  | none => rfl
  | some params => simp only [encWbi_empty_keys]

/-! ### Go maps as lists of pairs -/

theorem mem_keys_mapSet {β : Type} (m : List (String × β)) (k : String) (v : β)
    (k1 : String) : k1 ∈ (mapSet m k v).map Prod.fst ↔ k1 ∈ m.map Prod.fst ∨ k1 = k := by
  induction m with
  | nil => simp [mapSet]
  | cons p m ih =>
    obtain ⟨k2, v2⟩ := p
    by_cases h : k2 = k
    · subst h
      simp only [mapSet, if_true, List.map_cons, List.mem_cons]
      tauto
    · simp only [mapSet, if_neg h, List.map_cons, List.mem_cons, ih]
      tauto

theorem nodup_keys_mapSet {β : Type} (m : List (String × β)) (k : String) (v : β)
    (h : (m.map Prod.fst).Nodup) : ((mapSet m k v).map Prod.fst).Nodup := by
  induction m with
  | nil => simp [mapSet]
  | cons p m ih =>
    obtain ⟨k2, v2⟩ := p
    rw [List.map_cons, List.nodup_cons] at h
    by_cases hk : k2 = k
    · subst hk
      simp only [mapSet, if_true, List.map_cons, List.nodup_cons]
      exact h
    · simp only [mapSet, if_neg hk, List.map_cons, List.nodup_cons, mem_keys_mapSet]
      exact ⟨fun hmem => hmem.elim h.1 hk, ih h.2⟩

theorem mapGet?_mapSet {β : Type} (m : List (String × β)) (k : String) (v : β)
    (k1 : String) : mapGet? (mapSet m k v) k1 = if k = k1 then some v else mapGet? m k1 := by
  induction m with
  | nil => simp [mapSet, mapGet?]
  | cons p m ih =>
    obtain ⟨k2, v2⟩ := p
    by_cases h : k2 = k
    · subst h
      simp only [mapSet, if_true, mapGet?]
      split_ifs <;> rfl
    · simp only [mapSet, if_neg h, mapGet?, ih]
      by_cases h1 : k2 = k1
      · subst h1
        simp [Ne.symm h]
      · simp [h1]

theorem mapGet?_mapValues {β γ : Type} (f : β → γ) (m : List (String × β)) (k : String) :
    mapGet? (m.map fun p => (p.1, f p.2)) k = (mapGet? m k).map f := by
  induction m with
  | nil => rfl
  | cons p m ih =>
    obtain ⟨k2, v2⟩ := p
    simp only [List.map_cons, mapGet?, ih]
    split_ifs <;> rfl

theorem keys_mapValues {β γ : Type} (f : β → γ) (m : List (String × β)) :
    (m.map fun p => (p.1, f p.2)).map Prod.fst = m.map Prod.fst := by
  simp [List.map_map, Function.comp]

theorem mapGet?_eq_none {β : Type} (m : List (String × β)) (k : String) :
    mapGet? m k = none ↔ k ∉ m.map Prod.fst := by
  induction m with
  | nil => simp [mapGet?]
  | cons p m ih =>
    obtain ⟨k2, v2⟩ := p
    simp only [mapGet?, List.map_cons, List.mem_cons, not_or]
    by_cases h : k2 = k
    · simp [h]
    · simp only [if_neg h, ih]
      exact ⟨fun hm => ⟨fun hk => h hk.symm, hm⟩, fun hm => hm.2⟩

theorem mapGet?_of_mem {β : Type} (m : List (String × β)) (k : String) (v : β)
    (hnd : (m.map Prod.fst).Nodup) (h : (k, v) ∈ m) : mapGet? m k = some v := by
  induction m with
  | nil => simp at h
  | cons p m ih =>
    obtain ⟨k2, v2⟩ := p
    rw [List.map_cons, List.nodup_cons] at hnd
    rcases List.mem_cons.mp h with heq | hmem
    · cases heq
      simp [mapGet?]
    · have hne : k2 ≠ k := by
        intro hk
        apply hnd.1
        rw [hk]
        exact List.mem_map.mpr ⟨(k, v), hmem, rfl⟩
      simp only [mapGet?, if_neg hne]
      exact ih hnd.2 hmem

theorem mapGet?_foldl_keys (g : String → List String) (k1 : String) :
    ∀ (ks : List String) (acc : List (String × List String)),
      mapGet? (ks.foldl (fun query k => mapSet query k (g k)) acc) k1
        = if k1 ∈ ks then some (g k1) else mapGet? acc k1 := by
  intro ks
  induction ks with
  | nil => intro acc; simp
  | cons k ks ih =>
    intro acc
    rw [List.foldl_cons, ih, mapGet?_mapSet]
    by_cases h1 : k1 ∈ ks
    · simp [h1]
    · by_cases h2 : k = k1
      · subst h2
        simp
      · simp [h1, h2, Ne.symm h2]

theorem keys_foldl_keys (g : String → List String) :
    ∀ (ks : List String) (acc : List (String × List String)), ks.Nodup →
      (∀ k ∈ ks, k ∉ acc.map Prod.fst) →
      (ks.foldl (fun query k => mapSet query k (g k)) acc).map Prod.fst
        = acc.map Prod.fst ++ ks := by
  intro ks
  induction ks with
  | nil => intro acc _ _; simp
  | cons k ks ih =>
    intro acc hnd hdis
    rw [List.nodup_cons] at hnd
    have hk : k ∉ acc.map Prod.fst := hdis k (List.mem_cons_self _ _)
    have hset : (mapSet acc k (g k)).map Prod.fst = acc.map Prod.fst ++ [k] := by
      clear ih hdis
      induction acc with
      | nil => rfl
      | cons p acc iha =>
        obtain ⟨k2, v2⟩ := p
        simp only [List.map_cons, List.mem_cons, not_or] at hk
        simp only [mapSet, if_neg (Ne.symm hk.1), List.map_cons, List.cons_append, iha hk.2]
    rw [List.foldl_cons, ih _ hnd.2, hset]
    · simp
    · intro k2 hk2
      rw [hset, List.mem_append, not_or]
      refine ⟨hdis k2 (List.mem_cons_of_mem _ hk2), ?_⟩
      simp only [List.mem_singleton]
      intro h
      subst h
      exact hnd.1 hk2

theorem mapGet?_foldl_pairs (k : String) :
    ∀ (res : List (String × String)) (acc : List (String × List String)),
      (res.map Prod.fst).Nodup →
      mapGet? (res.foldl (fun query p => mapSet query p.1 [p.2]) acc) k
        = match mapGet? res k with
          | some v => some [v]
          | none => mapGet? acc k := by
  intro res
  induction res with
  | nil => intro acc _; rfl
  | cons p res ih =>
    intro acc hnd
    obtain ⟨k1, v1⟩ := p
    rw [List.map_cons, List.nodup_cons] at hnd
    rw [List.foldl_cons, ih _ hnd.2]
    by_cases hk : k1 = k
    · subst hk
      have hnone : mapGet? res k1 = none := (mapGet?_eq_none res k1).mpr hnd.1
      simp [mapGet?, hnone, mapGet?_mapSet]
    · simp only [mapGet?, if_neg hk, mapGet?_mapSet]

/-! ### Sorting, escaping and hashing -/

theorem lexLe_total : ∀ a b : List Char, lexLe a b = true ∨ lexLe b a = true := by
  intro a
  induction a with
  | nil => intro b; exact Or.inl (by cases b <;> rfl)
  | cons x xs ih =>
    intro b
    cases b with
    | nil => exact Or.inr rfl
    | cons y ys =>
      by_cases h1 : x < y
      · exact Or.inl (by simp [lexLe, h1])
      · by_cases h2 : y < x
        · exact Or.inr (by simp [lexLe, h2])
        · rcases ih ys with h | h
          · exact Or.inl (by simp [lexLe, h1, h2, h])
          · exact Or.inr (by simp [lexLe, h1, h2, h])

theorem lexLe_trans : ∀ a b c : List Char, lexLe a b = true → lexLe b c = true →
    lexLe a c = true := by
  intro a
  induction a with
  | nil => intro b c _ _; cases c <;> rfl
  | cons x xs ih =>
    intro b c hab hbc
    cases b with
    | nil => simp [lexLe] at hab
    | cons y ys =>
      cases c with
      | nil => simp [lexLe] at hbc
      | cons z zs =>
        simp only [lexLe] at hab hbc ⊢
        by_cases hxy : x < y
        · by_cases hyz : y < z
          · simp [lt_trans hxy hyz]
          · by_cases hzy : z < y
            · simp [hyz, hzy] at hbc
            · have : y = z := le_antisymm (not_lt.mp hzy) (not_lt.mp hyz)
              subst this
              simp [hxy]
        · by_cases hyx : y < x
          · simp [hxy, hyx] at hab
          · have hxy2 : x = y := le_antisymm (not_lt.mp hyx) (not_lt.mp hxy)
            subst hxy2
            simp only [hxy, if_false] at hab
            by_cases hxz : x < z
            · simp [hxz]
            · by_cases hzx : z < x
              · simp [hxz, hzx] at hbc
              · simp only [hxz, hzx, if_false] at hbc ⊢
                exact ih ys zs hab hbc

theorem sortStrings_perm (keys : List String) : (sortStrings keys).Perm keys :=
  List.perm_insertionSort _ keys

theorem sortStrings_sorted (keys : List String) :
    (sortStrings keys).Sorted fun a b => lexLe a.data b.data = true := by
  haveI : IsTotal String fun a b => lexLe a.data b.data = true :=
    ⟨fun a b => lexLe_total a.data b.data⟩
  haveI : IsTrans String fun a b => lexLe a.data b.data = true :=
    ⟨fun a b c => lexLe_trans a.data b.data c.data⟩
  exact List.sorted_insertionSort _ keys

theorem flatMap_singletons {α β : Type} (f : α → List β) (g : α → β) :
    ∀ l : List α, (∀ a ∈ l, f a = [g a]) → l.flatMap f = l.map g := by
  intro l
  induction l with
  | nil => intro _; rfl
  | cons a l ih =>
    intro h
    rw [List.flatMap_cons, h a (List.mem_cons_self _ _),
      ih fun b hb => h b (List.mem_cons_of_mem _ hb)]
    rfl

theorem Encode_of_sorted (query : List (String × List String)) (g : String → String)
    (hs : (query.map Prod.fst).Sorted fun a b => lexLe a.data b.data = true)
    (hg : ∀ k ∈ query.map Prod.fst, mapGet? query k = some [g k]) :
    Encode query
      = String.intercalate "&"
          ((query.map Prod.fst).map fun k => QueryEscape k ++ "=" ++ QueryEscape (g k)) := by
  unfold Encode sortStrings
  rw [List.Sorted.insertionSort_eq hs]
  congr 1
  apply flatMap_singletons
  intro k hk
  rw [hg k hk]
  rfl

theorem hexEncode_length (src : List Nat) : (hexEncode src).length = 2 * src.length := by
  unfold hexEncode
  rw [String.length_mk]
  induction src with
  | nil => rfl
  | cons v vs ih =>
    rw [List.flatMap_cons, List.length_append, ih]
    simp only [List.length_cons, List.length_nil]
    omega

theorem hextable_getD : ∀ i, i < 16 → hextable.getD i '0' ∈ hextable := by decide

theorem hexEncode_chars (src : List Nat) : ∀ c ∈ (hexEncode src).data, c ∈ hextable := by
  intro c hc
  unfold hexEncode at hc
  obtain ⟨v, _, hv⟩ := List.mem_flatMap.mp hc
  simp only [List.mem_cons, List.mem_singleton, List.not_mem_nil, or_false] at hv
  rcases hv with rfl | rfl
  · exact hextable_getD _ (Nat.mod_lt _ (by norm_num))
  · exact hextable_getD _ (Nat.mod_lt _ (by norm_num))

theorem sanitizeString_clean (s : String) :
    ∀ c ∈ unwantedChars, c ∉ (sanitizeString s).data := by
  intro c hc hmem
  simp only [sanitizeString, unwantedChars, List.foldl_cons, List.foldl_nil,
    List.mem_filter, bne_iff_ne, ne_eq] at hmem
  simp only [unwantedChars, List.mem_cons, List.mem_singleton, List.not_mem_nil,
    or_false] at hc
  obtain ⟨⟨⟨⟨⟨_, h1⟩, h2⟩, h3⟩, h4⟩, h5⟩ := hmem
  rcases hc with rfl | rfl | rfl | rfl | rfl
  · exact h1 rfl
  · exact h2 rfl
  · exact h3 rfl
  · exact h4 rfl
  · exact h5 rfl

theorem sanitizeString_of_clean (s : String) (h : ∀ c ∈ s.data, c ∉ unwantedChars) :
    sanitizeString s = s := by
  have hfil : ∀ (l : List Char) (u : Char), u ∈ unwantedChars → (∀ c ∈ l, c ∉ unwantedChars) →
      (l.filter fun x => x != u) = l := by
    intro l u hu hl
    rw [List.filter_eq_self]
    intro c hc
    rw [bne_iff_ne]
    intro hcu
    exact hl c hc (hcu ▸ hu)
  have h1 := hfil s.data (Char.ofNat 33) (by decide) h
  have h2 := hfil s.data (Char.ofNat 39) (by decide) h
  have h3 := hfil s.data (Char.ofNat 40) (by decide) h
  have h4 := hfil s.data (Char.ofNat 41) (by decide) h
  have h5 := hfil s.data (Char.ofNat 42) (by decide) h
  simp only [sanitizeString, unwantedChars, List.foldl_cons, List.foldl_nil, h1, h2, h3, h4,
    h5]

theorem digitChar_clean : ∀ d, d < 10 → Nat.digitChar d ∉ unwantedChars := by decide

theorem toDigitsCore_clean : ∀ (fuel n : Nat) (ds : List Char),
    (∀ c ∈ ds, c ∉ unwantedChars) → ∀ c ∈ Nat.toDigitsCore 10 fuel n ds, c ∉ unwantedChars := by
  intro fuel
  induction fuel with
  | zero => intro n ds h; simpa [Nat.toDigitsCore] using h
  | succ fuel ih =>
    intro n ds h
    have hd := digitChar_clean (n % 10) (Nat.mod_lt _ (by norm_num))
    have hds : ∀ c ∈ Nat.digitChar (n % 10) :: ds, c ∉ unwantedChars := by
      intro c hc
      rcases List.mem_cons.mp hc with rfl | hc
      · exact hd
      · exact h c hc
    simp only [Nat.toDigitsCore]
    split_ifs
    · exact hds
    · exact ih _ _ hds

theorem FormatInt_clean (x : Int) : ∀ c ∈ (FormatInt x).data, c ∉ unwantedChars := by
  have hnat : ∀ n : Nat, ∀ c ∈ (Nat.repr n).data, c ∉ unwantedChars := by
    intro n
    exact toDigitsCore_clean _ _ [] (by simp)
  intro c hc
  cases x with
  | ofNat n => exact hnat n c hc
  | negSucc n =>
    have hdata : (FormatInt (Int.negSucc n)).data = '-' :: (Nat.repr (n + 1)).data := rfl
    rw [hdata] at hc
    rcases List.mem_cons.mp hc with rfl | hc
    · decide
    · exact hnat _ c hc

theorem sanitizeString_FormatInt (x : Int) : sanitizeString (FormatInt x) = FormatInt x :=
  sanitizeString_of_clean _ (FormatInt_clean x)

/-! ### `encWbi` and `SignAndGenerateURL` -/

theorem sanitizeString_data (s : String) :
    (sanitizeString s).data = s.data.filter fun c => decide (c ∉ unwantedChars) := by
  simp only [sanitizeString, unwantedChars, List.foldl_cons, List.foldl_nil,
    List.filter_filter]
  apply List.filter_congr
  intro c _
  simp only [List.mem_cons, List.mem_singleton, List.not_mem_nil, or_false, not_or,
    Bool.decide_and, Bool.and_assoc]
  by_cases h1 : c = Char.ofNat 33 <;> by_cases h2 : c = Char.ofNat 39 <;>
    by_cases h3 : c = Char.ofNat 40 <;> by_cases h4 : c = Char.ofNat 41 <;>
    by_cases h5 : c = Char.ofNat 42 <;> simp [h1, h2, h3, h4, h5]

theorem firstValues_spec : ∀ query : List (String × List String),
    (∀ p ∈ query, p.2 ≠ []) →
    ∃ params, firstValues query = some params ∧ (params.map Prod.fst).Nodup
      ∧ ∀ k, mapGet? params k = (mapGet? query k).bind List.head? := by
  intro query
  induction query with
  | nil => intro _; exact ⟨[], rfl, List.nodup_nil, fun _ => rfl⟩
  | cons p query ih =>
    intro h
    obtain ⟨k1, v1⟩ := p
    obtain ⟨params, hp, hnd, hget⟩ := ih fun q hq => h q (List.mem_cons_of_mem _ hq)
    have hv : v1 ≠ [] := h (k1, v1) (List.mem_cons_self _ _)
    obtain ⟨v0, vs, rfl⟩ := List.exists_cons_of_ne_nil hv
    refine ⟨mapSet params k1 v0, ?_, nodup_keys_mapSet _ _ _ hnd, ?_⟩
    · simp [firstValues, hp]
    · intro k
      rw [mapGet?_mapSet, hget]
      by_cases hk : k1 = k
      · simp [mapGet?, hk]
      · simp [mapGet?, hk]

theorem encWbi_eq (md5Sum : List Nat → List Nat) (now : Int) (params : List (String × String))
    (imgKey subKey : String) (mixinKey : List Nat)
    (hmk : getMixinKey (imgKey ++ subKey) = some mixinKey) :
    encWbi md5Sum now params imgKey subKey
      = some (mapSet ((mapSet params "wts" (FormatInt now)).map
            fun p => (p.1, sanitizeString p.2)) "w_rid"
          (hexEncode (md5Sum (utf8 (Encode
            ((sortStrings ((mapSet params "wts" (FormatInt now)).map Prod.fst)).foldl
              (fun (query : List (String × List String)) k =>
                mapSet query k [mapGet ((mapSet params "wts" (FormatInt now)).map
                  fun p => (p.1, sanitizeString p.2)) k]) [])) ++ mixinKey)))) := by
  unfold encWbi
  rw [hmk]

theorem mapGet_mapSet_self (m : List (String × String)) (k v : String) :
    mapGet (mapSet m k v) k = v := by
  unfold mapGet
  rw [mapGet?_mapSet, if_pos rfl]
  rfl

theorem mapGet_mapSet_ne (m : List (String × String)) (k v k1 : String) (h : k ≠ k1) :
    mapGet (mapSet m k v) k1 = mapGet m k1 := by
  unfold mapGet
  rw [mapGet?_mapSet, if_neg h]

theorem mapGet_sanitized (m : List (String × String)) (k : String) :
    mapGet (m.map fun p => (p.1, sanitizeString p.2)) k = sanitizeString (mapGet m k) := by
  unfold mapGet
  rw [mapGet?_mapValues]
  cases mapGet? m k with
  | none => decide
  | some v => rfl

theorem encWbi_query (params : List (String × String)) (now : Int)
    (hnd : (params.map Prod.fst).Nodup) :
    Encode ((sortStrings ((mapSet params "wts" (FormatInt now)).map Prod.fst)).foldl
        (fun (query : List (String × List String)) k =>
          mapSet query k [mapGet ((mapSet params "wts" (FormatInt now)).map
            fun p => (p.1, sanitizeString p.2)) k]) [])
      = String.intercalate "&"
          ((sortStrings ((mapSet params "wts" (FormatInt now)).map Prod.fst)).map fun k =>
            QueryEscape k ++ "="
              ++ QueryEscape (sanitizeString (mapGet (mapSet params "wts" (FormatInt now)) k))) := by
  have hks : (sortStrings ((mapSet params "wts" (FormatInt now)).map Prod.fst)).Nodup :=
    (sortStrings_perm _).nodup_iff.mpr (nodup_keys_mapSet _ _ _ hnd)
  have hkeys := keys_foldl_keys
    (fun k => [mapGet ((mapSet params "wts" (FormatInt now)).map
      fun p => (p.1, sanitizeString p.2)) k])
    (sortStrings ((mapSet params "wts" (FormatInt now)).map Prod.fst)) [] hks (by simp)
  simp only [List.map_nil, List.nil_append] at hkeys
  rw [Encode_of_sorted _
    (fun k => sanitizeString (mapGet (mapSet params "wts" (FormatInt now)) k))]
  · rw [hkeys]
  · rw [hkeys]
    exact sortStrings_sorted _
  · intro k hk
    rw [hkeys] at hk
    rw [mapGet?_foldl_keys, if_pos hk, mapGet_sanitized]

/-- C23: with keys of 64 characters in total (and an MD5 digest of 16 bytes) `encWbi` returns
a map whose keys are those of the parameters, `wts` and `w_rid`; the value of a parameter
other than `wts` and `w_rid` is its input value without the characters ! ' ( ) *, the value
of `wts` is the decimal current time, no value other than `w_rid` contains one of these
characters, and `w_rid` is the lowercase hexadecimal MD5, 32 characters long, of the escaped
pairs `key=value` of the sanitized parameters with `wts`, in the order of the sorted keys and
joined by `&`, followed by the mixin key. `SignAndGenerateURL` returns a URL whose query has
exactly the entries of that map for the first values of the query of the URL it is given. -/
theorem encWbi_spec (md5Sum : List Nat → List Nat) (now : Int) (imgKey subKey : String)
    (hkeys : (imgKey ++ subKey).length = 64) (hmd5 : ∀ x, (md5Sum x).length = 16) :
    (∀ params : List (String × String), (params.map Prod.fst).Nodup →
      ∃ mixinKey res, getMixinKey (imgKey ++ subKey) = some mixinKey
        ∧ encWbi md5Sum now params imgKey subKey = some res
        ∧ (res.map Prod.fst).Nodup
        ∧ (∀ k, k ∈ res.map Prod.fst ↔ k ∈ params.map Prod.fst ∨ k = "wts" ∨ k = "w_rid")
        ∧ (∀ k v, (k, v) ∈ params → k ≠ "wts" → k ≠ "w_rid" →
            mapGet res k = sanitizeString v
              ∧ (mapGet res k).data = v.data.filter fun c => decide (c ∉ unwantedChars))
        ∧ mapGet res "wts" = FormatInt now
        ∧ (∀ k, k ≠ "w_rid" → ∀ c ∈ unwantedChars, c ∉ (mapGet res k).data)
        ∧ (∃ ks : List String, ks.Perm ((mapSet params "wts" (FormatInt now)).map Prod.fst)
            ∧ ks.Sorted (fun a b => lexLe a.data b.data = true)
            ∧ mapGet res "w_rid"
                = hexEncode (md5Sum (utf8 (String.intercalate "&" (ks.map fun k =>
                    QueryEscape k ++ "=" ++ QueryEscape
                      (sanitizeString (mapGet (mapSet params "wts" (FormatInt now)) k))))
                    ++ mixinKey)))
        ∧ (mapGet res "w_rid").length = 32
        ∧ (∀ c ∈ (mapGet res "w_rid").data, c ∈ hextable))
      ∧ (∀ query : List (String × List String), (∀ p ∈ query, p.2 ≠ []) →
          ∃ params res signed,
            firstValues query = some params
              ∧ (∀ k, mapGet? params k = (mapGet? query k).bind List.head?)
              ∧ encWbi md5Sum now params imgKey subKey = some res
              ∧ SignAndGenerateURL md5Sum now (some query) (some (imgKey, subKey))
                  = some (Signed.url signed (Encode signed))
              ∧ ∀ k, mapGet? signed k = (mapGet? res k).map fun v => [v]) := by
  have hlen : 64 ≤ (utf8 (imgKey ++ subKey)).length := by
    have := utf8_length_ge (imgKey ++ subKey)
    omega
  have hmk := getMixinKey_of_long (imgKey ++ subKey) hlen
  have hmain : ∀ params : List (String × String), (params.map Prod.fst).Nodup →
      ∃ res, encWbi md5Sum now params imgKey subKey = some res
        ∧ (res.map Prod.fst).Nodup
        ∧ (∀ k, k ∈ res.map Prod.fst ↔ k ∈ params.map Prod.fst ∨ k = "wts" ∨ k = "w_rid")
        ∧ (∀ k, k ≠ "w_rid" → mapGet res k
            = sanitizeString (mapGet (mapSet params "wts" (FormatInt now)) k))
        ∧ mapGet res "w_rid"
            = hexEncode (md5Sum (utf8 (String.intercalate "&"
                ((sortStrings ((mapSet params "wts" (FormatInt now)).map Prod.fst)).map fun k =>
                  QueryEscape k ++ "=" ++ QueryEscape
                    (sanitizeString (mapGet (mapSet params "wts" (FormatInt now)) k))))
                ++ (mixinKeyEncTab.take 32).map fun v =>
                  (utf8 (imgKey ++ subKey)).getD v 0)) := by
    intro params hnd
    refine ⟨_, encWbi_eq md5Sum now params imgKey subKey _ hmk, ?_, ?_, ?_, ?_⟩
    · apply nodup_keys_mapSet
      rw [keys_mapValues]
      exact nodup_keys_mapSet _ _ _ hnd
    · intro k
      rw [mem_keys_mapSet, keys_mapValues, mem_keys_mapSet, or_assoc]
    · intro k hk
      rw [mapGet_mapSet_ne _ _ _ _ (Ne.symm hk)]
      exact mapGet_sanitized _ k
    · rw [mapGet_mapSet_self, encWbi_query params now hnd]
  constructor
  · intro params hnd
    obtain ⟨res, hres, hnd2, hkeys2, hval, hrid⟩ := hmain params hnd
    refine ⟨_, res, hmk, hres, hnd2, hkeys2, ?_, ?_, ?_, ?_, ?_, ?_⟩
    · intro k v hmem hk1 hk2
      have hv : mapGet (mapSet params "wts" (FormatInt now)) k = v := by
        rw [mapGet_mapSet_ne _ _ _ _ (Ne.symm hk1)]
        unfold mapGet
        rw [mapGet?_of_mem params k v hnd hmem]
        rfl
      have h1 : mapGet res k = sanitizeString v := by rw [hval k hk2, hv]
      exact ⟨h1, by rw [h1, sanitizeString_data]⟩
    · rw [hval "wts" (by decide), mapGet_mapSet_self, sanitizeString_FormatInt]
    · intro k hk c hc
      rw [hval k hk]
      exact sanitizeString_clean _ c hc
    · exact ⟨_, sortStrings_perm _, sortStrings_sorted _, hrid⟩
    · rw [hrid, hexEncode_length, hmd5]
    · rw [hrid]
      exact hexEncode_chars _
  · intro query hne
    obtain ⟨params, hfv, hnd, hget⟩ := firstValues_spec query hne
    obtain ⟨res, hres, hnd2, hkeys2, _, _⟩ := hmain params hnd
    refine ⟨params, res,
      res.foldl (fun (query : List (String × List String)) p => mapSet query p.1 [p.2]) query,
      hfv, hget, hres, ?_, ?_⟩
    · unfold SignAndGenerateURL
      simp only [hfv, hres]
    · intro k
      rw [mapGet?_foldl_pairs k res query hnd2]
      cases hk : mapGet? res k with
      | some v => rfl
      | none =>
        simp only [Option.map_none']
        rw [mapGet?_eq_none] at hk ⊢
        intro hq
        apply hk
        rw [hkeys2]
        left
        rw [← not_not (a := k ∈ params.map Prod.fst), ← mapGet?_eq_none, hget]
        have hsome : mapGet? query k ≠ none := by
          rw [Ne, mapGet?_eq_none, not_not]
          exact hq
        obtain ⟨vs, hvs⟩ := Option.ne_none_iff_exists'.mp hsome
        have hvq : (k, vs) ∈ query := by
          clear hne hfv hget hq hsome
          induction query with
          | nil => simp [mapGet?] at hvs
          | cons p query ih =>
            obtain ⟨k1, v1⟩ := p
            simp only [mapGet?] at hvs
            split_ifs at hvs with h1
            · cases hvs
              subst h1
              exact List.mem_cons_self _ _
            · exact List.mem_cons_of_mem _ (ih hvs)
        have hvne := hne (k, vs) hvq
        obtain ⟨v0, vt, hv0⟩ := List.exists_cons_of_ne_nil hvne
        simp only at hv0
        rw [hvs, hv0]
        simp

/-- Witness of C23: the parameters `foo`, `bar` and `zab` of the API documentation, its two
keys and its time, with a digest whose 16 bytes are all 171. -/
theorem encWbi_spec_witness :
    ("7cd084941338484aae1ad9425b84077c" ++ "4932caff0ff746eab6f01bf08b70ac45").length = 64
      ∧ (∀ x : List Nat, ((fun _ => List.replicate 16 171) x : List Nat).length = 16)
      ∧ ([("foo", "114"), ("bar", "5(1)4"), ("zab", "1919810")].map Prod.fst).Nodup
      ∧ ∃ mixinKey res,
          getMixinKey ("7cd084941338484aae1ad9425b84077c" ++ "4932caff0ff746eab6f01bf08b70ac45")
            = some mixinKey
          ∧ encWbi (fun _ => List.replicate 16 171) 1702204169
              [("foo", "114"), ("bar", "5(1)4"), ("zab", "1919810")]
              "7cd084941338484aae1ad9425b84077c" "4932caff0ff746eab6f01bf08b70ac45" = some res
          ∧ (∀ k, k ∈ res.map Prod.fst
              ↔ k ∈ [("foo", "114"), ("bar", "5(1)4"), ("zab", "1919810")].map Prod.fst
                ∨ k = "wts" ∨ k = "w_rid")
          ∧ mapGet res "wts" = FormatInt 1702204169
          ∧ (mapGet res "w_rid").length = 32 := by
  refine ⟨by decide, fun _ => by simp, by decide, ?_⟩
  obtain ⟨mixinKey, res, h1, h2, _, h4, _, h6, _, _, h9, _⟩ :=
    (encWbi_spec (fun _ => List.replicate 16 171) 1702204169
      "7cd084941338484aae1ad9425b84077c" "4932caff0ff746eab6f01bf08b70ac45" (by decide)
      (fun _ => by simp)).1 [("foo", "114"), ("bar", "5(1)4"), ("zab", "1919810")] (by decide)
  exact ⟨mixinKey, res, h1, h2, h4, h6, h9⟩

end Bili
